import Mathlib

/-! MSM MDDI transport and Scorpion CPU clock: two drivers of the MSM kernel tree.

Namespace `Mddi` is a shallow embedding of `drivers/video/msm/mddi.c`.  The driver state
`struct mddi_info` becomes a record that is passed explicitly; every hardware register
write is appended to a log kept in that record, so that command sequences can be stated as
facts about the log.  Namespace `Acpuclock` embeds `arch/arm/mach-msm/acpuclock-scorpion.c`
in the same way.  The definitions of both come first, the theorems after them.

Conventions
* Memory is a function from byte offsets to byte values; multi-byte fields are read
  little-endian (the target is little-endian ARM, and `mddi_handle_rev_data_avail` itself
  composes the length low byte first).
* `uint32_t` values are natural numbers below `2 ^ 32`; a negative C constant stored in
  an unsigned field is written as its two's complement.
* Pointers to `struct reg_read_info` are natural numbers indexing the field `ri`.
-/

namespace Mddi

/-! ## What `mddi_hw.h` provides -/

/-- Constants and record layouts that the driver takes from `mddi_hw.h` (and `EIO` from the
kernel's errno table).  Those headers are not part of the sources, so each value the code
uses is a field of this record and the development is parametric in it. -/
structure mddi_hw where
  /-- Size in bytes of the reverse ring, `MDDI_REV_BUFFER_SIZE`. -/
  MDDI_REV_BUFFER_SIZE : Nat
  /-- The value of `sizeof(struct mddi_rev_packet)`. -/
  sizeof_mddi_rev_packet : Nat
  /-- The value of `sizeof(struct mddi_client_caps)`. -/
  sizeof_mddi_client_caps : Nat
  /-- The value of `sizeof(struct mddi_client_status)`. -/
  sizeof_mddi_client_status : Nat
  /-- Byte offset of the 16-bit member `type` in every reverse packet. -/
  offsetof_type : Nat
  /-- Byte offset of the 32-bit member `register_address` of `struct mddi_register_access`. -/
  offsetof_register_address : Nat
  /-- Byte offset of the 32-bit member `register_data_list`. -/
  offsetof_register_data_list : Nat
  TYPE_CLIENT_CAPS : Nat
  TYPE_CLIENT_STATUS : Nat
  TYPE_REGISTER_ACCESS : Nat
  /-- The value of `offsetof(struct mddi_llentry, u.r.register_data_list)`. -/
  offsetof_llentry_register_data_list : Nat
  MDDI_READ : Nat
  MDDI_WRITE : Nat
  MDDI_INT_REV_DATA_AVAIL : Nat
  MDDI_INT_PRI_LINK_LIST_DONE : Nat
  MDDI_INT_NO_CMD_PKTS_PEND : Nat
  MDDI_INT_IN_HIBERNATION : Nat
  MDDI_STAT_RTD_MEAS_FAIL : Nat
  /-- The errno constant used for a link fault. -/
  EIO : Nat
  MDDI_INT_LINK_ACTIVE : Nat
  /-- The mask `MDDI_INT_NEED_CLEAR` of the signals that stay enabled after they fire. -/
  MDDI_INT_NEED_CLEAR : Nat
  MDDI_INT_REV_OVERFLOW : Nat
  MDDI_INT_REV_OVERWRITE : Nat
  MDDI_INT_RTD_FAILURE : Nat
  MDDI_HOST_BYTES_PER_SUBFRAME : Nat
  MDDI_HOST_TA2_LEN : Nat
  MDDI_HOST_REV_RATE_DIV : Nat
  MDDI_MAX_REV_PKT_SIZE : Nat
  /-- The value of `sizeof(struct mddi_llentry)`. -/
  sizeof_mddi_llentry : Nat
  /-- The errno constant returned when the DMA page cannot be allocated. -/
  ENOMEM : Nat
  /-- The errno constant returned for an unsupported core version. -/
  ENODEV : Nat

/-- The flag bit `FLAG_DISABLE_HIBERNATION`. -/
def FLAG_DISABLE_HIBERNATION : Nat := 0x0001
/-- The flag bit `FLAG_HAVE_CAPS`. -/
def FLAG_HAVE_CAPS : Nat := 0x0002
/-- The flag bit `FLAG_HAS_VSYNC_IRQ`. -/
def FLAG_HAS_VSYNC_IRQ : Nat := 0x0004
/-- The flag bit `FLAG_HAVE_STATUS`. -/
def FLAG_HAVE_STATUS : Nat := 0x0008

/-- Modelled from the spec: the numeric command codes of `mddi_hw.h` are not among the
sources.  Section 6 of the spec lists the command register writes as distinct commands
(reset, link-active, hibernate toggle, force-new-reverse-pointer, periodic reverse
encapsulation enable/disable, round-trip-delay measurement, get-capabilities, get-status),
so each macro name used by the driver is one constructor; the low bits the code ORs into a
command are the constructor's argument. -/
inductive mddi_cmd where
  | MDDI_CMD_LINK_ACTIVE
  | MDDI_CMD_FORCE_NEW_REV_PTR
  /-- The write `MDDI_CMD_PERIODIC_REV_ENCAP | low`. -/
  | MDDI_CMD_PERIODIC_REV_ENCAP (low : Nat)
  | MDDI_CMD_POWERDOWN
  /-- The write `MDDI_CMD_HIBERNATE | low`. -/
  | MDDI_CMD_HIBERNATE (low : Nat)
  | MDDI_CMD_RESET
  | MDDI_CMD_SEND_RTD
  | MDDI_CMD_DISP_IGNORE
  | CMD_GET_CLIENT_CAP
  | CMD_GET_CLIENT_STATUS
deriving DecidableEq, Repr

/-- The record `struct mddi_register_access` as the driver fills it in a descriptor. -/
structure mddi_register_access where
  length : Nat
  type : Nat
  client_id : Nat
  read_write_info : Nat
  crc16 : Nat
  register_address : Nat
  register_data_list : Nat
deriving DecidableEq, Repr

/-- The link-list descriptor `struct mddi_llentry`, with `u_r` its member `u.r`. -/
structure mddi_llentry where
  flags : Nat
  header_count : Nat
  data_count : Nat
  data : Nat
  next : Nat
  reserved : Nat
  u_r : mddi_register_access
deriving DecidableEq, Repr

/-- The configuration registers `mddi_init_registers` writes, by the name the code gives
to `mddi_writel`. -/
inductive mddi_reg where
  | VERSION
  | BPS
  | SPM
  | TA1_LEN
  | TA2_LEN
  | DRIVE_HI
  | DRIVE_LO
  | DISP_WAKE
  | REV_RATE_DIV
  | REV_SIZE
  | REV_ENCAP_SZ
  | PAD_CTL
  | DRIVER_START_CNT
deriving DecidableEq, Repr

/-- One `mddi_writel(v, r)`: the register written and the value.  A write to `PRI_PTR`
also records the descriptor found at the address written, which is what the hardware
fetches. -/
inductive hw_write where
  | INT (v : Nat)
  | INTEN (v : Nat)
  | REV_PTR (v : Nat)
  | PRI_PTR (v : Nat) (ll : mddi_llentry)
  | CMD (c : mddi_cmd)
  /-- A write to one of the configuration registers. -/
  | REG (r : mddi_reg) (v : Nat)
deriving DecidableEq, Repr

/-- The record `struct reg_read_info`; `done` is the counter of its `struct completion`. -/
structure reg_read_info where
  done : Nat
  reg : Nat
  status : Nat
  result : Nat
deriving DecidableEq, Repr

/-- Calls the driver makes into collaborators outside this file. -/
inductive ext_call where
  /-- The call `mddi->mddi_enable(&mddi->panel_info, on)`. -/
  | mddi_enable (enable : Nat)
  /-- The call `platform_device_register(&mddi->client_pdev)`, with the capability
  snapshot the client name was formatted from. -/
  | platform_device_register_client (caps : List Nat)
deriving DecidableEq, Repr

/-- The members of `mddi->panel_info` that `mddi_init` copies from the platform data.
The members `width` and `height` are copied from members of the capability snapshot whose
place in `struct mddi_client_caps` is fixed by `mddi_hw.h`; they are not represented. -/
structure mddi_panel_info where
  fb_base : Nat
  fb_size : Nat
deriving DecidableEq, Repr

/-- The driver state `struct mddi_info` (the members the reverse-channel engine uses),
together with the objects its pointers reach, three logs and a fault mark. -/
structure mddi_info where
  flags : Nat
  version : Nat
  /-- Bytes of the DMA page, offset 0 being `mddi->rev_data`. -/
  rev_data : Nat → Nat
  rev_addr : Nat
  reg_write_data : mddi_llentry
  reg_write_addr : Nat
  reg_read_data : mddi_llentry
  reg_read_addr : Nat
  rev_data_curr : Nat
  int_enable : Nat
  got_int : Nat
  /-- The pending-read slot; `none` is the null pointer. -/
  reg_read : Option Nat
  caps : List Nat
  status : List Nat
  /-- Whether the callback pointer `mddi->mddi_enable` is non-null. -/
  mddi_enable : Bool
  panel_info : mddi_panel_info
  /-- The `struct reg_read_info` objects, by address. -/
  ri : Nat → reg_read_info
  /-- The file-scope variable `mddi_debug_flags`. -/
  mddi_debug_flags : Nat
  /-- Set once a `memset` of the handler has been asked to write past the end of the ring.
  What such a call overwrites lies outside the ring, so from then on the other members no
  longer tell what the kernel holds. -/
  mem_fault : Bool
  /-- Log of register writes, oldest first. -/
  hw_log : List hw_write
  /-- Log of the frames handed to `mddi_handle_rev_data`, oldest first. -/
  rev_log : List (Nat → Nat)
  /-- Number of `wake_up(&mddi->int_wait)` calls. -/
  int_wait_wake_ups : Nat
  /-- Log of calls into collaborators, oldest first. -/
  ext_log : List ext_call

/-- What the hardware presents when the reverse-data handler runs: the bytes of the DMA
page, the two counters the handler reads, and the prior contents of the stack slot that
`tmprev` occupies (it is not initialised by the code). -/
structure rev_event where
  mem : Nat → Nat
  REV_PKT_CNT : Nat
  REV_CRC_ERR : Nat
  stack : Nat → Nat

/-! ## Byte-level helpers -/

/-- A little-endian `uint16_t` member at byte offset `o`. -/
def rd16 (f : Nat → Nat) (o : Nat) : Nat :=
  f o % 256 + 256 * (f (o + 1) % 256)

/-- A little-endian `uint32_t` member at byte offset `o`. -/
def rd32 (f : Nat → Nat) (o : Nat) : Nat :=
  f o % 256 + 256 * (f (o + 1) % 256) + 65536 * (f (o + 2) % 256)
    + 16777216 * (f (o + 3) % 256)

/-- The call `memset(base + start, c, n)` on a byte memory. -/
def memset (mem : Nat → Nat) (start c n : Nat) : Nat → Nat :=
  fun a => if start ≤ a ∧ a < start + n then c else mem a

/-- The value of a negated C `int` constant once stored in a `uint32_t`. -/
def neg32 (x : Nat) : Nat := (2 ^ 32 - x % 2 ^ 32) % 2 ^ 32

/-! ## The reverse-data path -/

/-- One `mddi_writel`. -/
def mddi_writel (w : hw_write) (m : mddi_info) : mddi_info :=
  { m with hw_log := m.hw_log ++ [w] }

/-- The kernel primitive `complete(&ri->done)` on the object at address `r`. -/
def complete (r : Nat) (m : mddi_info) : mddi_info :=
  { m with ri := Function.update m.ri r { (m.ri r) with done := (m.ri r).done + 1 } }

/-- The assignment `ri->status = v` on the object at address `r`. -/
def ri_set_status (r v : Nat) (m : mddi_info) : mddi_info :=
  { m with ri := Function.update m.ri r { (m.ri r) with status := v } }

/-- The assignment `ri->result = v` on the object at address `r`. -/
def ri_set_result (r v : Nat) (m : mddi_info) : mddi_info :=
  { m with ri := Function.update m.ri r { (m.ri r) with result := v } }

/-- The kernel primitive `wake_up(&mddi->int_wait)`. -/
def wake_up (m : mddi_info) : mddi_info :=
  { m with int_wait_wake_ups := m.int_wait_wake_ups + 1 }

/-- The function `mddi_reset_rev_encap_ptr`. -/
def mddi_reset_rev_encap_ptr (m : mddi_info) : mddi_info :=
  let m := { m with rev_data_curr := 0 }
  let m := mddi_writel (.REV_PTR m.rev_addr) m
  let m := mddi_writel (.REV_PTR m.rev_addr) m
  mddi_writel (.CMD .MDDI_CMD_FORCE_NEW_REV_PTR) m

/-- The `case TYPE_REGISTER_ACCESS` arm of `mddi_handle_rev_data` (lines 174-198). -/
def rev_register_access (hw : mddi_hw) (rev : Nat → Nat) (m : mddi_info) : mddi_info :=
  match m.reg_read with
  | none => m
  | some ri =>
    if (m.ri ri).reg ≠ rd32 rev hw.offsetof_register_address then m
    else
      let m := { m with reg_read := none }
      let m := ri_set_status ri 0 m
      let m := ri_set_result ri (rd32 rev hw.offsetof_register_data_list) m
      complete ri m

/-- The function `mddi_handle_rev_data`; `rev` is the frame it is handed, by byte offset.
The member `hdr.length` is the first member and is read at offset 0. -/
def mddi_handle_rev_data (hw : mddi_hw) (rev : Nat → Nat) (m : mddi_info) : mddi_info :=
  let m := { m with rev_log := m.rev_log ++ [rev] }
  let length := rd16 rev 0
  if length ≤ hw.MDDI_REV_BUFFER_SIZE - 2 ∧ length ≥ hw.sizeof_mddi_rev_packet - 2 then
    let type := rd16 rev hw.offsetof_type
    if type = hw.TYPE_CLIENT_CAPS then
      let m := { m with caps := (List.range hw.sizeof_mddi_client_caps).map rev }
      let m := { m with flags := m.flags ||| FLAG_HAVE_CAPS }
      wake_up m
    else if type = hw.TYPE_CLIENT_STATUS then
      let m := { m with status := (List.range hw.sizeof_mddi_client_status).map rev }
      let m := { m with flags := m.flags ||| FLAG_HAVE_STATUS }
      wake_up m
    else if type = hw.TYPE_REGISTER_ACCESS then
      rev_register_access hw rev m
    else mddi_reset_rev_encap_ptr m
  else mddi_reset_rev_encap_ptr m

/-- The 16-bit length `mddi_handle_rev_data_avail` composes from the two bytes at the
cursor `p`, the second one read after the cursor has been wrapped (lines 276-280). -/
def rev_length (hw : mddi_hw) (mem : Nat → Nat) (p : Nat) : Nat :=
  let length := mem p % 256
  let curr := p + 1
  let curr := if curr = hw.MDDI_REV_BUFFER_SIZE then 0 else curr
  (length + (mem curr % 256) * 256) % 65536

/-- The cursor `mddi_handle_rev_data_avail` computes for a packet of length `length`
found at `p` (lines 277-284). -/
def rev_next_cursor (hw : mddi_hw) (p length : Nat) : Nat :=
  let curr := p + 1
  let curr := if curr = hw.MDDI_REV_BUFFER_SIZE then 0 else curr
  let curr := curr + (1 + length)
  if curr ≥ hw.MDDI_REV_BUFFER_SIZE then curr % hw.MDDI_REV_BUFFER_SIZE else curr

/-- The frame `mddi_handle_rev_data_avail` dispatches for a packet of length `length` at
`prev_offset`: the scratch frame `tmprev` filled by the two `memcpy` calls when the packet
reaches the end of the ring, the ring in place (`crev`) otherwise. -/
def rev_frame (hw : mddi_hw) (ev : rev_event) (prev_offset length : Nat) : Nat → Nat :=
  if prev_offset + 2 + length ≥ hw.MDDI_REV_BUFFER_SIZE then
    let rem := hw.MDDI_REV_BUFFER_SIZE - prev_offset
    fun i =>
      if rem ≤ i ∧ i < rem + (2 + length - rem) then ev.mem (i - rem)
      else if i < rem then ev.mem (prev_offset + i)
      else ev.stack i
  else
    fun i => ev.mem (prev_offset + i)

/-- The start of `mddi_handle_rev_data_avail` (lines 231-255): the ring holds what the
hardware put there, the interrupt is acknowledged, and a nonzero CRC-error count fails the
pending read. -/
def rev_entry (hw : mddi_hw) (ev : rev_event) (m : mddi_info) : mddi_info :=
  let m := { m with rev_data := ev.mem }
  let m := mddi_writel (.INT hw.MDDI_INT_REV_DATA_AVAIL) m
  if ev.REV_CRC_ERR ≠ 0 then
    match m.reg_read with
    | none => m
    | some ri =>
      let m := { m with reg_read := none }
      let m := ri_set_status ri (neg32 hw.EIO) m
      let m := ri_set_result ri (neg32 1) m
      complete ri m
  else m

/-- One debug call `memset(mddi->rev_data + start, 0xee, n)`.  The ring has
`MDDI_REV_BUFFER_SIZE` bytes: a call that reaches past its end is marked in `mem_fault`. -/
def rev_memset (hw : mddi_hw) (start n : Nat) (m : mddi_info) : mddi_info :=
  let m := { m with rev_data := memset m.rev_data start 0xee n }
  if start + n ≤ hw.MDDI_REV_BUFFER_SIZE then m else { m with mem_fault := true }

/-- The dispatch of `mddi_handle_rev_data_avail` (lines 293-308), with the debug `memset`
calls.  `size_t` is 32 bits wide on the target, which matters only for the length of the
last `memset`: after a resynchronisation the cursor is 0, the subtraction wraps and the
`memset` is asked to write `2 ^ 32 - prev_offset` bytes. -/
def rev_dispatch (hw : mddi_hw) (ev : rev_event) (prev_offset length : Nat) (m : mddi_info) :
    mddi_info :=
  if prev_offset + 2 + length ≥ hw.MDDI_REV_BUFFER_SIZE then
    let rem := hw.MDDI_REV_BUFFER_SIZE - prev_offset
    let m := mddi_handle_rev_data hw (rev_frame hw ev prev_offset length) m
    if m.mddi_debug_flags &&& 2 ≠ 0 then
      let m := rev_memset hw prev_offset rem m
      rev_memset hw 0 m.rev_data_curr m
    else m
  else
    let m := mddi_handle_rev_data hw (rev_frame hw ev prev_offset length) m
    if m.mddi_debug_flags &&& 2 ≠ 0 then
      let n := (m.rev_data_curr + 2 ^ 32 - prev_offset) % 2 ^ 32
      rev_memset hw prev_offset n m
    else m

/-- The end of `mddi_handle_rev_data_avail` (lines 312-317): the reverse pointer is
announced again when the cursor has crossed the middle of the ring. -/
def rev_half_way (hw : mddi_hw) (prev_offset : Nat) (m : mddi_info) : mddi_info :=
  if prev_offset < hw.MDDI_REV_BUFFER_SIZE / 2 ∧
      m.rev_data_curr ≥ hw.MDDI_REV_BUFFER_SIZE / 2 then
    mddi_writel (.REV_PTR m.rev_addr) m
  else m

/-- The assignment of `c` to `mddi->rev_data_curr`. -/
def with_cursor (c : Nat) (m : mddi_info) : mddi_info := { m with rev_data_curr := c }

/-- The state `m` with the contents of its ring replaced by `d`. -/
def with_ring (d : Nat → Nat) (m : mddi_info) : mddi_info := { m with rev_data := d }

/-- The state `m` after debug writes: ring contents `d` and fault mark `b`. -/
def with_debug (d : Nat → Nat) (b : Bool) (m : mddi_info) : mddi_info :=
  { m with rev_data := d, mem_fault := b }

/-- The function `mddi_handle_rev_data_avail`, run on what the hardware presents in `ev`. -/
def mddi_handle_rev_data_avail (hw : mddi_hw) (ev : rev_event) (m : mddi_info) : mddi_info :=
  let m := rev_entry hw ev m
  if ev.REV_PKT_CNT = 0 then m
  else
    let prev_offset := m.rev_data_curr
    let length := rev_length hw m.rev_data m.rev_data_curr
    let m := with_cursor (rev_next_cursor hw m.rev_data_curr length) m
    if length > hw.MDDI_REV_BUFFER_SIZE - 2 then
      mddi_reset_rev_encap_ptr m
    else
      rev_half_way hw prev_offset (rev_dispatch hw ev prev_offset length m)

/-- The reverse-data handler run once for each element of `evs`, in order. -/
def run_events (hw : mddi_hw) (evs : List rev_event) (m : mddi_info) : mddi_info :=
  evs.foldl (fun m ev => mddi_handle_rev_data_avail hw ev m) m

/-! ## The calling thread and its environment

The functions below run in a caller's thread and block.  While a caller is blocked the
interrupt handler may run; of its work only the calls of `mddi_handle_rev_data_avail`
touch the state these functions read back.  The environment is therefore a list with one
entry per blocking call, in order: given the driver state at the moment the caller goes
to sleep, the entry yields what the hardware presents at each reverse-data interrupt taken
before the caller resumes.  An exhausted list means no further interrupt.  A call that
finds its condition met on entry does not sleep and consumes no entry.  Mutexes are not
modelled: there is one calling thread. -/

/-- The driver state together with its environment. -/
structure sys where
  mddi : mddi_info
  /-- Interrupt activity during each blocking call still to come. -/
  waits : List (mddi_info → List rev_event)
  /-- Values returned by the reads of `STAT` still to come whose result the code uses. -/
  STAT : List Nat
  /-- For each blocking call made so far, oldest first: the driver state in which the
  caller went to sleep and the reverse-data interrupts taken before it resumed. -/
  slept : List (mddi_info × List rev_event)

/-- A state change made by the calling thread itself. -/
def sys.upd (f : mddi_info → mddi_info) (s : sys) : sys :=
  { s with mddi := f s.mddi }

/-- The caller sleeps: the interrupt activity of the next environment entry runs, and
the sleep is added to the log. -/
def block (hw : mddi_hw) (s : sys) : sys :=
  match s.waits with
  | [] => { s with slept := s.slept ++ [(s.mddi, [])] }
  | f :: rest =>
    { s with mddi := run_events hw (f s.mddi) s.mddi, waits := rest,
             slept := s.slept ++ [(s.mddi, f s.mddi)] }

/-- The bitwise complement of a `uint32_t`. -/
def not32 (x : Nat) : Nat := 0xFFFFFFFF ^^^ (x % 2 ^ 32)

/-- The locked section of `mddi_wait_interrupt_timeout` (lines 377-381), which arms the
wait. -/
def mddi_wait_interrupt_arm (intmask : Nat) (m : mddi_info) : mddi_info :=
  let m := { m with got_int := m.got_int &&& not32 intmask }
  let m := { m with int_enable := m.int_enable ||| intmask }
  mddi_writel (.INTEN m.int_enable) m

/-- The function `mddi_wait_interrupt_timeout`: the wait is armed under the lock, then the
caller sleeps.  The delivered mask is set by `mddi_isr`; the return value is not
computed here because its only use is to select a log message. -/
def mddi_wait_interrupt_timeout (hw : mddi_hw) (intmask : Nat) (s : sys) : sys :=
  block hw (s.upd (mddi_wait_interrupt_arm intmask))

/-- The function `mddi_wait_interrupt`. -/
def mddi_wait_interrupt (hw : mddi_hw) (intmask : Nat) (s : sys) : sys :=
  mddi_wait_interrupt_timeout hw intmask s

/-- The kernel primitive `msleep`. -/
def msleep (hw : mddi_hw) (s : sys) : sys := block hw s

/-- One `mddi_readl(STAT)` whose value is used. -/
def mddi_readl_STAT (s : sys) : Nat × sys :=
  match s.STAT with
  | [] => (0, s)
  | v :: rest => (v, { s with STAT := rest })

/-- The function `mddi_set_auto_hibernate`. -/
def mddi_set_auto_hibernate (hw : mddi_hw) (enable : Nat) (s : sys) : sys :=
  let s := s.upd (mddi_writel (.CMD .MDDI_CMD_POWERDOWN))
  let s := mddi_wait_interrupt hw hw.MDDI_INT_IN_HIBERNATION s
  let s := s.upd (mddi_writel (.CMD (.MDDI_CMD_HIBERNATE (if enable ≠ 0 then 1 else 0))))
  mddi_wait_interrupt hw hw.MDDI_INT_NO_CMD_PKTS_PEND s

/-- The descriptor `mddi_remote_write` builds in `*mddi->reg_write_data` (lines 749-767);
every member is assigned. -/
def write_llentry (hw : mddi_hw) (val reg reg_write_addr : Nat) : mddi_llentry :=
  { flags := 1, header_count := 14, data_count := 4,
    data := reg_write_addr + hw.offsetof_llentry_register_data_list,
    next := 0, reserved := 0,
    u_r := { length := 14 + 4, type := hw.TYPE_REGISTER_ACCESS, client_id := 0,
             read_write_info := hw.MDDI_WRITE ||| 1, crc16 := 0,
             register_address := reg % 2 ^ 32, register_data_list := val % 2 ^ 32 } }

/-- The function `mddi_remote_write`. -/
def mddi_remote_write (hw : mddi_hw) (val reg : Nat) (s : sys) : sys :=
  let s := s.upd fun m =>
    { m with reg_write_data := write_llentry hw val reg m.reg_write_addr }
  let s := s.upd fun m => mddi_writel (.PRI_PTR m.reg_write_addr m.reg_write_data) m
  mddi_wait_interrupt hw hw.MDDI_INT_PRI_LINK_LIST_DONE s

/-- The kernel primitive `init_completion(&ri.done)` on the object at address `r`. -/
def init_completion (r : Nat) (m : mddi_info) : mddi_info :=
  { m with ri := Function.update m.ri r { (m.ri r) with done := 0 } }

/-- The decrement of the counter of the completion at address `r` by a successful wait. -/
def consume_completion (r : Nat) (m : mddi_info) : mddi_info :=
  { m with ri := Function.update m.ri r { (m.ri r) with done := (m.ri r).done - 1 } }

/-- The kernel primitive `wait_for_completion_timeout(&ri.done, ..)`: the caller sleeps
unless the completion has been signalled already; a signalled completion is consumed and a
nonzero value returned, otherwise 0. -/
def wait_for_completion_timeout (hw : mddi_hw) (r : Nat) (s : sys) : Nat × sys :=
  let s := if (s.mddi.ri r).done ≠ 0 then s else block hw s
  if (s.mddi.ri r).done ≠ 0 then (1, s.upd (consume_completion r)) else (0, s)

/-- The timeout branch of `mddi_remote_read` (lines 843-847). -/
def read_timeout (r : Nat) (m : mddi_info) : mddi_info :=
  let m := { m with reg_read := none }
  let m := ri_set_status r (neg32 1) m
  ri_set_result r (neg32 1) m

/-- The first half of one attempt of `mddi_remote_read` (lines 821-837): the registration
is made pending, the read descriptor is submitted and periodic reverse encapsulation is
enabled. -/
def read_submit (hw : mddi_hw) (r : Nat) (s : sys) : sys :=
  let s := s.upd (init_completion r)
  let s := s.upd fun m => { m with reg_read := some r }
  let s := s.upd fun m => mddi_writel (.PRI_PTR m.reg_read_addr m.reg_read_data) m
  let s := mddi_wait_interrupt hw hw.MDDI_INT_PRI_LINK_LIST_DONE s
  let s := s.upd (mddi_writel (.CMD (.MDDI_CMD_PERIODIC_REV_ENCAP 1)))
  mddi_wait_interrupt hw hw.MDDI_INT_NO_CMD_PKTS_PEND s

/-- The second half of one attempt of `mddi_remote_read` (lines 838-848): the wait for
the completion and the timeout branch. -/
def read_collect (hw : mddi_hw) (r : Nat) (s : sys) : sys :=
  let t := wait_for_completion_timeout hw r s
  if t.1 = 0 ∧ (t.2.mddi.ri r).done = 0 then t.2.upd (read_timeout r) else t.2

/-- One attempt of `mddi_remote_read` (lines 821-848), up to the test of `ri.status`. -/
def read_attempt (hw : mddi_hw) (r : Nat) (s : sys) : sys :=
  read_collect hw r (read_submit hw r s)

/-- The retrain step of `mddi_remote_read` after a failed attempt (lines 855-860). -/
def read_retrain (hw : mddi_hw) (s : sys) : sys :=
  let s := s.upd (mddi_writel (.CMD .MDDI_CMD_SEND_RTD))
  let s := s.upd (mddi_writel (.CMD .MDDI_CMD_LINK_ACTIVE))
  mddi_wait_interrupt hw hw.MDDI_INT_NO_CMD_PKTS_PEND s

/-- The `do { .. } while (retry_count-- > 0)` loop of `mddi_remote_read`, entered with
the given value of `retry_count`. -/
def mddi_remote_read_loop (hw : mddi_hw) (r : Nat) : Nat → sys → sys
  | retry_count, s =>
    let s := read_attempt hw r s
    if (s.mddi.ri r).status = 0 then s
    else
      let s := read_retrain hw s
      match retry_count with
      | 0 => s
      | n + 1 => mddi_remote_read_loop hw r n s

/-- The descriptor `mddi_remote_read` builds in `*mddi->reg_read_data` (lines 796-812);
the member `register_data_list` is not assigned and keeps its old value. -/
def read_llentry (hw : mddi_hw) (reg : Nat) (old : mddi_llentry) : mddi_llentry :=
  { flags := 0x11, header_count := 14, data_count := 0, data := 0, next := 0, reserved := 0,
    u_r := { length := 14, type := hw.TYPE_REGISTER_ACCESS, client_id := 0,
             read_write_info := hw.MDDI_READ ||| 1, crc16 := 0,
             register_address := reg % 2 ^ 32,
             register_data_list := old.u_r.register_data_list } }

/-- The assignment `ri.reg = v` on the object at address `r`. -/
def ri_set_reg (r v : Nat) (m : mddi_info) : mddi_info :=
  { m with ri := Function.update m.ri r { (m.ri r) with reg := v } }

/-- The function `mddi_remote_read`; `r` is the address of its local `ri`.  The value
returned is `ri.result`. -/
def mddi_remote_read (hw : mddi_hw) (reg r : Nat) (s : sys) : Nat × sys :=
  let s := s.upd fun m => { m with reg_read_data := read_llentry hw reg m.reg_read_data }
  let s := s.upd (ri_set_reg r (reg % 2 ^ 32))
  let s := s.upd (ri_set_status r (neg32 1))
  let s := mddi_remote_read_loop hw r 2 s
  let s := s.upd (mddi_writel (.CMD (.MDDI_CMD_PERIODIC_REV_ENCAP 0)))
  let s := mddi_wait_interrupt hw hw.MDDI_INT_NO_CMD_PKTS_PEND s
  let s := s.upd fun m => { m with reg_read := none }
  ((s.mddi.ri r).result, s)

/-- The kernel primitive `wait_event_timeout(mddi->int_wait, cond, ..)`: the caller
sleeps unless the condition already holds. -/
def wait_event_timeout (hw : mddi_hw) (cond : mddi_info → Bool) (s : sys) : sys :=
  if cond s.mddi then s else block hw s

/-- The inner loop of `mddi_init` (lines 624-642), with `n` iterations left. -/
def mddi_init_rtd_loop (hw : mddi_hw) : Nat → sys → sys
  | 0, s => s
  | n + 1, s =>
    let s := s.upd (mddi_writel (.CMD .MDDI_CMD_SEND_RTD))
    let s := mddi_wait_interrupt hw hw.MDDI_INT_NO_CMD_PKTS_PEND s
    let t := mddi_readl_STAT s
    if t.1 &&& hw.MDDI_STAT_RTD_MEAS_FAIL = 0 then t.2
    else mddi_init_rtd_loop hw n (msleep hw t.2)

/-- The outer loop of `mddi_init` (lines 619-653), with `n` iterations left. -/
def mddi_init_caps_loop (hw : mddi_hw) : Nat → sys → sys
  | 0, s => s
  | n + 1, s =>
    let s := mddi_init_rtd_loop hw 4 s
    let s := s.upd (mddi_writel (.CMD .CMD_GET_CLIENT_CAP))
    let s := mddi_wait_interrupt hw hw.MDDI_INT_NO_CMD_PKTS_PEND s
    let s := wait_event_timeout hw (fun m => m.flags &&& FLAG_HAVE_CAPS ≠ 0) s
    if s.mddi.flags &&& FLAG_HAVE_CAPS ≠ 0 then s
    else mddi_init_caps_loop hw n s

/-- The members of `struct msm_mddi_platform_data` that `mddi_init` reads: which of the
three callbacks are given, `has_vsync_irq`, and the place of the frame buffer. -/
structure msm_mddi_platform_data where
  mddi_client_power : Bool
  mddi_enable : Bool
  panel_power : Bool
  has_vsync_irq : Bool
  fb_base : Nat
  fb_size : Nat
deriving DecidableEq, Repr

/-- The assignments of lines 663-664 from the platform data `pd`. -/
def set_panel_fb (pd : msm_mddi_platform_data) (m : mddi_info) : mddi_info :=
  { m with panel_info := { fb_base := pd.fb_base, fb_size := pd.fb_size } }

/-- The detection part of `mddi_init` (lines 619-692): the two nested loops, then either
the publication of the client device or the power-down, and the return value.  `pd` is the
argument of that name, `none` being the null pointer: lines 663-664 read through it
without a test, so with a null `pd` the function does not return; the result is then
`Except.error` with the state reached.  The assignments to `panel_pdev`, `client_pdev` and
the remaining members of `panel_info` copy values into members nothing here reads back;
the registration is logged with the capability snapshot.  The register reads made only
for the arguments of `printk` are left out. -/
def mddi_init_detect (hw : mddi_hw) (pd : Option msm_mddi_platform_data) (s : sys) :
    Except sys (Int × sys) :=
  let s := mddi_init_caps_loop hw 3 s
  if s.mddi.flags &&& FLAG_HAVE_CAPS ≠ 0 then
    let s := mddi_set_auto_hibernate hw 1 s
    match pd with
    | none => .error s
    | some pd =>
      let s := s.upd (set_panel_fb pd)
      let s := if s.mddi.mddi_enable then
          s.upd fun m => { m with ext_log := m.ext_log ++ [.mddi_enable 1] }
        else s
      let s := s.upd fun m =>
        { m with ext_log := m.ext_log ++ [.platform_device_register_client m.caps] }
      .ok (0, s)
  else
    let s := s.upd (mddi_writel (.CMD .MDDI_CMD_POWERDOWN))
    let s := msleep hw s
    .ok (0, s)

/-! ## Vocabulary for statements about the reverse stream -/

/-- Constraints on the header values that hold for any header the driver compiles
against: the unsigned subtractions in the length checks do not wrap, `type` is a member of
`struct mddi_rev_packet` placed after the 2-byte length, the three `case` labels are
distinct 16-bit values, and `EIO` is an errno other than `EPERM` (which is 1). -/
def hw_sane (hw : mddi_hw) : Prop :=
  2 ≤ hw.MDDI_REV_BUFFER_SIZE ∧ 2 ≤ hw.sizeof_mddi_rev_packet ∧
  2 ≤ hw.offsetof_type ∧ hw.offsetof_type + 2 ≤ hw.sizeof_mddi_rev_packet ∧
  hw.TYPE_CLIENT_CAPS ≠ hw.TYPE_CLIENT_STATUS ∧
  hw.TYPE_CLIENT_CAPS ≠ hw.TYPE_REGISTER_ACCESS ∧
  hw.TYPE_CLIENT_STATUS ≠ hw.TYPE_REGISTER_ACCESS ∧
  hw.TYPE_REGISTER_ACCESS < 65536 ∧
  1 < hw.EIO ∧ hw.EIO ≤ 4095

instance (hw : mddi_hw) : Decidable (hw_sane hw) := by
  unfold hw_sane; infer_instance

/-- The bytes of the ring from cursor `p` on, indices taken modulo the ring size: the
packet as it lies in the cyclic buffer. -/
def ring_frame (hw : mddi_hw) (mem : Nat → Nat) (p : Nat) : Nat → Nat :=
  fun i => mem ((p + i) % hw.MDDI_REV_BUFFER_SIZE)

/-- A packet length inside the valid envelope. -/
def length_in_range (hw : mddi_hw) (l : Nat) : Prop :=
  hw.sizeof_mddi_rev_packet - 2 ≤ l ∧ l ≤ hw.MDDI_REV_BUFFER_SIZE - 2

instance (hw : mddi_hw) (l : Nat) : Decidable (length_in_range hw l) := by
  unfold length_in_range; infer_instance

/-- One of the three packet types the driver knows. -/
def known_type (hw : mddi_hw) (t : Nat) : Prop :=
  t = hw.TYPE_CLIENT_CAPS ∨ t = hw.TYPE_CLIENT_STATUS ∨ t = hw.TYPE_REGISTER_ACCESS

instance (hw : mddi_hw) (t : Nat) : Decidable (known_type hw t) := by
  unfold known_type; infer_instance

/-- A sequence of interrupts each of which finds, where the previous packet ended, a
packet with a nonzero packet count, a length in range and a known type.  The position of
each packet is computed from the lengths alone. -/
def back_to_back (hw : mddi_hw) : Nat → List rev_event → Prop
  | _, [] => True
  | p, ev :: evs =>
    ev.REV_PKT_CNT ≠ 0 ∧ length_in_range hw (rev_length hw ev.mem p) ∧
    known_type hw (rd16 (ring_frame hw ev.mem p) hw.offsetof_type) ∧
    back_to_back hw ((p + (2 + rev_length hw ev.mem p)) % hw.MDDI_REV_BUFFER_SIZE) evs

/-- Total number of bytes, headers included, of the packets of such a sequence. -/
def stream_bytes (hw : mddi_hw) : Nat → List rev_event → Nat
  | _, [] => 0
  | p, ev :: evs =>
    (2 + rev_length hw ev.mem p) +
      stream_bytes hw ((p + (2 + rev_length hw ev.mem p)) % hw.MDDI_REV_BUFFER_SIZE) evs

/-- The register writes of `m2` that come after those already present in `m1`. -/
def new_writes (m1 m2 : mddi_info) : List hw_write :=
  m2.hw_log.drop m1.hw_log.length

/-- Register writes that are interrupt bookkeeping rather than commands of the calling
thread: acknowledgements, enable masks, announcements of the ring base and the forcing
of a new reverse pointer. -/
def bookkeeping_write : hw_write → Bool
  | .INT _ => true
  | .INTEN _ => true
  | .REV_PTR _ => true
  | .CMD .MDDI_CMD_FORCE_NEW_REV_PTR => true
  | _ => false

/-- The descriptor submissions and commands among a list of register writes, in order. -/
def driver_cmds (l : List hw_write) : List hw_write :=
  l.filter fun w => !bookkeeping_write w

/-- The frame the handler dispatches for the interrupt `ev` taken at cursor `p`, if it
dispatches one. -/
def rev_packet (hw : mddi_hw) (ev : rev_event) (p : Nat) : Option (Nat → Nat) :=
  if ev.REV_PKT_CNT = 0 then none
  else if rev_length hw ev.mem p > hw.MDDI_REV_BUFFER_SIZE - 2 then none
  else some (rev_frame hw ev p (rev_length hw ev.mem p))

/-- A frame that is an in-range register-access reply for register address `a`. -/
def is_reply (hw : mddi_hw) (a : Nat) (frame : Nat → Nat) : Prop :=
  length_in_range hw (rd16 frame 0) ∧
  rd16 frame hw.offsetof_type = hw.TYPE_REGISTER_ACCESS ∧
  rd32 frame hw.offsetof_register_address = a

/-- A frame that is an in-range client-capability packet. -/
def is_caps (hw : mddi_hw) (frame : Nat → Nat) : Prop :=
  length_in_range hw (rd16 frame 0) ∧ rd16 frame hw.offsetof_type = hw.TYPE_CLIENT_CAPS

instance (hw : mddi_hw) (a : Nat) (frame : Nat → Nat) : Decidable (is_reply hw a frame) := by
  unfold is_reply; infer_instance

/-- The frame dispatched, if there is one, is a reply for register address `a`. -/
def frame_is_reply (hw : mddi_hw) (a : Nat) : Option (Nat → Nat) → Prop
  | none => False
  | some frame => is_reply hw a frame

/-- Whether the frame dispatched is a reply for `a` can be computed. -/
def frame_is_reply_dec (hw : mddi_hw) (a : Nat) :
    (o : Option (Nat → Nat)) → Decidable (frame_is_reply hw a o)
  | none => isFalse fun h => h
  | some frame => inferInstanceAs (Decidable (is_reply hw a frame))

instance (hw : mddi_hw) (a : Nat) (o : Option (Nat → Nat)) :
    Decidable (frame_is_reply hw a o) := frame_is_reply_dec hw a o

/-- The invocation of the handler on `ev` in state `m` completes the registration at `r`
by a reply: the registration is in the pending slot, no CRC error is reported (which would
fail the registration first), and the frame dispatched is a reply for its register. -/
def reply_completes (hw : mddi_hw) (r : Nat) (m : mddi_info) (ev : rev_event) : Prop :=
  m.reg_read = some r ∧ ev.REV_CRC_ERR = 0 ∧
  frame_is_reply hw (m.ri r).reg (rev_packet hw ev m.rev_data_curr)

instance (hw : mddi_hw) (r : Nat) (m : mddi_info) (ev : rev_event) :
    Decidable (reply_completes hw r m ev) := by
  unfold reply_completes; infer_instance

/-- The data member of the frame dispatched for `ev` at cursor `p`; 0 if none is. -/
def reply_data (hw : mddi_hw) (ev : rev_event) (p : Nat) : Nat :=
  match rev_packet hw ev p with
  | none => 0
  | some frame => rd32 frame hw.offsetof_register_data_list

/-- During the batch `evs`, taken in order from the state `m`, no reply completes the
registration at `r`. -/
def unanswered (hw : mddi_hw) (r : Nat) : mddi_info → List rev_event → Prop
  | _, [] => True
  | m, ev :: evs =>
    ¬ reply_completes hw r m ev ∧ unanswered hw r (mddi_handle_rev_data_avail hw ev m) evs

/-- During the batch `evs`, taken in order from the state `m`, a reply completes the
registration at `r`, and it carries `v`. -/
def answered (hw : mddi_hw) (r v : Nat) : mddi_info → List rev_event → Prop
  | _, [] => False
  | m, ev :: evs =>
    (reply_completes hw r m ev ∧ reply_data hw ev m.rev_data_curr = v) ∨
    (¬ reply_completes hw r m ev ∧ answered hw r v (mddi_handle_rev_data_avail hw ev m) evs)

/-- Whether a batch is unanswered can be computed. -/
def unanswered_dec (hw : mddi_hw) (r : Nat) :
    (m : mddi_info) → (evs : List rev_event) → Decidable (unanswered hw r m evs)
  | _, [] => isTrue trivial
  | m, ev :: evs =>
    have := unanswered_dec hw r (mddi_handle_rev_data_avail hw ev m) evs
    inferInstanceAs (Decidable (¬ reply_completes hw r m ev ∧
      unanswered hw r (mddi_handle_rev_data_avail hw ev m) evs))

instance (hw : mddi_hw) (r : Nat) (m : mddi_info) (evs : List rev_event) :
    Decidable (unanswered hw r m evs) := unanswered_dec hw r m evs

/-- Whether a batch is answered with `v` can be computed. -/
def answered_dec (hw : mddi_hw) (r v : Nat) :
    (m : mddi_info) → (evs : List rev_event) → Decidable (answered hw r v m evs)
  | _, [] => isFalse fun h => h
  | m, ev :: evs =>
    have := answered_dec hw r v (mddi_handle_rev_data_avail hw ev m) evs
    inferInstanceAs (Decidable ((reply_completes hw r m ev ∧
        reply_data hw ev m.rev_data_curr = v) ∨
      (¬ reply_completes hw r m ev ∧
        answered hw r v (mddi_handle_rev_data_avail hw ev m) evs)))

instance (hw : mddi_hw) (r v : Nat) (m : mddi_info) (evs : List rev_event) :
    Decidable (answered hw r v m evs) := answered_dec hw r v m evs

/-- No interrupt of the batch dispatches a client-capability packet. -/
def no_caps (hw : mddi_hw) : mddi_info → List rev_event → Prop
  | _, [] => True
  | m, ev :: evs =>
    (∀ frame, rev_packet hw ev m.rev_data_curr = some frame → ¬ is_caps hw frame) ∧
    no_caps hw (mddi_handle_rev_data_avail hw ev m) evs

/-- Some interrupt of the batch dispatches a client-capability packet. -/
def brings_caps (hw : mddi_hw) (m : mddi_info) (evs : List rev_event) : Prop :=
  ∃ pre ev post frame, evs = pre ++ ev :: post ∧
    rev_packet hw ev (run_events hw pre m).rev_data_curr = some frame ∧ is_caps hw frame

/-- A write of a descriptor address to `PRI_PTR`. -/
def is_submission : hw_write → Bool
  | .PRI_PTR _ _ => true
  | _ => false

/-- The number of descriptor submissions among the register writes `l`. -/
def submitted (l : List hw_write) : Nat := (l.filter is_submission).length

/-- The sleeps of the calling thread that `s` has logged beyond those of `s0`. -/
def new_sleeps (s0 s : sys) : List (mddi_info × List rev_event) :=
  s.slept.drop s0.slept.length

/-- Of the sleeps `l`, in order, the first during which a reply completes the registration
at `r` is one the caller entered after `k` descriptor submissions since the state `m0`,
and the reply carries `v`; during the sleeps before it no reply completes the
registration. -/
def first_answer (hw : mddi_hw) (r v k : Nat) (m0 : mddi_info) :
    List (mddi_info × List rev_event) → Prop
  | [] => False
  | q :: rest =>
    (answered hw r v q.1 q.2 ∧ submitted (new_writes m0 q.1) = k) ∨
    (unanswered hw r q.1 q.2 ∧ first_answer hw r v k m0 rest)

/-- Whether `first_answer` holds can be computed. -/
def first_answer_dec (hw : mddi_hw) (r v k : Nat) (m0 : mddi_info) :
    (l : List (mddi_info × List rev_event)) → Decidable (first_answer hw r v k m0 l)
  | [] => isFalse fun h => h
  | q :: rest =>
    have := first_answer_dec hw r v k m0 rest
    inferInstanceAs (Decidable ((answered hw r v q.1 q.2 ∧
        submitted (new_writes m0 q.1) = k) ∨
      (unanswered hw r q.1 q.2 ∧ first_answer hw r v k m0 rest)))

instance (hw : mddi_hw) (r v k : Nat) (m0 : mddi_info)
    (l : List (mddi_info × List rev_event)) : Decidable (first_answer hw r v k m0 l) :=
  first_answer_dec hw r v k m0 l

/-- The relation between the register-write logs of two states: what was added, seen
through `driver_cmds`, is `cmds`. -/
def log_step (cmds : List hw_write) (m m2 : mddi_info) : Prop :=
  ∃ t, m2.hw_log = m.hw_log ++ t ∧ driver_cmds t = cmds

/-- The members the reverse-data handler never writes agree in two states. -/
def same_static (m m2 : mddi_info) : Prop :=
  m2.version = m.version ∧ m2.rev_addr = m.rev_addr ∧
  m2.reg_write_data = m.reg_write_data ∧ m2.reg_write_addr = m.reg_write_addr ∧
  m2.reg_read_data = m.reg_read_data ∧ m2.reg_read_addr = m.reg_read_addr ∧
  m2.int_enable = m.int_enable ∧ m2.got_int = m.got_int ∧
  m2.mddi_enable = m.mddi_enable ∧ m2.mddi_debug_flags = m.mddi_debug_flags ∧
  m2.ext_log = m.ext_log

/-- The bytes of a register-access packet as the peer sends it: the length member (the
packet ends with the data member), the type, the register address `a` and the data `v`;
all other bytes zero. -/
def reg_frame (hw : mddi_hw) (a v : Nat) : Nat → Nat := fun i =>
  if i = 0 then (hw.offsetof_register_data_list + 2) % 256
  else if i = 1 then (hw.offsetof_register_data_list + 2) / 256 % 256
  else if i = hw.offsetof_type then hw.TYPE_REGISTER_ACCESS % 256
  else if i = hw.offsetof_type + 1 then hw.TYPE_REGISTER_ACCESS / 256 % 256
  else if i = hw.offsetof_register_address then a % 256
  else if i = hw.offsetof_register_address + 1 then a / 256 % 256
  else if i = hw.offsetof_register_address + 2 then a / 65536 % 256
  else if i = hw.offsetof_register_address + 3 then a / 16777216 % 256
  else if i = hw.offsetof_register_data_list then v % 256
  else if i = hw.offsetof_register_data_list + 1 then v / 256 % 256
  else if i = hw.offsetof_register_data_list + 2 then v / 65536 % 256
  else if i = hw.offsetof_register_data_list + 3 then v / 16777216 % 256
  else 0

/-- Constraints on the layout of `struct mddi_register_access` under which `reg_frame`
is a well-formed packet that fits the ring: the members used lie one after the other
after the length, and read and write descriptors differ in `read_write_info`. -/
def reg_layout_ok (hw : mddi_hw) : Prop :=
  hw.offsetof_type + 2 ≤ hw.offsetof_register_address ∧
  hw.offsetof_register_address + 4 ≤ hw.offsetof_register_data_list ∧
  hw.offsetof_register_data_list + 4 ≤ hw.MDDI_REV_BUFFER_SIZE ∧
  hw.sizeof_mddi_rev_packet ≤ hw.offsetof_register_data_list + 4 ∧
  hw.MDDI_REV_BUFFER_SIZE ≤ 65536 ∧
  hw.MDDI_READ ||| 1 ≠ hw.MDDI_WRITE ||| 1

instance (hw : mddi_hw) : Decidable (reg_layout_ok hw) := by
  unfold reg_layout_ok; infer_instance

/-- The interrupt the hardware raises once the peer has sent `frame` and the DMA engine
has stored it at the cursor `p`, wrapping at the end of the ring. -/
def peer_event (hw : mddi_hw) (p : Nat) (frame : Nat → Nat) : rev_event :=
  { mem := fun i =>
      frame ((i + hw.MDDI_REV_BUFFER_SIZE - p % hw.MDDI_REV_BUFFER_SIZE)
        % hw.MDDI_REV_BUFFER_SIZE),
    REV_PKT_CNT := 1, REV_CRC_ERR := 0, stack := fun _ => 0 }

/-- The value the simulated peer holds for register `a`: the data of the most recent
write descriptor for `a` among the register writes `rlog` (newest first), 0 if none. -/
def peer_register (hw : mddi_hw) (a : Nat) : List hw_write → Nat
  | [] => 0
  | .PRI_PTR _ ll :: older =>
    if ll.u_r.read_write_info = hw.MDDI_WRITE ||| 1 ∧ ll.u_r.register_address = a then
      ll.u_r.register_data_list
    else peer_register hw a older
  | _ :: older => peer_register hw a older

/-- The simulated peer: when the caller goes to sleep right after submitting a read
descriptor (the log ends with the `PRI_PTR` write and the arming of the wait), the peer
answers with a register-access reply carrying the descriptor's register address and the
value last written to that address; otherwise nothing arrives. -/
def echo_peer (hw : mddi_hw) (m : mddi_info) : List rev_event :=
  match m.hw_log.reverse with
  | .INTEN _ :: .PRI_PTR _ ll :: older =>
    if ll.u_r.read_write_info = hw.MDDI_READ ||| 1 then
      [peer_event hw m.rev_data_curr
        (reg_frame hw ll.u_r.register_address (peer_register hw ll.u_r.register_address older))]
    else []
  | _ => []

/-- The environment entry the next blocking call will consume. -/
def next_batch (s : sys) : mddi_info → List rev_event :=
  s.waits.headD fun _ => []

/-- The three states the registration at address `r` can be in during one attempt of
`mddi_remote_read`. -/
inductive slot where
  | pending
  | faulted
  | replied (v : Nat)

/-- The state `m` has the registration at `r`, for register `a`, in the given state:
pending (in the slot, not signalled), failed by a CRC error, or completed by a reply. -/
def slot_is (hw : mddi_hw) (r a : Nat) : slot → mddi_info → Prop
  | .pending, m => m.reg_read = some r ∧ (m.ri r).done = 0 ∧ (m.ri r).reg = a
  | .faulted, m => m.reg_read = none ∧ m.ri r = ⟨1, a, neg32 hw.EIO, neg32 1⟩
  | .replied v, m => m.reg_read = none ∧ m.ri r = ⟨1, a, 0, v⟩

/-- The relation between the states of the calling thread before and after some of its
steps: `k` environment entries were consumed, the cursor stays inside the ring, the
writes added to the log are, seen through `driver_cmds`, `cmds`, and the members neither
the steps nor the handler write are unchanged. -/
def thread_rel (hw : mddi_hw) (cmds : List hw_write) (k : Nat) (s0 s : sys) : Prop :=
  s.waits = s0.waits.drop k ∧
  (s0.mddi.rev_data_curr < hw.MDDI_REV_BUFFER_SIZE →
    s.mddi.rev_data_curr < hw.MDDI_REV_BUFFER_SIZE) ∧
  log_step cmds s0.mddi s.mddi ∧
  s.mddi.reg_read_addr = s0.mddi.reg_read_addr ∧
  s.mddi.reg_read_data = s0.mddi.reg_read_data ∧
  s.mddi.mddi_enable = s0.mddi.mddi_enable ∧
  s.mddi.ext_log = s0.mddi.ext_log

/-- The environment entry the `i`-th blocking call from now will consume. -/
def nth_batch (s : sys) (i : Nat) : mddi_info → List rev_event :=
  (s.waits.drop i).headD fun _ => []

/-- How one sleep `q` of the caller moves the registration at `r` from state `c` to
`c2`: a pending registration stays pending or is failed when no reply completes it during
the sleep, and is completed with `v` when a reply carrying `v` does; a registration that
has left the slot stays as it is. -/
def sleep_step (hw : mddi_hw) (r : Nat) (c : slot) (q : mddi_info × List rev_event)
    (c2 : slot) : Prop :=
  match c with
  | .pending =>
    (unanswered hw r q.1 q.2 ∧ (c2 = .pending ∨ c2 = .faulted)) ∨
    ∃ v, answered hw r v q.1 q.2 ∧ c2 = .replied v
  | .faulted => c2 = .faulted ∧ q.1.reg_read = none
  | .replied v => c2 = .replied v ∧ q.1.reg_read = none

/-- A sequence of sleeps moves the registration at `r` from state `c` to `c2`. -/
def watch (hw : mddi_hw) (r : Nat) : slot → List (mddi_info × List rev_event) → slot → Prop
  | c, [], c2 => c2 = c
  | c, q :: rest, c2 => ∃ c1, sleep_step hw r c q c1 ∧ watch hw r c1 rest c2

/-- The commands of one failed round of `mddi_remote_read` started in state `s`: the
submission of the read descriptor, the enabling of periodic reverse encapsulation, and the
retrain sequence. -/
def read_round_cmds (s : sys) : List hw_write :=
  [.PRI_PTR s.mddi.reg_read_addr s.mddi.reg_read_data, .CMD (.MDDI_CMD_PERIODIC_REV_ENCAP 1),
    .CMD .MDDI_CMD_SEND_RTD, .CMD .MDDI_CMD_LINK_ACTIVE]

/-- What `mddi_remote_read` finds in its registration when it tests `ri.status`, by the
state the registration was in when the wait for its completion ended. -/
def read_outcome (hw : mddi_hw) (r a : Nat) (c : slot) (m : mddi_info) : Prop :=
  m.reg_read = none ∧ (m.ri r).reg = a ∧
  match c with
  | .pending => (m.ri r).status = neg32 1 ∧ (m.ri r).result = neg32 1
  | .faulted => (m.ri r).status = neg32 hw.EIO ∧ (m.ri r).result = neg32 1
  | .replied v => (m.ri r).status = 0 ∧ (m.ri r).result = v

/-- The driver state at the moment `mddi_remote_read` goes to sleep after submitting its
read descriptor in an attempt started in state `m`. -/
def read_armed (hw : mddi_hw) (r : Nat) (m : mddi_info) : mddi_info :=
  mddi_wait_interrupt_arm hw.MDDI_INT_PRI_LINK_LIST_DONE
    (mddi_writel (.PRI_PTR m.reg_read_addr m.reg_read_data)
      { (init_completion r m) with reg_read := some r })

/-- The first sleep of an attempt of `mddi_remote_read` started in state `s`: the state
in which the caller waits for the end of the descriptor list, and the interrupts taken
then. -/
def attempt_sleep (hw : mddi_hw) (r : Nat) (s : sys) : mddi_info × List rev_event :=
  (read_armed hw r s.mddi, next_batch s (read_armed hw r s.mddi))

/-- The sleep of the retrain step of `mddi_remote_read` started in state `u`. -/
def retrain_sleep (hw : mddi_hw) (u : sys) : mddi_info × List rev_event :=
  (mddi_wait_interrupt_arm hw.MDDI_INT_NO_CMD_PKTS_PEND
      (mddi_writel (.CMD .MDDI_CMD_LINK_ACTIVE) (mddi_writel (.CMD .MDDI_CMD_SEND_RTD) u.mddi)),
    next_batch u (mddi_wait_interrupt_arm hw.MDDI_INT_NO_CMD_PKTS_PEND
      (mddi_writel (.CMD .MDDI_CMD_LINK_ACTIVE) (mddi_writel (.CMD .MDDI_CMD_SEND_RTD) u.mddi))))

/-- The state in which `mddi_remote_read` enters its retry loop: the read descriptor is
built and the local registration holds the register and the initial status. -/
def read_prepared (hw : mddi_hw) (reg r : Nat) (s : sys) : sys :=
  ((s.upd fun m => { m with reg_read_data := read_llentry hw reg m.reg_read_data }).upd
    (ri_set_reg r (reg % 2 ^ 32))).upd (ri_set_status r (neg32 1))

/-- The driver state at the moment `mddi_remote_write` goes to sleep after submitting its
write descriptor from state `m`. -/
def write_armed (hw : mddi_hw) (val reg : Nat) (m : mddi_info) : mddi_info :=
  mddi_wait_interrupt_arm hw.MDDI_INT_PRI_LINK_LIST_DONE
    (mddi_writel (.PRI_PTR m.reg_write_addr (write_llentry hw val reg m.reg_write_addr))
      { m with reg_write_data := write_llentry hw val reg m.reg_write_addr })

/-- How the capability flag can change over steps of the calling thread that consume `k`
environment entries: it is never cleared, it is set once a consumed batch dispatches a
capability packet, and it stays clear while no consumed batch dispatches one. -/
def flag_rel (hw : mddi_hw) (k : Nat) (s0 s : sys) : Prop :=
  s.waits = s0.waits.drop k ∧
  (s0.mddi.rev_data_curr < hw.MDDI_REV_BUFFER_SIZE →
    s.mddi.rev_data_curr < hw.MDDI_REV_BUFFER_SIZE) ∧
  (s0.mddi.flags &&& FLAG_HAVE_CAPS ≠ 0 → s.mddi.flags &&& FLAG_HAVE_CAPS ≠ 0) ∧
  (s0.mddi.rev_data_curr < hw.MDDI_REV_BUFFER_SIZE → ∀ i, i < k →
    (∀ m : mddi_info, m.rev_data_curr < hw.MDDI_REV_BUFFER_SIZE →
      brings_caps hw m (nth_batch s0 i m)) → s.mddi.flags &&& FLAG_HAVE_CAPS ≠ 0) ∧
  (s0.mddi.rev_data_curr < hw.MDDI_REV_BUFFER_SIZE → ¬ (s0.mddi.flags &&& FLAG_HAVE_CAPS ≠ 0) →
    (∀ i, i < k → ∀ m : mddi_info, m.rev_data_curr < hw.MDDI_REV_BUFFER_SIZE →
      no_caps hw m (nth_batch s0 i m)) → ¬ (s.mddi.flags &&& FLAG_HAVE_CAPS ≠ 0))

/-- Both relations between two states of the calling thread. -/
def init_rel (hw : mddi_hw) (cmds : List hw_write) (k : Nat) (s0 s : sys) : Prop :=
  thread_rel hw cmds k s0 s ∧ flag_rel hw k s0 s

/-- The state of the calling thread in which no capability packet has arrived and none
will: the cursor is inside the ring, the flag is clear, and no batch still to come
dispatches a capability packet. -/
def caps_absent (hw : mddi_hw) (s : sys) : Prop :=
  s.mddi.rev_data_curr < hw.MDDI_REV_BUFFER_SIZE ∧ ¬ (s.mddi.flags &&& FLAG_HAVE_CAPS ≠ 0) ∧
  ∀ i, ∀ m : mddi_info, m.rev_data_curr < hw.MDDI_REV_BUFFER_SIZE →
    no_caps hw m (nth_batch s i m)

/-- One iteration of the outer loop of `mddi_init`, up to the test of the flag
(lines 624-647). -/
def caps_round (hw : mddi_hw) (s : sys) : sys :=
  wait_event_timeout hw (fun m => m.flags &&& FLAG_HAVE_CAPS ≠ 0)
    (mddi_wait_interrupt hw hw.MDDI_INT_NO_CMD_PKTS_PEND
      ((mddi_init_rtd_loop hw 4 s).upd (mddi_writel (.CMD .CMD_GET_CLIENT_CAP))))

/-- The bytes of a client-capability packet as the peer sends it: the length member (the
packet fills `struct mddi_client_caps`) and the type; all other bytes zero. -/
def caps_frame (hw : mddi_hw) : Nat → Nat := fun i =>
  if i = 0 then (hw.sizeof_mddi_client_caps - 2) % 256
  else if i = 1 then (hw.sizeof_mddi_client_caps - 2) / 256 % 256
  else if i = hw.offsetof_type then hw.TYPE_CLIENT_CAPS % 256
  else if i = hw.offsetof_type + 1 then hw.TYPE_CLIENT_CAPS / 256 % 256
  else 0

/-- The environment entry in which the peer sends its capability packet. -/
def caps_peer (hw : mddi_hw) (m : mddi_info) : List rev_event :=
  [peer_event hw m.rev_data_curr (caps_frame hw)]

/-- The environment entry in which nothing arrives. -/
def no_events (_m : mddi_info) : List rev_event := []

/-- A sample header used to instantiate the statements: a 256-byte ring, a 6-byte packet
header, and the packet type numbers of the MDDI standard. -/
def sample_hw : mddi_hw :=
  { MDDI_REV_BUFFER_SIZE := 256, sizeof_mddi_rev_packet := 6,
    sizeof_mddi_client_caps := 8, sizeof_mddi_client_status := 8,
    offsetof_type := 2, offsetof_register_address := 10, offsetof_register_data_list := 14,
    TYPE_CLIENT_CAPS := 66, TYPE_CLIENT_STATUS := 70, TYPE_REGISTER_ACCESS := 146,
    offsetof_llentry_register_data_list := 14, MDDI_READ := 0x8000, MDDI_WRITE := 0,
    MDDI_INT_REV_DATA_AVAIL := 0x4, MDDI_INT_PRI_LINK_LIST_DONE := 0x8000,
    MDDI_INT_NO_CMD_PKTS_PEND := 0x20000, MDDI_INT_IN_HIBERNATION := 0x4000,
    MDDI_STAT_RTD_MEAS_FAIL := 0x800, EIO := 5,
    MDDI_INT_LINK_ACTIVE := 0x2000, MDDI_INT_NEED_CLEAR := 0x800f4,
    MDDI_INT_REV_OVERFLOW := 0x40, MDDI_INT_REV_OVERWRITE := 0x800,
    MDDI_INT_RTD_FAILURE := 0x40000, MDDI_HOST_BYTES_PER_SUBFRAME := 0x3c00,
    MDDI_HOST_TA2_LEN := 0xc, MDDI_HOST_REV_RATE_DIV := 2, MDDI_MAX_REV_PKT_SIZE := 0x60,
    sizeof_mddi_llentry := 0x20, ENOMEM := 12, ENODEV := 19 }

/-- A sample driver state: empty logs, cursor at `p`, pending slot `slot`. -/
def sample_info (p : Nat) (slot : Option Nat) : mddi_info :=
  { flags := FLAG_DISABLE_HIBERNATION, version := 0x20, rev_data := fun _ => 0xee,
    rev_addr := 0x1000, reg_write_data := ⟨0, 0, 0, 0, 0, 0, ⟨0, 0, 0, 0, 0, 0, 0⟩⟩,
    reg_write_addr := 0x1100, reg_read_data := ⟨0, 0, 0, 0, 0, 0, ⟨0, 0, 0, 0, 0, 0, 0⟩⟩,
    reg_read_addr := 0x1120, rev_data_curr := p, int_enable := 0, got_int := 0,
    reg_read := slot, caps := [], status := [], mddi_enable := false,
    panel_info := ⟨0, 0⟩, ri := fun _ => ⟨0, 7, 0xFFFFFFFF, 0⟩, mddi_debug_flags := 0,
    mem_fault := false, hw_log := [],
    rev_log := [], int_wait_wake_ups := 0, ext_log := [] }

/-- The environment entry in which the peer answers with a reply for `a` carrying `v`. -/
def reply_peer (hw : mddi_hw) (a v : Nat) (m : mddi_info) : List rev_event :=
  [peer_event hw m.rev_data_curr (reg_frame hw a v)]

/-- A sample thread state: the sample driver state with cursor 0 and an empty slot. -/
def sample_sys (waits : List (mddi_info → List rev_event)) (STAT : List Nat) : sys :=
  ⟨sample_info 0 none, waits, STAT, []⟩

/-- An interrupt that reports one packet while the ring holds only zeros. -/
def zero_event : rev_event :=
  { mem := fun _ => 0, REV_PKT_CNT := 1, REV_CRC_ERR := 0, stack := fun _ => 0 }

/-- The environment entry in which the hardware reports a CRC error and no packet. -/
def crc_peer (_m : mddi_info) : List rev_event :=
  [{ mem := fun _ => 0, REV_PKT_CNT := 0, REV_CRC_ERR := 1, stack := fun _ => 0 }]

/-- A sample environment for a read of register 7: nothing arrives during the first
attempt, and a reply for register 7 arrives only during the retrain wait that follows it,
when the registration is no longer in the slot; nothing arrives afterwards. -/
def sample_late_reply : sys :=
  sample_sys [no_events, no_events, no_events, reply_peer sample_hw 7 9] []

/-- A sample environment for a read of register 7: the reply carrying 9 arrives during
the first wait of the first attempt. -/
def sample_first_try : sys := sample_sys [reply_peer sample_hw 7 9] []

/-- A sample environment for a read of register 7: the first attempt times out and the
reply carrying 9 arrives during the first wait of the second attempt. -/
def sample_second_try : sys :=
  sample_sys [no_events, no_events, no_events, no_events, reply_peer sample_hw 7 9] []

/-- A sample environment for a read of register 7: the first attempt times out, the
second is failed by a CRC error, and the reply carrying 9 arrives during the first wait of
the third attempt. -/
def sample_third_try : sys :=
  sample_sys [no_events, no_events, no_events, no_events, crc_peer, no_events, no_events,
    reply_peer sample_hw 7 9] []

/-- Sample platform data: no callbacks, a frame buffer of 1 MiB at 0x2000000. -/
def sample_pd : msm_mddi_platform_data :=
  { mddi_client_power := false, mddi_enable := false, panel_power := false,
    has_vsync_irq := false, fb_base := 0x2000000, fb_size := 0x100000 }

/-- A sample environment for the detection loop: the status register reports the failed
measurement three times and then success, and the peer sends its capability packet
during the wait that follows `GET_CLIENT_CAP`. -/
def sample_detect_sys : sys :=
  sample_sys [no_events, no_events, no_events, no_events, no_events, no_events, no_events,
    caps_peer sample_hw] [0x800, 0x800, 0x800, 0]

/-- The sample driver state with debug bit 2 set and the cursor at `p`. -/
def sample_debug_info (p : Nat) : mddi_info := { sample_info p none with mddi_debug_flags := 2 }

/-- Two packets back to back from cursor 250 of the sample ring: a register-access reply
that wraps past the end, then a capability packet at cursor 12. -/
def sample_stream : List rev_event :=
  [peer_event sample_hw 250 (reg_frame sample_hw 7 9),
    peer_event sample_hw 12 (caps_frame sample_hw)]

/-! ## The interrupt service routine

The functions of the calling thread were stated above over an environment that lists, for
each blocking call, the invocations of the reverse-data handler.  The definitions below
embed `mddi_isr` itself and the wait on the delivered mask, for the statements about the
enabled and delivered masks and about the result of a wait. -/

/-- What the hardware presents at one invocation of `mddi_isr`: the values read from the
32-bit registers `INT` and `STAT`, and what the reverse-data handler reads if it runs. -/
structure isr_event where
  INT : Nat
  STAT : Nat
  rev : rev_event

/-- The function `mddi_handle_link_list_done`, whose body is empty. -/
def mddi_handle_link_list_done (m : mddi_info) : mddi_info := m

/-- The assignment of `v` to `mddi->int_enable`. -/
def with_int_enable (v : Nat) (m : mddi_info) : mddi_info := { m with int_enable := v }

/-- The assignment of `v` to `mddi->got_int`. -/
def with_got_int (v : Nat) (m : mddi_info) : mddi_info := { m with got_int := v }

/-- The first part of `mddi_isr` (lines 327-343): the raw bits are acknowledged, masked
with the enabled set and added to the delivered mask, the waiters are woken, and
`PRI_LINK_LIST_DONE` is disabled if it fired.  The value read from `STAT` is not used. -/
def isr_deliver (hw : mddi_hw) (ie : isr_event) (m : mddi_info) : mddi_info :=
  let active := ie.INT
  let m := mddi_writel (.INT active) m
  let active := active &&& m.int_enable
  let m := with_got_int (m.got_int ||| active) m
  let m := wake_up m
  if active &&& hw.MDDI_INT_PRI_LINK_LIST_DONE ≠ 0 then
    mddi_handle_link_list_done
      (with_int_enable (m.int_enable &&& not32 hw.MDDI_INT_PRI_LINK_LIST_DONE) m)
  else m

/-- The last part of `mddi_isr` (lines 347-367), `active` being the masked bits: the
enabled mask is narrowed and written to `INTEN`. -/
def isr_narrow (hw : mddi_hw) (active : Nat) (m : mddi_info) : mddi_info :=
  let m := if active &&& not32 hw.MDDI_INT_NEED_CLEAR ≠ 0 then
      with_int_enable (m.int_enable &&& not32 (active &&& not32 hw.MDDI_INT_NEED_CLEAR)) m
    else m
  let m := if active &&& hw.MDDI_INT_LINK_ACTIVE ≠ 0 then
      let m := with_int_enable (m.int_enable &&& not32 hw.MDDI_INT_LINK_ACTIVE) m
      with_int_enable (m.int_enable ||| hw.MDDI_INT_IN_HIBERNATION) m
    else m
  let m := if active &&& hw.MDDI_INT_IN_HIBERNATION ≠ 0 then
      let m := with_int_enable (m.int_enable &&& not32 hw.MDDI_INT_IN_HIBERNATION) m
      with_int_enable (m.int_enable ||| hw.MDDI_INT_LINK_ACTIVE) m
    else m
  mddi_writel (.INTEN m.int_enable) m

/-- The function `mddi_isr`. -/
def mddi_isr (hw : mddi_hw) (ie : isr_event) (m : mddi_info) : mddi_info :=
  let active := ie.INT &&& m.int_enable
  let m := isr_deliver hw ie m
  let m := if active &&& hw.MDDI_INT_REV_DATA_AVAIL ≠ 0 then
      mddi_handle_rev_data_avail hw ie.rev m
    else m
  isr_narrow hw active m

/-- The invocations `evs` of `mddi_isr`, in order. -/
def run_isr (hw : mddi_hw) (evs : List isr_event) (m : mddi_info) : mddi_info :=
  evs.foldl (fun m ie => mddi_isr hw ie m) m

/-- The kernel primitive `wait_event_timeout(mddi->int_wait, mddi->got_int & intmask, ..)`
while the interrupt invocations `irqs` happen before the timeout expires: the caller
resumes as soon as the condition holds, with a positive result (the time left, written 1
here), and with 0 when the condition still fails after the last of them. -/
def wait_event_got_int (hw : mddi_hw) (intmask : Nat) : List isr_event → mddi_info →
    Nat × mddi_info
  | [], m => (if m.got_int &&& intmask ≠ 0 then 1 else 0, m)
  | ie :: rest, m =>
    if m.got_int &&& intmask ≠ 0 then (1, m)
    else wait_event_got_int hw intmask rest (mddi_isr hw ie m)

/-- The function `mddi_wait_interrupt_timeout` with its result, over the interrupt
invocations that happen during the wait. -/
def mddi_wait_interrupt_timeout_irq (hw : mddi_hw) (intmask : Nat) (irqs : List isr_event)
    (m : mddi_info) : Nat × mddi_info :=
  wait_event_got_int hw intmask irqs (mddi_wait_interrupt_arm intmask m)

/-- The messages the driver hands to `printk` that tell a caller's outcome. -/
inductive kmsg where
  /-- The message of `mddi_wait_interrupt` after a timeout, with the mask waited for and
  the delivered mask. -/
  | wait_interrupt_timeout (intmask got_int : Nat)
deriving DecidableEq, Repr

/-- The function `mddi_wait_interrupt` over the driver state and the kernel log: the
result of the wait selects whether the message is logged, and is then dropped. -/
def mddi_wait_interrupt_irq (hw : mddi_hw) (intmask : Nat) (irqs : List isr_event)
    (k : mddi_info × List kmsg) : mddi_info × List kmsg :=
  let t := mddi_wait_interrupt_timeout_irq hw intmask irqs k.1
  if t.1 = 0 then (t.2, k.2 ++ [.wait_interrupt_timeout intmask t.2.got_int])
  else (t.2, k.2)

/-- The part of `mddi_remote_write` before the wait (lines 749-773): the descriptor is
filled in and its address written to `PRI_PTR`. -/
def write_submit (hw : mddi_hw) (val reg : Nat) (m : mddi_info) : mddi_info :=
  let m := { m with reg_write_data := write_llentry hw val reg m.reg_write_addr }
  mddi_writel (.PRI_PTR m.reg_write_addr m.reg_write_data) m

/-- The function `mddi_remote_write` over the driver state and the kernel log.  Its
return type is `void`: the value handed back to the caller is the unit. -/
def mddi_remote_write_irq (hw : mddi_hw) (val reg : Nat) (irqs : List isr_event)
    (k : mddi_info × List kmsg) : Unit × (mddi_info × List kmsg) :=
  let m := write_submit hw val reg k.1
  ((), mddi_wait_interrupt_irq hw hw.MDDI_INT_PRI_LINK_LIST_DONE irqs (m, k.2))

/-- Conditions on the interrupt masks of the header: `LINK_ACTIVE`, `IN_HIBERNATION` and
`PRI_LINK_LIST_DONE` are the single bits `la`, `ih` and `pl` of a 32-bit register, the
first two differ, and `PRI_LINK_LIST_DONE` is not part of `MDDI_INT_NEED_CLEAR`. -/
def int_bits_ok (hw : mddi_hw) (la ih pl : Nat) : Prop :=
  hw.MDDI_INT_LINK_ACTIVE = 2 ^ la ∧ hw.MDDI_INT_IN_HIBERNATION = 2 ^ ih ∧
  hw.MDDI_INT_PRI_LINK_LIST_DONE = 2 ^ pl ∧ la < 32 ∧ ih < 32 ∧ pl < 32 ∧ la ≠ ih ∧
  hw.MDDI_INT_NEED_CLEAR.testBit pl = false

instance (hw : mddi_hw) (la ih pl : Nat) : Decidable (int_bits_ok hw la ih pl) := by
  unfold int_bits_ok; infer_instance

/-- An interrupt invocation that raises only `PRI_LINK_LIST_DONE` of the sample header. -/
def sample_done_irq : isr_event :=
  { INT := 0x8000, STAT := 0, rev := zero_event }

/-! ## The wrap path with bounds -/

/-- The subtraction `a - b` of two `size_t` values, which are 32 bits wide on the target:
the difference modulo `2 ^ 32`. -/
def sub_size_t (a b : Nat) : Nat := (a % 2 ^ 32 + 2 ^ 32 - b % 2 ^ 32) % 2 ^ 32

/-- One `memcpy(dst + d, src + s, n)` between a destination object of `dst_size` bytes and
a source object of `src_size` bytes; `none` when a byte outside either object would be
touched. -/
def memcpy_checked (dst_size src_size : Nat) (dst : Nat → Nat) (d : Nat) (src : Nat → Nat)
    (s n : Nat) : Option (Nat → Nat) :=
  if d + n ≤ dst_size ∧ s + n ≤ src_size then
    some fun i => if d ≤ i ∧ i < d + n then src (s + (i - d)) else dst i
  else none

/-- The first copy length of the wrap path, `rem = MDDI_REV_BUFFER_SIZE - prev_offset`
(line 295). -/
def wrap_rem (hw : mddi_hw) (prev_offset : Nat) : Nat :=
  sub_size_t hw.MDDI_REV_BUFFER_SIZE prev_offset

/-- The two `memcpy` calls of the wrap path (lines 296-297) into the scratch frame
`tmprev`, whose prior contents are `ev.stack`.  The ring and `tmprev.raw` both have
`MDDI_REV_BUFFER_SIZE` bytes. -/
def wrap_copy (hw : mddi_hw) (ev : rev_event) (prev_offset length : Nat) :
    Option (Nat → Nat) :=
  let rem := wrap_rem hw prev_offset
  match memcpy_checked hw.MDDI_REV_BUFFER_SIZE hw.MDDI_REV_BUFFER_SIZE ev.stack 0 ev.mem
      prev_offset rem with
  | none => none
  | some tmprev =>
    memcpy_checked hw.MDDI_REV_BUFFER_SIZE hw.MDDI_REV_BUFFER_SIZE tmprev rem ev.mem 0
      (sub_size_t (2 + length) rem)

/-- An interrupt that reports a CRC error together with one packet: the reply for
register 7 with data 9 at the start of the sample ring. -/
def sample_crc_event : rev_event :=
  { mem := (peer_event sample_hw 0 (reg_frame sample_hw 7 9)).mem, REV_PKT_CNT := 1,
    REV_CRC_ERR := 1, stack := fun _ => 0 }

/-! ## The whole of `mddi_init` -/

/-- The outcomes of the calls `mddi_init` makes into the kernel, the values of the two
registers it reads during bring-up, and the two macros of `linux/err.h` it applies to the
clock pointer (that header is not part of the sources). -/
structure init_env where
  /-- The macro `IS_ERR` on a pointer value. -/
  IS_ERR : Nat → Bool
  /-- The macro `PTR_ERR` on a pointer value, its result converted to `int`. -/
  PTR_ERR : Nat → Int
  /-- The argument `pd`; `none` is the null pointer. -/
  pd : Option msm_mddi_platform_data
  /-- The pointer `clk_get` returns, as a 32-bit value. -/
  clk_get : Nat
  clk_enable : Int
  clk_set_rate : Int
  /-- The bus address of the page `dma_alloc_coherent` returns; `none` when it returns
  the null pointer. -/
  dma_alloc_coherent : Option Nat
  request_irq : Int
  PAD_CTL : Nat
  CORE_VER : Nat

/-- The calls `mddi_init` makes to acquire and to release its resources. -/
inductive init_call where
  | clk_get
  | clk_enable
  | clk_set_rate (rate : Nat)
  | dma_alloc_coherent
  | request_irq
  | mddi_client_power (enable : Nat)
  | free_irq
  | dma_free_coherent
  | clk_put
deriving DecidableEq, Repr

/-- A sample of `IS_ERR` for a 32-bit pointer value: the top 4095 addresses encode errno
values. -/
def IS_ERR (p : Nat) : Bool := decide (p % 2 ^ 32 ≥ 2 ^ 32 - 4095)

/-- The conversion of a 32-bit value to `int` or `long`. -/
def to_int32 (x : Nat) : Int :=
  if x % 2 ^ 32 < 2 ^ 31 then ((x % 2 ^ 32 : Nat) : Int) else ((x % 2 ^ 32 : Nat) : Int) - 2 ^ 32

/-- A sample of `PTR_ERR`: the pointer value read as an `int`. -/
def PTR_ERR (p : Nat) : Int := to_int32 p

/-- The state of `mddi_init`: the driver state with its environment, the members of
`struct mddi_info` only `mddi_init` uses, and the log of its resource calls. -/
structure init_sys where
  drv : sys
  clk : Nat
  clk_rate : Nat
  mddi_client_power : Bool
  panel_power : Bool
  calls : List init_call

/-- One resource call, logged. -/
def init_sys.call (c : init_call) (s : init_sys) : init_sys :=
  { s with calls := s.calls ++ [c] }

/-- A step of the driver state inside `mddi_init`. -/
def init_sys.run (f : sys → sys) (s : init_sys) : init_sys := { s with drv := f s.drv }

/-- The assignment of `v` to `mddi->flags`. -/
def with_flags (v : Nat) (m : mddi_info) : mddi_info := { m with flags := v }

/-- The assignment of `v` to `mddi->version`. -/
def with_version (v : Nat) (m : mddi_info) : mddi_info := { m with version := v }

/-- The assignment of the callback `mddi->mddi_enable`. -/
def with_mddi_enable (v : Bool) (m : mddi_info) : mddi_info := { m with mddi_enable := v }

/-- The assignments of lines 583-590: the ring is the start of the DMA page, the two
descriptors follow it. -/
def init_buffers (hw : mddi_hw) (dma_addr : Nat) (m : mddi_info) : mddi_info :=
  let m := with_cursor 0 m
  let m := { m with rev_addr := dma_addr }
  let m := { m with reg_write_addr := (dma_addr + hw.MDDI_REV_BUFFER_SIZE) % 2 ^ 32 }
  { m with reg_read_addr := (m.reg_write_addr + hw.sizeof_mddi_llentry) % 2 ^ 32 }

/-- The function `mddi_init_rev_encap`. -/
def mddi_init_rev_encap (hw : mddi_hw) (s : sys) : sys :=
  let s := s.upd fun m => with_ring (memset m.rev_data 0 0xee hw.MDDI_REV_BUFFER_SIZE) m
  let s := s.upd fun m => mddi_writel (.REV_PTR m.rev_addr) m
  let s := s.upd (mddi_writel (.CMD .MDDI_CMD_FORCE_NEW_REV_PTR))
  mddi_wait_interrupt hw hw.MDDI_INT_NO_CMD_PKTS_PEND s

/-- The function `mddi_init_registers`; `PAD_CTL` and `CORE_VER` are the values read from
those registers.  The 5 microsecond `udelay` is not modelled. -/
def mddi_init_registers (hw : mddi_hw) (PAD_CTL CORE_VER : Nat) (s : sys) : sys :=
  let s := s.upd (mddi_writel (.REG .VERSION 0x0001))
  let s := s.upd (mddi_writel (.REG .BPS hw.MDDI_HOST_BYTES_PER_SUBFRAME))
  let s := s.upd (mddi_writel (.REG .SPM 0x0003))
  let s := s.upd (mddi_writel (.REG .TA1_LEN 0x0005))
  let s := s.upd (mddi_writel (.REG .TA2_LEN hw.MDDI_HOST_TA2_LEN))
  let s := s.upd (mddi_writel (.REG .DRIVE_HI 0x0096))
  let s := s.upd (mddi_writel (.REG .DRIVE_LO 0x0050))
  let s := s.upd (mddi_writel (.REG .DISP_WAKE 0x003C))
  let s := s.upd (mddi_writel (.REG .REV_RATE_DIV hw.MDDI_HOST_REV_RATE_DIV))
  let s := s.upd (mddi_writel (.REG .REV_SIZE hw.MDDI_REV_BUFFER_SIZE))
  let s := s.upd (mddi_writel (.REG .REV_ENCAP_SZ hw.MDDI_MAX_REV_PKT_SIZE))
  let s := s.upd (mddi_writel (.CMD (.MDDI_CMD_PERIODIC_REV_ENCAP 0)))
  let s := mddi_wait_interrupt hw hw.MDDI_INT_NO_CMD_PKTS_PEND s
  let s := if PAD_CTL = 0 then s.upd (mddi_writel (.REG .PAD_CTL 0x08000)) else s
  let s := s.upd (mddi_writel (.REG .PAD_CTL 0xa850f))
  let s := s.upd (with_version (CORE_VER &&& 0xffff))
  let s := s.upd (mddi_writel (.REG .DRIVER_START_CNT 0x60006))
  let s := mddi_set_auto_hibernate hw 0 s
  let s := s.upd (mddi_writel (.CMD .MDDI_CMD_DISP_IGNORE))
  let s := mddi_wait_interrupt hw hw.MDDI_INT_NO_CMD_PKTS_PEND s
  mddi_init_rev_encap hw s

/-- The part of `mddi_init` from the first use of the link to the end of
`mddi_init_registers` (lines 592-596). -/
def mddi_init_bringup (hw : mddi_hw) (env : init_env) (s : sys) : sys :=
  let s := mddi_set_auto_hibernate hw 0 s
  let s := s.upd (mddi_writel (.CMD .MDDI_CMD_RESET))
  let s := mddi_wait_interrupt hw hw.MDDI_INT_NO_CMD_PKTS_PEND s
  mddi_init_registers hw env.PAD_CTL env.CORE_VER s

/-- The part of `mddi_init` between the version check and the detection loop
(lines 605-617): stale interrupts are cleared, the permanent signals are enabled and the
link is activated. -/
def mddi_init_enable (hw : mddi_hw) (s : sys) : sys :=
  let s := s.upd (mddi_writel (.INT 0xffffffff))
  let s := s.upd (with_int_enable (hw.MDDI_INT_LINK_ACTIVE ||| hw.MDDI_INT_IN_HIBERNATION |||
    hw.MDDI_INT_PRI_LINK_LIST_DONE ||| hw.MDDI_INT_REV_DATA_AVAIL |||
    hw.MDDI_INT_REV_OVERFLOW ||| hw.MDDI_INT_REV_OVERWRITE ||| hw.MDDI_INT_RTD_FAILURE))
  let s := s.upd fun m => mddi_writel (.INTEN m.int_enable) m
  let s := s.upd (mddi_writel (.CMD .MDDI_CMD_LINK_ACTIVE))
  mddi_wait_interrupt hw hw.MDDI_INT_NO_CMD_PKTS_PEND s

/-- The exit `fail2` of `mddi_init` and the labels it falls through. -/
def init_fail2 (s : init_sys) : init_sys :=
  ((s.call .free_irq).call .dma_free_coherent).call .clk_put

/-- The exit `fail1` of `mddi_init` and the label it falls through. -/
def init_fail1 (s : init_sys) : init_sys := (s.call .dma_free_coherent).call .clk_put

/-- The exit `fail0` of `mddi_init`. -/
def init_fail0 (s : init_sys) : init_sys := s.call .clk_put

/-- The start of `mddi_init` (lines 531-543): the flags and the callbacks are taken from
the platform data. -/
def mddi_init_pd (env : init_env) (s : init_sys) : init_sys :=
  let s := s.run fun u => u.upd (with_flags FLAG_DISABLE_HIBERNATION)
  match env.pd with
  | none => s
  | some pd =>
    let s := { s with mddi_client_power := pd.mddi_client_power }
    let s := s.run fun u => u.upd (with_mddi_enable pd.mddi_enable)
    let s := { s with panel_power := pd.panel_power }
    if pd.has_vsync_irq then
      s.run fun u => u.upd fun m => with_flags (m.flags ||| FLAG_HAS_VSYNC_IRQ) m
    else s

/-- The function `mddi_init`: the value it returns and the state it leaves, or
`Except.error` with the state reached when it does not return (see `mddi_init_detect`).
`ret` is the local variable of that name; its initial value 0 is overwritten on every
path. -/
def mddi_init (hw : mddi_hw) (env : init_env) (clk_rate : Nat) (s : init_sys) :
    Except init_sys (Int × init_sys) :=
  let s := mddi_init_pd env s
  let s := { (s.call .clk_get) with clk := env.clk_get }
  if env.IS_ERR s.clk then
    let ret := env.PTR_ERR s.clk
    .ok (ret, s)
  else
    let ret := env.clk_enable
    let s := s.call .clk_enable
    let s := { s with clk_rate := clk_rate }
    let s := s.call (.clk_set_rate s.clk_rate)
    if env.clk_set_rate ≠ 0 then .ok (ret, init_fail0 s)
    else
      let s := s.call .dma_alloc_coherent
      match env.dma_alloc_coherent with
      | none =>
        let ret := -(hw.ENOMEM : Int)
        .ok (ret, init_fail0 s)
      | some dma_addr =>
        let s := s.run fun u => u.upd (with_int_enable 0)
        let s := s.run fun u => u.upd fun m => mddi_writel (.INTEN m.int_enable) m
        let ret := env.request_irq
        let s := s.call .request_irq
        if ret ≠ 0 then .ok (ret, init_fail1 s)
        else
          let s := if s.mddi_client_power then s.call (.mddi_client_power 1) else s
          let s := s.run fun u => u.upd (init_buffers hw dma_addr)
          let s := s.run (mddi_init_bringup hw env)
          if s.drv.mddi.version < 0x20 then
            let ret := -(hw.ENODEV : Int)
            .ok (ret, init_fail2 s)
          else
            let s := s.run (mddi_init_enable hw)
            match mddi_init_detect hw env.pd s.drv with
            | .error u => .error { s with drv := u }
            | .ok r => .ok (r.1, { s with drv := r.2 })

/-- A sample state in which `mddi_init` starts: nothing acquired, no interrupt to come. -/
def sample_init_sys : init_sys :=
  { drv := sample_sys [] [], clk := 0, clk_rate := 0, mddi_client_power := false,
    panel_power := false, calls := [] }

/-- A sample environment in which every call succeeds, except that `clk_set_rate` returns
`-EINVAL` (errno 22). -/
def sample_rate_failure : init_env :=
  { IS_ERR := IS_ERR, PTR_ERR := PTR_ERR,
    pd := none, clk_get := 0xc0001000, clk_enable := 0, clk_set_rate := -22,
    dma_alloc_coherent := some 0x1000, request_irq := 0, PAD_CTL := 0, CORE_VER := 0x20 }

end Mddi

namespace Acpuclock

/-! ## The Scorpion CPU clock driver (`arch/arm/mach-msm/acpuclock-scorpion.c`)

The driver state is the file-scope `drv_state`, the kernel variable `loops_per_jiffy`, the
member `lpj` of the entries of `acpu_freq_tbl` (the only member the code writes), and the
four registers the code reads back.  Reads of the PLL status register take their values
from a list; when the list is exhausted the register reads 0, so every busy-wait loop
ends. -/

/-- The record `struct clkctl_acpu_speed`. -/
structure clkctl_acpu_speed where
  acpu_khz : Nat
  clk_cfg : Nat
  clk_sel : Nat
  sc_l_value : Nat
  lpj : Nat
deriving DecidableEq, Repr

/-- The switch mode `HOP_SWITCH`. -/
def HOP_SWITCH : Nat := 5

/-- The clock source `CLK_TCXO`. -/
def CLK_TCXO : Nat := 0
/-- The clock source `CLK_GLOBAL_PLL`. -/
def CLK_GLOBAL_PLL : Nat := 1
/-- The clock source `CLK_MODEM_PLL`. -/
def CLK_MODEM_PLL : Nat := 4

/-- The macro `CCTL(src, div)`. -/
def CCTL (src div : Nat) : Nat := (src <<< 4) ||| (div - 1)

/-- The core source `SRC_RAW`. -/
def SRC_RAW : Nat := 0
/-- The core source `SRC_SCPLL`. -/
def SRC_SCPLL : Nat := 1
/-- The core source `SRC_AXI`. -/
def SRC_AXI : Nat := 2
/-- The core source `SRC_PLL1`. -/
def SRC_PLL1 : Nat := 3

/-- The array `acpu_freq_tbl` as initialised (lines 69-92); the last entry, `{ 0 }`, is
the terminator. -/
def acpu_freq_tbl : List clkctl_acpu_speed :=
  [⟨19200, CCTL CLK_TCXO 1, SRC_RAW, 0, 0⟩,
   ⟨128000, CCTL CLK_TCXO 1, SRC_AXI, 0, 0⟩,
   ⟨245000, CCTL CLK_MODEM_PLL 1, SRC_RAW, 0, 0⟩,
   ⟨256000, CCTL CLK_GLOBAL_PLL 3, SRC_RAW, 0, 0⟩,
   ⟨384000, CCTL CLK_TCXO 1, SRC_SCPLL, 0x0A, 0⟩,
   ⟨422400, CCTL CLK_TCXO 1, SRC_SCPLL, 0x0B, 0⟩,
   ⟨460800, CCTL CLK_TCXO 1, SRC_SCPLL, 0x0C, 0⟩,
   ⟨499200, CCTL CLK_TCXO 1, SRC_SCPLL, 0x0D, 0⟩,
   ⟨537600, CCTL CLK_TCXO 1, SRC_SCPLL, 0x0E, 0⟩,
   ⟨576000, CCTL CLK_TCXO 1, SRC_SCPLL, 0x0F, 0⟩,
   ⟨614400, CCTL CLK_TCXO 1, SRC_SCPLL, 0x10, 0⟩,
   ⟨652800, CCTL CLK_TCXO 1, SRC_SCPLL, 0x11, 0⟩,
   ⟨691200, CCTL CLK_TCXO 1, SRC_SCPLL, 0x12, 0⟩,
   ⟨729600, CCTL CLK_TCXO 1, SRC_SCPLL, 0x13, 0⟩,
   ⟨768000, CCTL CLK_TCXO 1, SRC_SCPLL, 0x14, 0⟩,
   ⟨806400, CCTL CLK_TCXO 1, SRC_SCPLL, 0x15, 0⟩,
   ⟨844800, CCTL CLK_TCXO 1, SRC_SCPLL, 0x16, 0⟩,
   ⟨883200, CCTL CLK_TCXO 1, SRC_SCPLL, 0x17, 0⟩,
   ⟨921600, CCTL CLK_TCXO 1, SRC_SCPLL, 0x18, 0⟩,
   ⟨960000, CCTL CLK_TCXO 1, SRC_SCPLL, 0x19, 0⟩,
   ⟨998400, CCTL CLK_TCXO 1, SRC_SCPLL, 0x1A, 0⟩,
   ⟨0, 0, 0, 0, 0⟩]

/-- What the driver takes from kernel headers that are not part of the sources: the
errno constant `EINVAL` and the function `cpufreq_scale(old, div, mult)`. -/
structure acpu_env where
  EINVAL : Nat
  cpufreq_scale : Nat → Nat → Nat → Nat

/-- The record `struct clock_state`; `current_speed` is the index of the entry of
`acpu_freq_tbl` it points to, `none` being the null pointer of the static initialiser. -/
structure clock_state where
  current_speed : Option Nat
  acpu_switch_time_us : Nat
  max_speed_delta_khz : Nat
  vdd_switch_time_us : Nat
  power_collapse_khz : Nat
  wait_for_irq_khz : Nat
deriving DecidableEq, Repr

/-- The state of the clock driver and of the hardware it drives. -/
structure acpu_sys where
  drv_state : clock_state
  loops_per_jiffy : Nat
  /-- The current value of the member `lpj` of each entry of `acpu_freq_tbl`, by index. -/
  lpj : Nat → Nat
  SPSS_CLK_CNTL : Nat
  SPSS_CLK_SEL : Nat
  SCPLL_CTL : Nat
  SCPLL_FSM_CTL_EXT : Nat
  /-- Values the next reads of the PLL status register return. -/
  SCPLL_STATUS : List Nat
  /-- Microseconds spent in `udelay`. -/
  udelay_us : Nat

/-- The loop `while (readl(SCPLL_STATUS_ADDR) & mask) ;` on the values still to be read. -/
def wait_status (mask : Nat) : List Nat → List Nat
  | [] => []
  | v :: rest => if v &&& mask ≠ 0 then wait_status mask rest else rest

/-- The busy-wait on the status register, as a step of the state. -/
def poll_status (mask : Nat) (s : acpu_sys) : acpu_sys :=
  { s with SCPLL_STATUS := wait_status mask s.SCPLL_STATUS }

/-- The kernel primitive `udelay`. -/
def udelay (us : Nat) (s : acpu_sys) : acpu_sys := { s with udelay_us := s.udelay_us + us }

/-- The write of `v` to the register `SCPLL_CTL`. -/
def write_SCPLL_CTL (v : Nat) (s : acpu_sys) : acpu_sys := { s with SCPLL_CTL := v }

/-- The write of `v` to the register `SCPLL_FSM_CTL_EXT`. -/
def write_SCPLL_FSM_CTL_EXT (v : Nat) (s : acpu_sys) : acpu_sys :=
  { s with SCPLL_FSM_CTL_EXT := v }

/-- The write of `v` to the register `SPSS_CLK_CNTL`. -/
def write_SPSS_CLK_CNTL (v : Nat) (s : acpu_sys) : acpu_sys := { s with SPSS_CLK_CNTL := v }

/-- The write of `v` to the register `SPSS_CLK_SEL`. -/
def write_SPSS_CLK_SEL (v : Nat) (s : acpu_sys) : acpu_sys := { s with SPSS_CLK_SEL := v }

/-- The function `scpll_set_freq`. -/
def scpll_set_freq (lval : Nat) (s : acpu_sys) : acpu_sys :=
  let lval := if lval > 33 then 33 else lval
  let lval := if lval < 10 then 10 else lval
  let s := poll_status 0x3 s
  let regval := s.SCPLL_FSM_CTL_EXT
  let regval := regval &&& Mddi.not32 (0x3f <<< 3)
  let regval := regval ||| (lval <<< 3)
  let regval := regval &&& Mddi.not32 (0x3 <<< 0)
  let regval := regval ||| (HOP_SWITCH <<< 0)
  let s := write_SCPLL_FSM_CTL_EXT regval s
  let regval := s.SCPLL_CTL
  let regval := regval ||| 0x7
  let s := write_SCPLL_CTL regval s
  let s := poll_status 0x1 s
  udelay 100 s

/-- The function `scpll_apps_enable`. -/
def scpll_apps_enable (state : Bool) (s : acpu_sys) : acpu_sys :=
  let s := poll_status 0x1 s
  let regval := s.SCPLL_CTL
  let regval := regval &&& Mddi.not32 0x7
  let regval := regval ||| 0x2
  let s := write_SCPLL_CTL regval s
  let s := if state then
      write_SCPLL_CTL (s.SCPLL_CTL ||| 0x7) s
    else
      write_SCPLL_CTL (s.SCPLL_CTL &&& Mddi.not32 0x7) s
  udelay s.drv_state.vdd_switch_time_us s

/-- The function `scpll_init`. -/
def scpll_init (lval : Nat) (s : acpu_sys) : acpu_sys :=
  let s := write_SCPLL_CTL 0x0 s
  let s := write_SCPLL_CTL 0x00400002 s
  let s := write_SCPLL_CTL 0x00600004 s
  let s := poll_status 0x2 s
  let s := write_SCPLL_CTL 0x0 s
  scpll_set_freq lval s

/-- The function `select_clock`. -/
def select_clock (src config : Nat) (s : acpu_sys) : acpu_sys :=
  let s := if src = SRC_RAW then
      let sel := s.SPSS_CLK_SEL
      let shift := if sel &&& 1 ≠ 0 then 8 else 0
      let val := s.SPSS_CLK_CNTL
      let val := ((val &&& Mddi.not32 (0x7F <<< shift)) ||| (config <<< shift)) % 2 ^ 32
      let s := write_SPSS_CLK_CNTL val s
      write_SPSS_CLK_SEL (sel ^^^ 1) s
    else s
  let val := s.SPSS_CLK_SEL &&& Mddi.not32 6
  write_SPSS_CLK_SEL (val ||| ((src &&& 3) <<< 1)) s

/-- The outcome of a walk along `acpu_freq_tbl`: the index of the entry at which the walk
stopped with `break`, the exit taken at an entry whose `acpu_khz` is 0, or a walk past
the last entry of the array. -/
inductive lookup where
  | found (i : Nat)
  | at_zero
  | overrun
deriving DecidableEq, Repr

/-- The search loop of `acpuclk_set_rate` (lines 259-266) and of `acpuclk_init`
(lines 335-344), entered at the entry of index `i` with the entries from there on: an
entry is first compared with `rate`; only when it differs is its `acpu_khz` compared
with 0. -/
def find_rate (rate : Nat) : List clkctl_acpu_speed → Nat → lookup
  | [], _ => .overrun
  | e :: rest, i =>
    if e.acpu_khz = rate then .found i
    else if e.acpu_khz = 0 then .at_zero
    else find_rate rate rest (i + 1)

/-- The clock switch of `acpuclk_set_rate` (lines 274-289) from the entry `cur` to the
entry `next`. -/
def switch_clock (cur next : clkctl_acpu_speed) (s : acpu_sys) : acpu_sys :=
  if next.clk_sel = SRC_SCPLL then
    let s := if cur.clk_sel ≠ SRC_SCPLL then scpll_apps_enable true s else s
    let s := if cur.clk_sel ≠ SRC_AXI then select_clock SRC_AXI 0 s else s
    let s := scpll_set_freq next.sc_l_value s
    select_clock SRC_SCPLL 0 s
  else
    if cur.clk_sel = SRC_SCPLL then
      let s := select_clock SRC_AXI 0 s
      let s := select_clock next.clk_sel next.clk_cfg s
      scpll_apps_enable false s
    else
      select_clock next.clk_sel next.clk_cfg s

/-- The assignment `drv_state.current_speed = &acpu_freq_tbl[i]`. -/
def set_current_speed (i : Nat) (s : acpu_sys) : acpu_sys :=
  { s with drv_state := { s.drv_state with current_speed := some i } }

/-- The assignment of `v` to `loops_per_jiffy`. -/
def set_loops_per_jiffy (v : Nat) (s : acpu_sys) : acpu_sys := { s with loops_per_jiffy := v }

/-- The function `acpuclk_set_rate`; `rate` is an `unsigned long` of 32 bits.  The result
is `none` when the code dereferences the null pointer or leaves the array. -/
def acpuclk_set_rate (env : acpu_env) (rate : Nat) (_for_power_collapse : Int)
    (s : acpu_sys) : Option (Int × acpu_sys) :=
  match s.drv_state.current_speed with
  | none => none
  | some c =>
    match acpu_freq_tbl.get? c with
    | none => none
    | some cur =>
      let rate := rate % 2 ^ 32 / 1000
      if rate = cur.acpu_khz then some (0, s)
      else
        match find_rate rate acpu_freq_tbl 0 with
        | .overrun => none
        | .at_zero => some (-(env.EINVAL : Int), s)
        | .found n =>
          match acpu_freq_tbl.get? n with
          | none => none
          | some next =>
            let s := switch_clock cur next s
            let s := set_current_speed n s
            let s := set_loops_per_jiffy (s.lpj n) s
            some (0, s)

/-- The function `acpuclk_find_speed`; `none` stands for `BUG()`. -/
def acpuclk_find_speed (s : acpu_sys) : Option Nat :=
  let sel := s.SPSS_CLK_SEL
  match (sel &&& 6) >>> 1 with
  | 1 =>
    let val := s.SCPLL_FSM_CTL_EXT
    let val := (val >>> 3) &&& 0x3f
    some (val * 38400)
  | 2 => some 128000
  | _ => none

/-- The loop `for (speed = acpu_freq_tbl; speed->acpu_khz; speed++)` of `acpuclk_init`
(lines 352-354), entered at index `i` with the entries from there on: the members `lpj`
written, and the index at which `speed` stands when the loop ends (`none` when the walk
leaves the array). -/
def scale_lpj (env : acpu_env) (loops_per_jiffy init_khz : Nat) :
    List clkctl_acpu_speed → Nat → (Nat → Nat) → (Nat → Nat) × Option Nat
  | [], _, lpj => (lpj, none)
  | e :: rest, i, lpj =>
    if e.acpu_khz ≠ 0 then
      scale_lpj env loops_per_jiffy init_khz rest (i + 1)
        (Function.update lpj i (env.cpufreq_scale loops_per_jiffy init_khz e.acpu_khz))
    else (lpj, some i)

/-- The assignment of the members `lpj` of the table. -/
def set_lpj (lpj : Nat → Nat) (s : acpu_sys) : acpu_sys := { s with lpj := lpj }

/-- The function `acpuclk_init`; `none` stands for `BUG()` or a walk out of the array. -/
def acpuclk_init (env : acpu_env) (s : acpu_sys) : Option acpu_sys :=
  match acpuclk_find_speed s with
  | none => none
  | some init_khz =>
    let s := select_clock SRC_AXI 0 s
    let s := scpll_init 0x14 s
    match find_rate 768000 acpu_freq_tbl 0 with
    | .overrun => none
    | .at_zero => none
    | .found n =>
      match acpu_freq_tbl.get? n with
      | none => none
      | some speed =>
        let s := scpll_apps_enable true s
        let s := scpll_set_freq speed.sc_l_value s
        let s := select_clock SRC_SCPLL 0 s
        let s := set_current_speed n s
        let r := scale_lpj env s.loops_per_jiffy init_khz acpu_freq_tbl 0 s.lpj
        match r.2 with
        | none => none
        | some stop =>
          let s := set_lpj r.1 s
          some (set_loops_per_jiffy (s.lpj stop) s)

/-- The function `acpuclk_get_rate`; `none` when `current_speed` is null. -/
def acpuclk_get_rate (s : acpu_sys) : Option Nat :=
  match s.drv_state.current_speed with
  | none => none
  | some c => (acpu_freq_tbl.get? c).map fun e => e.acpu_khz

/-- A sample of the headers: `EINVAL` is 22 and `cpufreq_scale(old, div, mult)` is
`old * mult / div`. -/
def sample_env : acpu_env := { EINVAL := 22, cpufreq_scale := fun old div mult => old * mult / div }

/-- A sample state at boot: the static initialisers (`drv_state` zeroed, every `lpj` 0),
the core on the AXI clock, and `loops_per_jiffy` calibrated to 640000. -/
def boot_sys : acpu_sys :=
  { drv_state := ⟨none, 0, 0, 0, 0, 0⟩, loops_per_jiffy := 640000, lpj := fun _ => 0,
    SPSS_CLK_CNTL := 0, SPSS_CLK_SEL := 4, SCPLL_CTL := 0, SCPLL_FSM_CTL_EXT := 0,
    SCPLL_STATUS := [], udelay_us := 0 }

/-- A sample state after boot: the 768000 kHz entry is current. -/
def running_sys : acpu_sys := set_current_speed 14 boot_sys

/-- The members the hardware steps leave alone. -/
def same_speed (s s2 : acpu_sys) : Prop :=
  s2.drv_state = s.drv_state ∧ s2.loops_per_jiffy = s.loops_per_jiffy ∧ s2.lpj = s.lpj

end Acpuclock

namespace Mddi

/-! ## Theorems -/

theorem mod_wrap_once (a s : Nat) (h1 : s ≤ a) (h2 : a < s + s) : a % s = a - s := by
  rw [Nat.mod_eq_sub_mod h1, Nat.mod_eq_of_lt (by omega)]

theorem rev_frame_bytes (hw : mddi_hw) (ev : rev_event) (p l i : Nat)
    (hp : p < hw.MDDI_REV_BUFFER_SIZE) (hl : l ≤ hw.MDDI_REV_BUFFER_SIZE - 2)
    (hS : 2 ≤ hw.MDDI_REV_BUFFER_SIZE) (hi : i < 2 + l) :
    rev_frame hw ev p l i = ring_frame hw ev.mem p i := by
  unfold rev_frame ring_frame
  by_cases hw1 : p + 2 + l ≥ hw.MDDI_REV_BUFFER_SIZE
  · simp only [hw1, if_true]
    by_cases h2 : hw.MDDI_REV_BUFFER_SIZE - p ≤ i
    · have h3 : i < hw.MDDI_REV_BUFFER_SIZE - p +
          (2 + l - (hw.MDDI_REV_BUFFER_SIZE - p)) := by omega
      simp only [h2, h3, and_self, if_true]
      rw [mod_wrap_once (p + i) _ (by omega) (by omega)]
      congr 1; omega
    · have h3 : i < hw.MDDI_REV_BUFFER_SIZE - p := by omega
      simp only [h2, false_and, if_false, h3, if_true]
      rw [Nat.mod_eq_of_lt (by omega)]
  · simp only [hw1, if_false]
    rw [Nat.mod_eq_of_lt (by omega)]

theorem rev_length_eq_rd16 (hw : mddi_hw) (mem : Nat → Nat) (p : Nat)
    (hp : p < hw.MDDI_REV_BUFFER_SIZE) (_hS : 2 ≤ hw.MDDI_REV_BUFFER_SIZE) :
    rev_length hw mem p = rd16 (ring_frame hw mem p) 0 := by
  unfold rev_length rd16 ring_frame
  have h0 : (p + 0) % hw.MDDI_REV_BUFFER_SIZE = p := by
    rw [Nat.add_zero, Nat.mod_eq_of_lt hp]
  have h1 : (p + (0 + 1)) % hw.MDDI_REV_BUFFER_SIZE =
      (if p + 1 = hw.MDDI_REV_BUFFER_SIZE then 0 else p + 1) := by
    by_cases h : p + 1 = hw.MDDI_REV_BUFFER_SIZE
    · simp [h]
    · simp only [h, if_false, Nat.zero_add]
      exact Nat.mod_eq_of_lt (by omega)
  simp only [h0, h1]
  omega

theorem rev_register_access_frame (hw : mddi_hw) (rev : Nat → Nat) (m : mddi_info) :
    (rev_register_access hw rev m).rev_log = m.rev_log ∧
    (rev_register_access hw rev m).rev_data = m.rev_data ∧
    (rev_register_access hw rev m).rev_addr = m.rev_addr ∧
    (rev_register_access hw rev m).rev_data_curr = m.rev_data_curr ∧
    (rev_register_access hw rev m).hw_log = m.hw_log ∧
    (rev_register_access hw rev m).mddi_debug_flags = m.mddi_debug_flags ∧
    (rev_register_access hw rev m).flags = m.flags ∧
    (rev_register_access hw rev m).caps = m.caps ∧
    (rev_register_access hw rev m).status = m.status := by
  unfold rev_register_access
  cases m.reg_read with
  | none => simp
  | some r =>
    by_cases h : (m.ri r).reg ≠ rd32 rev hw.offsetof_register_address
    · simp [h]
    · simp [h, complete, ri_set_status, ri_set_result]

/-- The frame handed to `mddi_handle_rev_data` is logged, whatever the frame holds; the
ring, its address and the debug flags are not written. -/
@[simp] theorem rev_memset_rev_log (hw : mddi_hw) (start n : Nat) (m : mddi_info) :
    (rev_memset hw start n m).rev_log = m.rev_log := by
  unfold rev_memset; dsimp only; split_ifs <;> rfl

@[simp] theorem rev_memset_rev_data_curr (hw : mddi_hw) (start n : Nat) (m : mddi_info) :
    (rev_memset hw start n m).rev_data_curr = m.rev_data_curr := by
  unfold rev_memset; dsimp only; split_ifs <;> rfl

@[simp] theorem rev_memset_hw_log (hw : mddi_hw) (start n : Nat) (m : mddi_info) :
    (rev_memset hw start n m).hw_log = m.hw_log := by
  unfold rev_memset; dsimp only; split_ifs <;> rfl

@[simp] theorem rev_memset_rev_addr (hw : mddi_hw) (start n : Nat) (m : mddi_info) :
    (rev_memset hw start n m).rev_addr = m.rev_addr := by
  unfold rev_memset; dsimp only; split_ifs <;> rfl

@[simp] theorem rev_memset_mddi_debug_flags (hw : mddi_hw) (start n : Nat) (m : mddi_info) :
    (rev_memset hw start n m).mddi_debug_flags = m.mddi_debug_flags := by
  unfold rev_memset; dsimp only; split_ifs <;> rfl

@[simp] theorem rev_memset_flags (hw : mddi_hw) (start n : Nat) (m : mddi_info) :
    (rev_memset hw start n m).flags = m.flags := by
  unfold rev_memset; dsimp only; split_ifs <;> rfl

@[simp] theorem rev_memset_caps (hw : mddi_hw) (start n : Nat) (m : mddi_info) :
    (rev_memset hw start n m).caps = m.caps := by
  unfold rev_memset; dsimp only; split_ifs <;> rfl

@[simp] theorem rev_memset_status (hw : mddi_hw) (start n : Nat) (m : mddi_info) :
    (rev_memset hw start n m).status = m.status := by
  unfold rev_memset; dsimp only; split_ifs <;> rfl

@[simp] theorem rev_memset_reg_read (hw : mddi_hw) (start n : Nat) (m : mddi_info) :
    (rev_memset hw start n m).reg_read = m.reg_read := by
  unfold rev_memset; dsimp only; split_ifs <;> rfl

@[simp] theorem rev_memset_ri (hw : mddi_hw) (start n : Nat) (m : mddi_info) :
    (rev_memset hw start n m).ri = m.ri := by
  unfold rev_memset; dsimp only; split_ifs <;> rfl

@[simp] theorem rev_memset_version (hw : mddi_hw) (start n : Nat) (m : mddi_info) :
    (rev_memset hw start n m).version = m.version := by
  unfold rev_memset; dsimp only; split_ifs <;> rfl

@[simp] theorem rev_memset_reg_write_data (hw : mddi_hw) (start n : Nat) (m : mddi_info) :
    (rev_memset hw start n m).reg_write_data = m.reg_write_data := by
  unfold rev_memset; dsimp only; split_ifs <;> rfl

@[simp] theorem rev_memset_reg_write_addr (hw : mddi_hw) (start n : Nat) (m : mddi_info) :
    (rev_memset hw start n m).reg_write_addr = m.reg_write_addr := by
  unfold rev_memset; dsimp only; split_ifs <;> rfl

@[simp] theorem rev_memset_reg_read_data (hw : mddi_hw) (start n : Nat) (m : mddi_info) :
    (rev_memset hw start n m).reg_read_data = m.reg_read_data := by
  unfold rev_memset; dsimp only; split_ifs <;> rfl

@[simp] theorem rev_memset_reg_read_addr (hw : mddi_hw) (start n : Nat) (m : mddi_info) :
    (rev_memset hw start n m).reg_read_addr = m.reg_read_addr := by
  unfold rev_memset; dsimp only; split_ifs <;> rfl

@[simp] theorem rev_memset_int_enable (hw : mddi_hw) (start n : Nat) (m : mddi_info) :
    (rev_memset hw start n m).int_enable = m.int_enable := by
  unfold rev_memset; dsimp only; split_ifs <;> rfl

@[simp] theorem rev_memset_got_int (hw : mddi_hw) (start n : Nat) (m : mddi_info) :
    (rev_memset hw start n m).got_int = m.got_int := by
  unfold rev_memset; dsimp only; split_ifs <;> rfl

@[simp] theorem rev_memset_mddi_enable (hw : mddi_hw) (start n : Nat) (m : mddi_info) :
    (rev_memset hw start n m).mddi_enable = m.mddi_enable := by
  unfold rev_memset; dsimp only; split_ifs <;> rfl

@[simp] theorem rev_memset_ext_log (hw : mddi_hw) (start n : Nat) (m : mddi_info) :
    (rev_memset hw start n m).ext_log = m.ext_log := by
  unfold rev_memset; dsimp only; split_ifs <;> rfl

@[simp] theorem rev_memset_panel_info (hw : mddi_hw) (start n : Nat) (m : mddi_info) :
    (rev_memset hw start n m).panel_info = m.panel_info := by
  unfold rev_memset; dsimp only; split_ifs <;> rfl

@[simp] theorem rev_memset_int_wait_wake_ups (hw : mddi_hw) (start n : Nat) (m : mddi_info) :
    (rev_memset hw start n m).int_wait_wake_ups = m.int_wait_wake_ups := by
  unfold rev_memset; dsimp only; split_ifs <;> rfl

theorem rev_memset_eq (hw : mddi_hw) (start n : Nat) (m : mddi_info) :
    ∃ d b, rev_memset hw start n m = with_debug d b m := by
  unfold rev_memset with_debug
  dsimp only
  split_ifs
  · exact ⟨_, m.mem_fault, rfl⟩
  · exact ⟨_, true, rfl⟩

theorem handle_rev_data_frame (hw : mddi_hw) (rev : Nat → Nat) (m : mddi_info) :
    (mddi_handle_rev_data hw rev m).rev_log = m.rev_log ++ [rev] ∧
    (mddi_handle_rev_data hw rev m).rev_data = m.rev_data ∧
    (mddi_handle_rev_data hw rev m).rev_addr = m.rev_addr ∧
    (mddi_handle_rev_data hw rev m).mddi_debug_flags = m.mddi_debug_flags := by
  unfold mddi_handle_rev_data
  simp only [mddi_reset_rev_encap_ptr, mddi_writel, wake_up]
  split_ifs <;> simp [rev_register_access_frame]

theorem rev_entry_frame (hw : mddi_hw) (ev : rev_event) (m : mddi_info) :
    (rev_entry hw ev m).rev_log = m.rev_log ∧
    (rev_entry hw ev m).rev_data = ev.mem ∧
    (rev_entry hw ev m).rev_addr = m.rev_addr ∧
    (rev_entry hw ev m).rev_data_curr = m.rev_data_curr ∧
    (rev_entry hw ev m).hw_log = m.hw_log ++ [.INT hw.MDDI_INT_REV_DATA_AVAIL] ∧
    (rev_entry hw ev m).mddi_debug_flags = m.mddi_debug_flags ∧
    (rev_entry hw ev m).flags = m.flags ∧
    (rev_entry hw ev m).caps = m.caps ∧
    (rev_entry hw ev m).status = m.status := by
  unfold rev_entry
  by_cases hcrc : ev.REV_CRC_ERR ≠ 0
  · cases hr : m.reg_read <;>
      simp [hcrc, hr, mddi_writel, complete, ri_set_status, ri_set_result]
  · simp [hcrc, mddi_writel]

theorem rev_dispatch_rev_log (hw : mddi_hw) (ev : rev_event) (p l : Nat) (m : mddi_info) :
    (rev_dispatch hw ev p l m).rev_log = m.rev_log ++ [rev_frame hw ev p l] := by
  unfold rev_dispatch
  dsimp only
  split_ifs <;> simp [handle_rev_data_frame]

/-- With a packet pending and a length that fits the ring, the handler dispatches
exactly one frame, the one `rev_frame` builds at the cursor. -/
theorem avail_rev_log (hw : mddi_hw) (ev : rev_event) (m : mddi_info)
    (hcnt : ev.REV_PKT_CNT ≠ 0)
    (hl : rev_length hw ev.mem m.rev_data_curr ≤ hw.MDDI_REV_BUFFER_SIZE - 2) :
    (mddi_handle_rev_data_avail hw ev m).rev_log =
      m.rev_log ++ [rev_frame hw ev m.rev_data_curr (rev_length hw ev.mem m.rev_data_curr)] := by
  unfold mddi_handle_rev_data_avail
  simp only [hcnt, if_false, rev_entry_frame, Nat.not_lt.mpr hl]
  unfold rev_half_way
  split_ifs <;> simp [mddi_writel, rev_dispatch_rev_log, rev_entry_frame, with_cursor]

theorem handle_rev_data_ok (hw : mddi_hw) (rev : Nat → Nat) (m : mddi_info)
    (hlen : length_in_range hw (rd16 rev 0))
    (htype : known_type hw (rd16 rev hw.offsetof_type)) :
    (mddi_handle_rev_data hw rev m).rev_data_curr = m.rev_data_curr ∧
    (mddi_handle_rev_data hw rev m).hw_log = m.hw_log := by
  unfold mddi_handle_rev_data
  have h1 : rd16 rev 0 ≤ hw.MDDI_REV_BUFFER_SIZE - 2 ∧
      rd16 rev 0 ≥ hw.sizeof_mddi_rev_packet - 2 := ⟨hlen.2, hlen.1⟩
  simp only [h1, and_self, if_true, wake_up]
  split_ifs with a b c
  · simp
  · simp
  · simp [rev_register_access_frame]
  · exact absurd htype (by unfold known_type; push_neg; exact ⟨a, b, c⟩)

theorem handle_rev_data_bad (hw : mddi_hw) (rev : Nat → Nat) (m : mddi_info)
    (hbad : ¬ (length_in_range hw (rd16 rev 0) ∧ known_type hw (rd16 rev hw.offsetof_type))) :
    mddi_handle_rev_data hw rev m =
      mddi_reset_rev_encap_ptr { m with rev_log := m.rev_log ++ [rev] } := by
  unfold mddi_handle_rev_data
  by_cases h1 : rd16 rev 0 ≤ hw.MDDI_REV_BUFFER_SIZE - 2 ∧
      rd16 rev 0 ≥ hw.sizeof_mddi_rev_packet - 2
  · have hk : ¬ known_type hw (rd16 rev hw.offsetof_type) :=
      fun hk => hbad ⟨⟨h1.2, h1.1⟩, hk⟩
    unfold known_type at hk
    push_neg at hk
    simp only [h1, and_self, if_true, hk.1, hk.2.1, hk.2.2, if_false]
  · simp only [h1, if_false]

theorem rev_next_cursor_eq (hw : mddi_hw) (p l : Nat) (_hp : p < hw.MDDI_REV_BUFFER_SIZE) :
    rev_next_cursor hw p l = (p + (2 + l)) % hw.MDDI_REV_BUFFER_SIZE := by
  unfold rev_next_cursor
  by_cases h : p + 1 = hw.MDDI_REV_BUFFER_SIZE
  · have e : p + (2 + l) = hw.MDDI_REV_BUFFER_SIZE + (1 + l) := by omega
    simp only [h, if_true, Nat.zero_add, e, Nat.add_mod_left]
    split_ifs with h2
    · rfl
    · exact (Nat.mod_eq_of_lt (by omega)).symm
  · have e : p + 1 + (1 + l) = p + (2 + l) := by omega
    simp only [h, if_false, e]
    split_ifs with h2
    · rfl
    · exact (Nat.mod_eq_of_lt (by omega)).symm

/-- What one run of the handler does when the packet at the cursor is well formed: the
cursor moves just past the packet and the only register writes are the interrupt
acknowledgement and, possibly, one re-announcement of the ring base. -/
theorem avail_good_step (hw : mddi_hw) (ev : rev_event) (m : mddi_info) (hs : hw_sane hw)
    (hp : m.rev_data_curr < hw.MDDI_REV_BUFFER_SIZE) (hcnt : ev.REV_PKT_CNT ≠ 0)
    (hlen : length_in_range hw (rev_length hw ev.mem m.rev_data_curr))
    (htype : known_type hw (rd16 (ring_frame hw ev.mem m.rev_data_curr) hw.offsetof_type)) :
    (mddi_handle_rev_data_avail hw ev m).rev_data_curr =
      (m.rev_data_curr + (2 + rev_length hw ev.mem m.rev_data_curr)) %
        hw.MDDI_REV_BUFFER_SIZE ∧
    ((mddi_handle_rev_data_avail hw ev m).hw_log =
        m.hw_log ++ [.INT hw.MDDI_INT_REV_DATA_AVAIL] ∨
      (mddi_handle_rev_data_avail hw ev m).hw_log =
        m.hw_log ++ [.INT hw.MDDI_INT_REV_DATA_AVAIL, .REV_PTR m.rev_addr]) := by
  obtain ⟨hS, hH, hT0, hT, -⟩ := hs
  have hlen' := hlen
  obtain ⟨hlo, hhi⟩ := hlen'
  have hb : ∀ i, i < 2 + rev_length hw ev.mem m.rev_data_curr →
      rev_frame hw ev m.rev_data_curr (rev_length hw ev.mem m.rev_data_curr) i =
        ring_frame hw ev.mem m.rev_data_curr i :=
    fun i hi => rev_frame_bytes hw ev _ _ i hp hhi hS hi
  have hl0 : rd16 (rev_frame hw ev m.rev_data_curr (rev_length hw ev.mem m.rev_data_curr)) 0 =
      rev_length hw ev.mem m.rev_data_curr := by
    have e := rev_length_eq_rd16 hw ev.mem _ hp hS
    unfold rd16 at e ⊢
    rw [hb 0 (by omega), hb (0 + 1) (by omega)]
    exact e.symm
  have ht0 : rd16 (rev_frame hw ev m.rev_data_curr (rev_length hw ev.mem m.rev_data_curr))
      hw.offsetof_type = rd16 (ring_frame hw ev.mem m.rev_data_curr) hw.offsetof_type := by
    unfold rd16
    rw [hb _ (by omega), hb _ (by omega)]
  have hok := fun m0 => handle_rev_data_ok hw
    (rev_frame hw ev m.rev_data_curr (rev_length hw ev.mem m.rev_data_curr)) m0
    (by rw [hl0]; exact hlen) (by rw [ht0]; exact htype)
  unfold mddi_handle_rev_data_avail
  simp only [hcnt, if_false, rev_entry_frame, Nat.not_lt.mpr hhi]
  unfold rev_half_way rev_dispatch
  dsimp only
  split_ifs <;>
    simp [mddi_writel, hok, rev_entry_frame, handle_rev_data_frame,
      rev_next_cursor_eq hw _ _ hp, with_cursor]

theorem run_events_cons (hw : mddi_hw) (ev : rev_event) (evs : List rev_event)
    (m : mddi_info) :
    run_events hw (ev :: evs) m = run_events hw evs (mddi_handle_rev_data_avail hw ev m) := rfl

theorem run_events_nil (hw : mddi_hw) (m : mddi_info) : run_events hw [] m = m := rfl

theorem run_events_append (hw : mddi_hw) (e1 e2 : List rev_event) (m : mddi_info) :
    run_events hw (e1 ++ e2) m = run_events hw e2 (run_events hw e1 m) := by
  unfold run_events
  rw [List.foldl_append]

theorem back_to_back_take (hw : mddi_hw) (evs : List rev_event) :
    ∀ (p n : Nat), back_to_back hw p evs → back_to_back hw p (evs.take n) := by
  induction evs with
  | nil => intro p n h; simpa using h
  | cons ev evs ih =>
    intro p n h
    cases n with
    | zero => simp [back_to_back]
    | succ n =>
      obtain ⟨h1, h2, h3, h4⟩ := h
      exact ⟨h1, h2, h3, ih _ n h4⟩

/-- A well-formed back-to-back sequence moves the cursor by the total number of bytes,
modulo the ring size, and never forces a new reverse pointer. -/
theorem run_events_back_to_back (hw : mddi_hw) (hs : hw_sane hw) (evs : List rev_event) :
    ∀ m : mddi_info, m.rev_data_curr < hw.MDDI_REV_BUFFER_SIZE →
      back_to_back hw m.rev_data_curr evs →
      (run_events hw evs m).rev_data_curr =
        (m.rev_data_curr + stream_bytes hw m.rev_data_curr evs) % hw.MDDI_REV_BUFFER_SIZE ∧
      ∃ t, (run_events hw evs m).hw_log = m.hw_log ++ t ∧
        hw_write.CMD .MDDI_CMD_FORCE_NEW_REV_PTR ∉ t := by
  induction evs with
  | nil =>
    intro m hp _
    exact ⟨by simp [run_events_nil, stream_bytes, Nat.mod_eq_of_lt hp], [], by simp [run_events_nil],
      by simp⟩
  | cons ev evs ih =>
    intro m hp hb
    obtain ⟨hcnt, hlen, htype, hrest⟩ := hb
    obtain ⟨hc, hlog⟩ := avail_good_step hw ev m hs hp hcnt hlen htype
    have hS : 0 < hw.MDDI_REV_BUFFER_SIZE := by have := hs.1; omega
    have hp1 : (mddi_handle_rev_data_avail hw ev m).rev_data_curr < hw.MDDI_REV_BUFFER_SIZE := by
      rw [hc]; exact Nat.mod_lt _ hS
    obtain ⟨h1, t, h2, h3⟩ := ih (mddi_handle_rev_data_avail hw ev m) hp1 (by rw [hc]; exact hrest)
    refine ⟨?_, ?_⟩
    · rw [run_events_cons, h1, hc]
      simp only [stream_bytes, Nat.mod_add_mod, Nat.add_assoc]
    · rcases hlog with hlog | hlog
      · refine ⟨[.INT hw.MDDI_INT_REV_DATA_AVAIL] ++ t, ?_, ?_⟩
        · rw [run_events_cons, h2, hlog, List.append_assoc]
        · simp [h3]
      · refine ⟨[.INT hw.MDDI_INT_REV_DATA_AVAIL, .REV_PTR m.rev_addr] ++ t, ?_, ?_⟩
        · rw [run_events_cons, h2, hlog, List.append_assoc]
        · simp [h3]

/-- On an in-range frame of type `TYPE_REGISTER_ACCESS` (with distinct case labels),
`mddi_handle_rev_data` logs the frame and runs the register-access arm. -/
theorem handle_rev_data_reg (hw : mddi_hw) (hs : hw_sane hw) (rev : Nat → Nat) (m : mddi_info)
    (hlen : length_in_range hw (rd16 rev 0))
    (htype : rd16 rev hw.offsetof_type = hw.TYPE_REGISTER_ACCESS) :
    mddi_handle_rev_data hw rev m =
      rev_register_access hw rev { m with rev_log := m.rev_log ++ [rev] } := by
  obtain ⟨-, -, -, -, -, h1, h2, -⟩ := hs
  unfold mddi_handle_rev_data
  have h0 : rd16 rev 0 ≤ hw.MDDI_REV_BUFFER_SIZE - 2 ∧
      rd16 rev 0 ≥ hw.sizeof_mddi_rev_packet - 2 := ⟨hlen.2, hlen.1⟩
  simp only [h0, and_self, if_true, htype, Ne.symm h1, Ne.symm h2, if_false]

theorem rev_register_access_match (hw : mddi_hw) (rev : Nat → Nat) (m : mddi_info) (r : Nat)
    (hpend : m.reg_read = some r)
    (hreg : rd32 rev hw.offsetof_register_address = (m.ri r).reg) :
    (rev_register_access hw rev m).reg_read = none ∧
    (rev_register_access hw rev m).ri = Function.update m.ri r
      { done := (m.ri r).done + 1, reg := (m.ri r).reg, status := 0,
        result := rd32 rev hw.offsetof_register_data_list } := by
  unfold rev_register_access
  simp [hpend, hreg, complete, ri_set_status, ri_set_result]

theorem rev_register_access_mismatch (hw : mddi_hw) (rev : Nat → Nat) (m : mddi_info)
    (r : Nat) (hpend : m.reg_read = some r)
    (hreg : rd32 rev hw.offsetof_register_address ≠ (m.ri r).reg) :
    rev_register_access hw rev m = m := by
  unfold rev_register_access
  simp [hpend, Ne.symm hreg]

theorem rev_register_access_idle (hw : mddi_hw) (rev : Nat → Nat) (m : mddi_info)
    (hpend : m.reg_read = none) : rev_register_access hw rev m = m := by
  unfold rev_register_access
  simp [hpend]

/-- The header of the dispatched frame is the header found in the ring: the length member
is the length the handler composed, and the type member is the one lying in the ring. -/
theorem rev_frame_hdr (hw : mddi_hw) (hs : hw_sane hw) (ev : rev_event) (p : Nat)
    (hp : p < hw.MDDI_REV_BUFFER_SIZE)
    (hhi : rev_length hw ev.mem p ≤ hw.MDDI_REV_BUFFER_SIZE - 2) :
    rd16 (rev_frame hw ev p (rev_length hw ev.mem p)) 0 = rev_length hw ev.mem p ∧
    (hw.sizeof_mddi_rev_packet - 2 ≤ rev_length hw ev.mem p →
      rd16 (rev_frame hw ev p (rev_length hw ev.mem p)) hw.offsetof_type =
        rd16 (ring_frame hw ev.mem p) hw.offsetof_type) := by
  obtain ⟨hS, hH, hT0, hT, -⟩ := hs
  have hb : ∀ i, i < 2 + rev_length hw ev.mem p →
      rev_frame hw ev p (rev_length hw ev.mem p) i = ring_frame hw ev.mem p i :=
    fun i hi => rev_frame_bytes hw ev _ _ i hp hhi hS hi
  constructor
  · have e := rev_length_eq_rd16 hw ev.mem _ hp hS
    unfold rd16 at e ⊢
    rw [hb 0 (by omega), hb (0 + 1) (by omega)]
    exact e.symm
  · intro hlo
    unfold rd16
    rw [hb _ (by omega), hb _ (by omega)]

theorem rev_entry_quiet (hw : mddi_hw) (ev : rev_event) (m : mddi_info)
    (hcrc : ev.REV_CRC_ERR = 0) :
    rev_entry hw ev m =
      mddi_writel (.INT hw.MDDI_INT_REV_DATA_AVAIL) { m with rev_data := ev.mem } := by
  unfold rev_entry
  simp [hcrc]

/-- What one run of the handler does when the packet at the cursor is malformed (length
out of range or unknown type): the cursor is reset, the ring base is announced twice and a
new reverse pointer is forced; apart from the CRC handling at entry nothing else of the
correlation state changes. -/
theorem avail_bad_step (hw : mddi_hw) (ev : rev_event) (m : mddi_info) (hs : hw_sane hw)
    (hp : m.rev_data_curr < hw.MDDI_REV_BUFFER_SIZE) (hcnt : ev.REV_PKT_CNT ≠ 0)
    (hbad : ¬ (length_in_range hw (rev_length hw ev.mem m.rev_data_curr) ∧
      known_type hw (rd16 (ring_frame hw ev.mem m.rev_data_curr) hw.offsetof_type))) :
    (mddi_handle_rev_data_avail hw ev m).rev_data_curr = 0 ∧
    (mddi_handle_rev_data_avail hw ev m).hw_log =
      m.hw_log ++ [.INT hw.MDDI_INT_REV_DATA_AVAIL, .REV_PTR m.rev_addr, .REV_PTR m.rev_addr,
        .CMD .MDDI_CMD_FORCE_NEW_REV_PTR] ∧
    (mddi_handle_rev_data_avail hw ev m).reg_read = (rev_entry hw ev m).reg_read ∧
    (mddi_handle_rev_data_avail hw ev m).ri = (rev_entry hw ev m).ri ∧
    (mddi_handle_rev_data_avail hw ev m).caps = m.caps ∧
    (mddi_handle_rev_data_avail hw ev m).status = m.status ∧
    (mddi_handle_rev_data_avail hw ev m).flags = m.flags := by
  have hS := hs.1
  have hhalf : 0 < hw.MDDI_REV_BUFFER_SIZE / 2 := Nat.div_pos hS (by norm_num)
  unfold mddi_handle_rev_data_avail
  simp only [hcnt, if_false, rev_entry_frame]
  by_cases hbig : rev_length hw ev.mem m.rev_data_curr > hw.MDDI_REV_BUFFER_SIZE - 2
  · simp [hbig, mddi_reset_rev_encap_ptr, mddi_writel, rev_entry_frame, with_cursor]
  · have hhi : rev_length hw ev.mem m.rev_data_curr ≤ hw.MDDI_REV_BUFFER_SIZE - 2 :=
      Nat.not_lt.mp hbig
    obtain ⟨hl0, ht0⟩ := rev_frame_hdr hw hs ev m.rev_data_curr hp hhi
    have hbad2 : ¬ (length_in_range hw
          (rd16 (rev_frame hw ev m.rev_data_curr (rev_length hw ev.mem m.rev_data_curr)) 0) ∧
        known_type hw
          (rd16 (rev_frame hw ev m.rev_data_curr (rev_length hw ev.mem m.rev_data_curr))
            hw.offsetof_type)) := by
      rw [hl0]
      rintro ⟨h1, h2⟩
      rw [ht0 h1.1] at h2
      exact hbad ⟨h1, h2⟩
    simp only [hbig, if_false]
    unfold rev_half_way rev_dispatch
    dsimp only
    simp only [handle_rev_data_bad hw _ _ hbad2]
    split_ifs <;>
      first
      | (simp [mddi_reset_rev_encap_ptr, mddi_writel, rev_entry_frame, with_cursor] at * ; done)
      | (simp [mddi_reset_rev_encap_ptr, mddi_writel, rev_entry_frame, with_cursor] at * ; omega)

theorem rev_entry_mem_fault (hw : mddi_hw) (ev : rev_event) (m : mddi_info) :
    (rev_entry hw ev m).mem_fault = m.mem_fault := by
  unfold rev_entry
  by_cases hcrc : ev.REV_CRC_ERR ≠ 0
  · cases hr : m.reg_read <;>
      simp [hcrc, hr, mddi_writel, complete, ri_set_status, ri_set_result]
  · simp [hcrc, mddi_writel]

theorem rev_half_way_mem_fault (hw : mddi_hw) (p : Nat) (m : mddi_info) :
    (rev_half_way hw p m).mem_fault = m.mem_fault := by
  unfold rev_half_way
  split_ifs <;> rfl

theorem rev_memset_mem_fault (hw : mddi_hw) (start n : Nat) (m : mddi_info) :
    (rev_memset hw start n m).mem_fault =
      if start + n ≤ hw.MDDI_REV_BUFFER_SIZE then m.mem_fault else true := by
  unfold rev_memset
  dsimp only
  split_ifs <;> rfl

theorem reset_log_frame (c : Nat) (rev : Nat → Nat) (x : mddi_info) :
    (mddi_reset_rev_encap_ptr
      { (with_cursor c x) with rev_log := (with_cursor c x).rev_log ++ [rev] }).rev_data_curr
        = 0 ∧
    (mddi_reset_rev_encap_ptr
      { (with_cursor c x) with rev_log := (with_cursor c x).rev_log ++ [rev] }).mddi_debug_flags
        = x.mddi_debug_flags ∧
    (mddi_reset_rev_encap_ptr
      { (with_cursor c x) with rev_log := (with_cursor c x).rev_log ++ [rev] }).mem_fault
        = x.mem_fault :=
  ⟨rfl, rfl, rfl⟩

/-- The debug `memset` calls after a dispatch that resynchronised, on a state `y` whose
cursor the resynchronisation has reset. -/
theorem rev_debug_after_reset (hw : mddi_hw) (p l : Nat) (y : mddi_info)
    (hp : p < hw.MDDI_REV_BUFFER_SIZE) (h0 : y.rev_data_curr = 0) :
    (¬ (y.mddi_debug_flags &&& 2 ≠ 0 ∧ 0 < p ∧ p + 2 + l < hw.MDDI_REV_BUFFER_SIZE) →
      (if p + 2 + l ≥ hw.MDDI_REV_BUFFER_SIZE then
        if y.mddi_debug_flags &&& 2 ≠ 0 then
          rev_memset hw 0 (rev_memset hw p (hw.MDDI_REV_BUFFER_SIZE - p) y).rev_data_curr
            (rev_memset hw p (hw.MDDI_REV_BUFFER_SIZE - p) y)
        else y
      else if y.mddi_debug_flags &&& 2 ≠ 0 then
        rev_memset hw p ((y.rev_data_curr + 2 ^ 32 - p) % 2 ^ 32) y
      else y).mem_fault = y.mem_fault) ∧
    (hw.MDDI_REV_BUFFER_SIZE < 2 ^ 32 → y.mddi_debug_flags &&& 2 ≠ 0 → 0 < p →
      p + 2 + l < hw.MDDI_REV_BUFFER_SIZE →
      (if p + 2 + l ≥ hw.MDDI_REV_BUFFER_SIZE then
        if y.mddi_debug_flags &&& 2 ≠ 0 then
          rev_memset hw 0 (rev_memset hw p (hw.MDDI_REV_BUFFER_SIZE - p) y).rev_data_curr
            (rev_memset hw p (hw.MDDI_REV_BUFFER_SIZE - p) y)
        else y
      else if y.mddi_debug_flags &&& 2 ≠ 0 then
        rev_memset hw p ((y.rev_data_curr + 2 ^ 32 - p) % 2 ^ 32) y
      else y).mem_fault = true) := by
  constructor
  · intro hno
    by_cases hwrap : p + 2 + l ≥ hw.MDDI_REV_BUFFER_SIZE
    · rw [if_pos hwrap]
      by_cases hd : y.mddi_debug_flags &&& 2 ≠ 0
      · rw [if_pos hd, rev_memset_mem_fault, rev_memset_mem_fault, rev_memset_rev_data_curr,
          h0, if_pos (by omega), if_pos (by omega)]
      · rw [if_neg hd]
    · rw [if_neg hwrap]
      by_cases hd : y.mddi_debug_flags &&& 2 ≠ 0
      · have hp0 : p = 0 := by
          by_contra hne
          exact hno ⟨hd, Nat.pos_of_ne_zero hne, by omega⟩
        rw [if_pos hd, rev_memset_mem_fault, h0, hp0, if_pos (by norm_num)]
      · rw [if_neg hd]
  · intro hS hd hpos hin
    rw [if_neg (by omega), if_pos hd, rev_memset_mem_fault, h0, if_neg]
    have e : (0 + 2 ^ 32 - p) % 2 ^ 32 = 2 ^ 32 - p := Nat.mod_eq_of_lt (by omega)
    rw [e]
    omega

/-- The debug `memset` calls of an invocation that resynchronises.  They stay inside the
ring unless debug bit 2 is set, the cursor was not at the ring start and the packet did
not reach the ring end: then the cursor reset by the resynchronisation makes the length
`0 - prev_offset`, and the call reaches past the end of the ring. -/
theorem avail_bad_fault (hw : mddi_hw) (ev : rev_event) (m : mddi_info) (hs : hw_sane hw)
    (hp : m.rev_data_curr < hw.MDDI_REV_BUFFER_SIZE) (hcnt : ev.REV_PKT_CNT ≠ 0)
    (hbad : ¬ (length_in_range hw (rev_length hw ev.mem m.rev_data_curr) ∧
      known_type hw (rd16 (ring_frame hw ev.mem m.rev_data_curr) hw.offsetof_type))) :
    (¬ (m.mddi_debug_flags &&& 2 ≠ 0 ∧ 0 < m.rev_data_curr ∧
        m.rev_data_curr + 2 + rev_length hw ev.mem m.rev_data_curr
          < hw.MDDI_REV_BUFFER_SIZE) →
      (mddi_handle_rev_data_avail hw ev m).mem_fault = m.mem_fault) ∧
    (hw.MDDI_REV_BUFFER_SIZE < 2 ^ 32 → m.mddi_debug_flags &&& 2 ≠ 0 → 0 < m.rev_data_curr →
      m.rev_data_curr + 2 + rev_length hw ev.mem m.rev_data_curr
        < hw.MDDI_REV_BUFFER_SIZE →
      (mddi_handle_rev_data_avail hw ev m).mem_fault = true) := by
  have hmf := rev_entry_mem_fault hw ev m
  obtain ⟨-, -, -, -, -, hdbg, -⟩ := rev_entry_frame hw ev m
  unfold mddi_handle_rev_data_avail
  simp only [hcnt, if_false, rev_entry_frame]
  by_cases hbig : rev_length hw ev.mem m.rev_data_curr > hw.MDDI_REV_BUFFER_SIZE - 2
  · simp only [hbig, if_true]
    refine ⟨fun _ => hmf, fun _ _ _ h => ?_⟩
    omega
  · have hhi : rev_length hw ev.mem m.rev_data_curr ≤ hw.MDDI_REV_BUFFER_SIZE - 2 :=
      Nat.not_lt.mp hbig
    obtain ⟨hl0, ht0⟩ := rev_frame_hdr hw hs ev m.rev_data_curr hp hhi
    have hbad2 : ¬ (length_in_range hw
          (rd16 (rev_frame hw ev m.rev_data_curr (rev_length hw ev.mem m.rev_data_curr)) 0) ∧
        known_type hw
          (rd16 (rev_frame hw ev m.rev_data_curr (rev_length hw ev.mem m.rev_data_curr))
            hw.offsetof_type)) := by
      rw [hl0]
      rintro ⟨h1, h2⟩
      rw [ht0 h1.1] at h2
      exact hbad ⟨h1, h2⟩
    simp only [hbig, if_false]
    rw [rev_half_way_mem_fault]
    unfold rev_dispatch
    dsimp only
    simp only [handle_rev_data_bad hw _ _ hbad2]
    obtain ⟨e0, e1, e2⟩ := reset_log_frame (rev_next_cursor hw m.rev_data_curr
      (rev_length hw ev.mem m.rev_data_curr))
      (rev_frame hw ev m.rev_data_curr (rev_length hw ev.mem m.rev_data_curr))
      (rev_entry hw ev m)
    have key := rev_debug_after_reset hw m.rev_data_curr
      (rev_length hw ev.mem m.rev_data_curr) _ hp e0
    rw [hdbg] at e1
    exact ⟨fun hno => (key.1 (by rw [e1]; exact hno)).trans (e2.trans hmf),
      fun hS hd hpos hin => key.2 hS (by rw [e1]; exact hd) hpos hin⟩

theorem handle_rev_data_idle (hw : mddi_hw) (rev : Nat → Nat) (m : mddi_info)
    (hpend : m.reg_read = none) :
    (mddi_handle_rev_data hw rev m).reg_read = none ∧
    (mddi_handle_rev_data hw rev m).ri = m.ri := by
  unfold mddi_handle_rev_data
  simp only [mddi_reset_rev_encap_ptr, mddi_writel, wake_up]
  split_ifs
  · exact ⟨hpend, rfl⟩
  · exact ⟨hpend, rfl⟩
  · rw [rev_register_access_idle hw rev { m with rev_log := m.rev_log ++ [rev] } hpend]
    exact ⟨hpend, rfl⟩
  · exact ⟨hpend, rfl⟩
  · exact ⟨hpend, rfl⟩

theorem rev_entry_crc (hw : mddi_hw) (ev : rev_event) (m : mddi_info) (r : Nat)
    (hcrc : ev.REV_CRC_ERR ≠ 0) (hpend : m.reg_read = some r) :
    (rev_entry hw ev m).reg_read = none ∧
    (rev_entry hw ev m).ri = Function.update m.ri r
      { done := (m.ri r).done + 1, reg := (m.ri r).reg, status := neg32 hw.EIO,
        result := neg32 1 } := by
  unfold rev_entry
  simp [hcrc, hpend, mddi_writel, complete, ri_set_status, ri_set_result]

/-! ### Effects of the handler that the calling thread relies on -/

theorem same_static_refl (m : mddi_info) : same_static m m :=
  ⟨rfl, rfl, rfl, rfl, rfl, rfl, rfl, rfl, rfl, rfl, rfl⟩

theorem same_static_trans {a b c : mddi_info} (h1 : same_static a b) (h2 : same_static b c) :
    same_static a c := by
  unfold same_static at *
  obtain ⟨a1, a2, a3, a4, a5, a6, a7, a8, a9, a10, a11⟩ := h1
  obtain ⟨b1, b2, b3, b4, b5, b6, b7, b8, b9, b10, b11⟩ := h2
  exact ⟨b1.trans a1, b2.trans a2, b3.trans a3, b4.trans a4, b5.trans a5, b6.trans a6,
    b7.trans a7, b8.trans a8, b9.trans a9, b10.trans a10, b11.trans a11⟩

theorem log_step_refl (m : mddi_info) : log_step [] m m :=
  ⟨[], by simp, rfl⟩

theorem log_step_trans {c1 c2 : List hw_write} {a b c : mddi_info}
    (h1 : log_step c1 a b) (h2 : log_step c2 b c) : log_step (c1 ++ c2) a c := by
  obtain ⟨t1, e1, f1⟩ := h1
  obtain ⟨t2, e2, f2⟩ := h2
  refine ⟨t1 ++ t2, by rw [e2, e1, List.append_assoc], ?_⟩
  unfold driver_cmds at *
  rw [List.filter_append, f1, f2]

theorem log_step_writel (w : hw_write) (m : mddi_info) :
    log_step (driver_cmds [w]) m (mddi_writel w m) :=
  ⟨[w], rfl, rfl⟩

/-- The effect of `mddi_reset_rev_encap_ptr` on the members other than the cursor. -/
theorem reset_effect (m : mddi_info) :
    same_static m (mddi_reset_rev_encap_ptr m) ∧ log_step [] m (mddi_reset_rev_encap_ptr m) ∧
    (mddi_reset_rev_encap_ptr m).rev_data_curr = 0 ∧
    (mddi_reset_rev_encap_ptr m).reg_read = m.reg_read ∧
    (mddi_reset_rev_encap_ptr m).ri = m.ri ∧
    (mddi_reset_rev_encap_ptr m).flags = m.flags := by
  refine ⟨⟨rfl, rfl, rfl, rfl, rfl, rfl, rfl, rfl, rfl, rfl, rfl⟩,
    ⟨[.REV_PTR m.rev_addr, .REV_PTR m.rev_addr, .CMD .MDDI_CMD_FORCE_NEW_REV_PTR], ?_, rfl⟩,
    rfl, rfl, rfl, rfl⟩
  simp [mddi_reset_rev_encap_ptr, mddi_writel]

/-- The effect of `rev_register_access` on the members outside the correlation state. -/
theorem rev_register_access_effect (hw : mddi_hw) (rev : Nat → Nat) (m : mddi_info) :
    same_static m (rev_register_access hw rev m) ∧
    (rev_register_access hw rev m).hw_log = m.hw_log := by
  unfold rev_register_access same_static
  cases m.reg_read with
  | none => simp
  | some r =>
    by_cases h : (m.ri r).reg ≠ rd32 rev hw.offsetof_register_address
    · simp [h]
    · simp [h, complete, ri_set_status, ri_set_result]

/-- What `mddi_handle_rev_data` leaves alone, and how it moves the cursor and the flags. -/
theorem handle_rev_data_effect (hw : mddi_hw) (rev : Nat → Nat) (m : mddi_info) :
    same_static m (mddi_handle_rev_data hw rev m) ∧
    log_step [] m (mddi_handle_rev_data hw rev m) ∧
    ((mddi_handle_rev_data hw rev m).rev_data_curr = m.rev_data_curr ∨
      (mddi_handle_rev_data hw rev m).rev_data_curr = 0) ∧
    ((mddi_handle_rev_data hw rev m).flags = m.flags ∨
      (mddi_handle_rev_data hw rev m).flags = m.flags ||| FLAG_HAVE_STATUS ∨
      ((mddi_handle_rev_data hw rev m).flags = m.flags ||| FLAG_HAVE_CAPS ∧ is_caps hw rev)) := by
  unfold mddi_handle_rev_data
  dsimp only
  split_ifs with h1 h2 h3 h4
  · exact ⟨⟨rfl, rfl, rfl, rfl, rfl, rfl, rfl, rfl, rfl, rfl, rfl⟩, ⟨[], by simp [wake_up], rfl⟩,
      Or.inl rfl, Or.inr (Or.inr ⟨rfl, ⟨h1.2, h1.1⟩, h2⟩)⟩
  · exact ⟨⟨rfl, rfl, rfl, rfl, rfl, rfl, rfl, rfl, rfl, rfl, rfl⟩, ⟨[], by simp [wake_up], rfl⟩,
      Or.inl rfl, Or.inr (Or.inl rfl)⟩
  · obtain ⟨e1, e2⟩ := rev_register_access_effect hw rev { m with rev_log := m.rev_log ++ [rev] }
    obtain ⟨-, -, -, e3, -, -, e4, -⟩ :=
      rev_register_access_frame hw rev { m with rev_log := m.rev_log ++ [rev] }
    exact ⟨e1, ⟨[], by simp [e2], rfl⟩, Or.inl e3, Or.inl e4⟩
  · obtain ⟨e1, e2, e3, -, -, e6⟩ := reset_effect { m with rev_log := m.rev_log ++ [rev] }
    exact ⟨e1, e2, Or.inr e3, Or.inl e6⟩
  · obtain ⟨e1, e2, e3, -, -, e6⟩ := reset_effect { m with rev_log := m.rev_log ++ [rev] }
    exact ⟨e1, e2, Or.inr e3, Or.inl e6⟩

/-- How `mddi_handle_rev_data` treats the pending read: it leaves the slot and the
registration objects alone, unless the frame is a reply for the pending register, in
which case the registration is completed with the frame's data. -/
theorem handle_rev_data_pending (hw : mddi_hw) (rev : Nat → Nat) (m : mddi_info) :
    ((mddi_handle_rev_data hw rev m).reg_read = m.reg_read ∧
      (mddi_handle_rev_data hw rev m).ri = m.ri) ∨
    (∃ r, m.reg_read = some r ∧ is_reply hw (m.ri r).reg rev ∧
      (mddi_handle_rev_data hw rev m).reg_read = none ∧
      (mddi_handle_rev_data hw rev m).ri = Function.update m.ri r
        { done := (m.ri r).done + 1, reg := (m.ri r).reg, status := 0,
          result := rd32 rev hw.offsetof_register_data_list }) := by
  unfold mddi_handle_rev_data
  dsimp only
  split_ifs with h1 h2 h3 h4
  · exact Or.inl ⟨rfl, rfl⟩
  · exact Or.inl ⟨rfl, rfl⟩
  · obtain hr | ⟨r, hr⟩ : m.reg_read = none ∨ ∃ r, m.reg_read = some r := by
      cases m.reg_read <;> simp
    · rw [rev_register_access_idle hw rev { m with rev_log := m.rev_log ++ [rev] } hr]
      exact Or.inl ⟨rfl, rfl⟩
    · by_cases hreg : rd32 rev hw.offsetof_register_address = (m.ri r).reg
      · obtain ⟨e1, e2⟩ := rev_register_access_match hw rev
          { m with rev_log := m.rev_log ++ [rev] } r hr hreg
        exact Or.inr ⟨r, hr, ⟨⟨h1.2, h1.1⟩, h4, hreg⟩, e1, e2⟩
      · rw [rev_register_access_mismatch hw rev { m with rev_log := m.rev_log ++ [rev] } r hr
          hreg]
        exact Or.inl ⟨rfl, rfl⟩
  · exact Or.inl ⟨rfl, rfl⟩
  · exact Or.inl ⟨rfl, rfl⟩

/-- A reply for the pending register completes the registration (this needs the case
labels to be distinct). -/
theorem handle_rev_data_reply (hw : mddi_hw) (hs : hw_sane hw) (rev : Nat → Nat)
    (m : mddi_info) (r a : Nat) (hrep : is_reply hw a rev) (hpend : m.reg_read = some r)
    (hreg : (m.ri r).reg = a) :
    (mddi_handle_rev_data hw rev m).reg_read = none ∧
    (mddi_handle_rev_data hw rev m).ri = Function.update m.ri r
      { done := (m.ri r).done + 1, reg := (m.ri r).reg, status := 0,
        result := rd32 rev hw.offsetof_register_data_list } := by
  rw [handle_rev_data_reg hw hs rev m hrep.1 hrep.2.1]
  exact rev_register_access_match hw rev { m with rev_log := m.rev_log ++ [rev] } r hpend
    (by rw [hrep.2.2, ← hreg])

theorem with_debug_twice (d d2 : Nat → Nat) (b b2 : Bool) (m : mddi_info) :
    with_debug d2 b2 (with_debug d b m) = with_debug d2 b2 m := rfl

theorem with_debug_self (m : mddi_info) : with_debug m.rev_data m.mem_fault m = m := rfl

theorem rev_dispatch_eq (hw : mddi_hw) (ev : rev_event) (p l : Nat) (m : mddi_info) :
    ∃ d b, rev_dispatch hw ev p l m =
      with_debug d b (mddi_handle_rev_data hw (rev_frame hw ev p l) m) := by
  unfold rev_dispatch
  dsimp only
  split_ifs
  · obtain ⟨d, b, e⟩ := rev_memset_eq hw p (hw.MDDI_REV_BUFFER_SIZE - p)
      (mddi_handle_rev_data hw (rev_frame hw ev p l) m)
    rw [e]
    obtain ⟨d2, b2, e2⟩ := rev_memset_eq hw 0 (with_debug d b
      (mddi_handle_rev_data hw (rev_frame hw ev p l) m)).rev_data_curr (with_debug d b
      (mddi_handle_rev_data hw (rev_frame hw ev p l) m))
    rw [e2, with_debug_twice]
    exact ⟨_, _, rfl⟩
  · exact ⟨_, _, (with_debug_self _).symm⟩
  · exact rev_memset_eq hw _ _ _
  · exact ⟨_, _, (with_debug_self _).symm⟩

theorem rev_half_way_eq (hw : mddi_hw) (p : Nat) (m : mddi_info) :
    rev_half_way hw p m = m ∨ rev_half_way hw p m = mddi_writel (.REV_PTR m.rev_addr) m := by
  unfold rev_half_way
  split_ifs
  · exact Or.inr rfl
  · exact Or.inl rfl

/-- The control flow of `mddi_handle_rev_data_avail`: after the entry code either no
frame is dispatched (no packet, or a length that cannot fit and a reset), or the frame
`rev_packet` names is handed to `mddi_handle_rev_data`, followed at most by debug writes
to the ring and one re-announcement of the ring base. -/
theorem avail_cases (hw : mddi_hw) (ev : rev_event) (m : mddi_info) :
    (rev_packet hw ev m.rev_data_curr = none ∧
      (mddi_handle_rev_data_avail hw ev m = rev_entry hw ev m ∨
        ∃ c, mddi_handle_rev_data_avail hw ev m =
          mddi_reset_rev_encap_ptr (with_cursor c (rev_entry hw ev m)))) ∨
    (∃ frame d b, rev_packet hw ev m.rev_data_curr = some frame ∧
      (mddi_handle_rev_data_avail hw ev m =
          with_debug d b (mddi_handle_rev_data hw frame
            (with_cursor (rev_next_cursor hw m.rev_data_curr
              (rev_length hw ev.mem m.rev_data_curr)) (rev_entry hw ev m))) ∨
        mddi_handle_rev_data_avail hw ev m =
          mddi_writel (.REV_PTR m.rev_addr) (with_debug d b (mddi_handle_rev_data hw frame
            (with_cursor (rev_next_cursor hw m.rev_data_curr
              (rev_length hw ev.mem m.rev_data_curr)) (rev_entry hw ev m)))))) := by
  have hc : (rev_entry hw ev m).rev_data_curr = m.rev_data_curr :=
    (rev_entry_frame hw ev m).2.2.2.1
  have hd : (rev_entry hw ev m).rev_data = ev.mem := (rev_entry_frame hw ev m).2.1
  have ha : (rev_entry hw ev m).rev_addr = m.rev_addr := (rev_entry_frame hw ev m).2.2.1
  unfold mddi_handle_rev_data_avail rev_packet
  dsimp only
  rw [hc, hd]
  by_cases hcnt : ev.REV_PKT_CNT = 0
  · rw [if_pos hcnt, if_pos hcnt]
    exact Or.inl ⟨rfl, Or.inl rfl⟩
  · rw [if_neg hcnt, if_neg hcnt]
    by_cases hbig : rev_length hw ev.mem m.rev_data_curr > hw.MDDI_REV_BUFFER_SIZE - 2
    · rw [if_pos hbig, if_pos hbig]
      exact Or.inl ⟨rfl, Or.inr ⟨_, rfl⟩⟩
    · rw [if_neg hbig, if_neg hbig]
      obtain ⟨d, b, hdisp⟩ := rev_dispatch_eq hw ev m.rev_data_curr
        (rev_length hw ev.mem m.rev_data_curr)
        (with_cursor (rev_next_cursor hw m.rev_data_curr
          (rev_length hw ev.mem m.rev_data_curr)) (rev_entry hw ev m))
      refine Or.inr ⟨_, d, b, rfl, ?_⟩
      rw [hdisp]
      have haddr : (with_debug d b (mddi_handle_rev_data hw
          (rev_frame hw ev m.rev_data_curr (rev_length hw ev.mem m.rev_data_curr))
          (with_cursor (rev_next_cursor hw m.rev_data_curr
            (rev_length hw ev.mem m.rev_data_curr)) (rev_entry hw ev m)))).rev_addr =
          m.rev_addr := by
        show (mddi_handle_rev_data hw _ _).rev_addr = m.rev_addr
        rw [(handle_rev_data_effect hw _ _).1.2.1]
        exact ha
      rcases rev_half_way_eq hw m.rev_data_curr (with_debug d b (mddi_handle_rev_data hw
          (rev_frame hw ev m.rev_data_curr (rev_length hw ev.mem m.rev_data_curr))
          (with_cursor (rev_next_cursor hw m.rev_data_curr
            (rev_length hw ev.mem m.rev_data_curr)) (rev_entry hw ev m)))) with h | h
      · exact Or.inl h
      · rw [haddr] at h
        exact Or.inr h

theorem with_cursor_frame (c : Nat) (m : mddi_info) :
    (with_cursor c m).reg_read = m.reg_read ∧ (with_cursor c m).ri = m.ri ∧
    (with_cursor c m).flags = m.flags ∧ (with_cursor c m).caps = m.caps ∧
    (with_cursor c m).status = m.status ∧ (with_cursor c m).hw_log = m.hw_log ∧
    (with_cursor c m).rev_log = m.rev_log ∧ (with_cursor c m).rev_data_curr = c ∧
    same_static m (with_cursor c m) :=
  ⟨rfl, rfl, rfl, rfl, rfl, rfl, rfl, rfl, rfl, rfl, rfl, rfl, rfl, rfl, rfl, rfl, rfl, rfl, rfl⟩

theorem with_debug_frame (d : Nat → Nat) (b : Bool) (m : mddi_info) :
    (with_debug d b m).reg_read = m.reg_read ∧ (with_debug d b m).ri = m.ri ∧
    (with_debug d b m).flags = m.flags ∧ (with_debug d b m).caps = m.caps ∧
    (with_debug d b m).status = m.status ∧ (with_debug d b m).hw_log = m.hw_log ∧
    (with_debug d b m).rev_log = m.rev_log ∧ (with_debug d b m).rev_data_curr = m.rev_data_curr ∧
    same_static m (with_debug d b m) :=
  ⟨rfl, rfl, rfl, rfl, rfl, rfl, rfl, rfl, rfl, rfl, rfl, rfl, rfl, rfl, rfl, rfl, rfl, rfl, rfl⟩

theorem writel_frame (w : hw_write) (m : mddi_info) :
    (mddi_writel w m).reg_read = m.reg_read ∧ (mddi_writel w m).ri = m.ri ∧
    (mddi_writel w m).flags = m.flags ∧ (mddi_writel w m).caps = m.caps ∧
    (mddi_writel w m).status = m.status ∧ (mddi_writel w m).hw_log = m.hw_log ++ [w] ∧
    (mddi_writel w m).rev_log = m.rev_log ∧
    (mddi_writel w m).rev_data_curr = m.rev_data_curr ∧
    same_static m (mddi_writel w m) :=
  ⟨rfl, rfl, rfl, rfl, rfl, rfl, rfl, rfl, rfl, rfl, rfl, rfl, rfl, rfl, rfl, rfl, rfl, rfl, rfl⟩

/-- Once the pending slot is empty, the rest of the handler (everything after the CRC
handling at entry) leaves the slot and the registration objects alone. -/
theorem avail_after_entry (hw : mddi_hw) (ev : rev_event) (m : mddi_info)
    (hidle : (rev_entry hw ev m).reg_read = none) :
    (mddi_handle_rev_data_avail hw ev m).reg_read = none ∧
    (mddi_handle_rev_data_avail hw ev m).ri = (rev_entry hw ev m).ri := by
  rcases avail_cases hw ev m with ⟨-, h | ⟨c, h⟩⟩ | ⟨frame, d, b, -, h | h⟩
  · rw [h]; exact ⟨hidle, rfl⟩
  · obtain ⟨-, -, -, e4, e5, -⟩ := reset_effect (with_cursor c (rev_entry hw ev m))
    rw [h, e4, e5]
    exact ⟨hidle, rfl⟩
  · obtain ⟨e1, e2⟩ := handle_rev_data_idle hw frame
      (with_cursor (rev_next_cursor hw m.rev_data_curr (rev_length hw ev.mem m.rev_data_curr))
        (rev_entry hw ev m)) hidle
    rw [h, (with_debug_frame _ _ _).1, (with_debug_frame _ _ _).2.1, e1, e2]
    exact ⟨rfl, rfl⟩
  · obtain ⟨e1, e2⟩ := handle_rev_data_idle hw frame
      (with_cursor (rev_next_cursor hw m.rev_data_curr (rev_length hw ev.mem m.rev_data_curr))
        (rev_entry hw ev m)) hidle
    rw [h, (writel_frame _ _).1, (writel_frame _ _).2.1, (with_debug_frame _ _ _).1,
      (with_debug_frame _ _ _).2.1, e1, e2]
    exact ⟨rfl, rfl⟩

/-- What the entry code of the handler leaves alone. -/
theorem rev_entry_effect (hw : mddi_hw) (ev : rev_event) (m : mddi_info) :
    same_static m (rev_entry hw ev m) ∧ log_step [] m (rev_entry hw ev m) ∧
    (m.reg_read = none →
      (rev_entry hw ev m).reg_read = none ∧ (rev_entry hw ev m).ri = m.ri) ∧
    (ev.REV_CRC_ERR = 0 →
      (rev_entry hw ev m).reg_read = m.reg_read ∧ (rev_entry hw ev m).ri = m.ri) := by
  have hl : log_step [] m (rev_entry hw ev m) :=
    ⟨[.INT hw.MDDI_INT_REV_DATA_AVAIL], (rev_entry_frame hw ev m).2.2.2.2.1, rfl⟩
  refine ⟨?_, hl, ?_, ?_⟩
  · unfold rev_entry same_static
    by_cases hcrc : ev.REV_CRC_ERR ≠ 0
    · obtain hr | ⟨r, hr⟩ : m.reg_read = none ∨ ∃ r, m.reg_read = some r := by
        cases m.reg_read <;> simp
      · simp [hcrc, hr, mddi_writel]
      · simp [hcrc, hr, mddi_writel, complete, ri_set_status, ri_set_result]
    · simp [hcrc, mddi_writel]
  · intro hr
    unfold rev_entry
    by_cases hcrc : ev.REV_CRC_ERR ≠ 0
    · simp [hcrc, hr, mddi_writel]
    · simp [hcrc, hr, mddi_writel]
  · intro hcrc
    rw [rev_entry_quiet hw ev m hcrc]
    exact ⟨rfl, rfl⟩

/-- The effect of one run of the handler, reduced to the effect of its entry code and,
when a frame is dispatched, of `mddi_handle_rev_data` on that frame. -/
theorem avail_core (hw : mddi_hw) (ev : rev_event) (m : mddi_info) :
    same_static m (mddi_handle_rev_data_avail hw ev m) ∧
    log_step [] m (mddi_handle_rev_data_avail hw ev m) ∧
    ((rev_packet hw ev m.rev_data_curr = none ∧
        (mddi_handle_rev_data_avail hw ev m).reg_read = (rev_entry hw ev m).reg_read ∧
        (mddi_handle_rev_data_avail hw ev m).ri = (rev_entry hw ev m).ri ∧
        (mddi_handle_rev_data_avail hw ev m).flags = m.flags ∧
        ((mddi_handle_rev_data_avail hw ev m).rev_data_curr = m.rev_data_curr ∨
          (mddi_handle_rev_data_avail hw ev m).rev_data_curr = 0)) ∨
      (∃ frame, rev_packet hw ev m.rev_data_curr = some frame ∧
        (mddi_handle_rev_data_avail hw ev m).reg_read =
          (mddi_handle_rev_data hw frame (with_cursor (rev_next_cursor hw m.rev_data_curr
            (rev_length hw ev.mem m.rev_data_curr)) (rev_entry hw ev m))).reg_read ∧
        (mddi_handle_rev_data_avail hw ev m).ri =
          (mddi_handle_rev_data hw frame (with_cursor (rev_next_cursor hw m.rev_data_curr
            (rev_length hw ev.mem m.rev_data_curr)) (rev_entry hw ev m))).ri ∧
        (mddi_handle_rev_data_avail hw ev m).flags =
          (mddi_handle_rev_data hw frame (with_cursor (rev_next_cursor hw m.rev_data_curr
            (rev_length hw ev.mem m.rev_data_curr)) (rev_entry hw ev m))).flags ∧
        (mddi_handle_rev_data_avail hw ev m).rev_data_curr =
          (mddi_handle_rev_data hw frame (with_cursor (rev_next_cursor hw m.rev_data_curr
            (rev_length hw ev.mem m.rev_data_curr)) (rev_entry hw ev m))).rev_data_curr)) := by
  obtain ⟨es, el, -, -⟩ := rev_entry_effect hw ev m
  have ef := rev_entry_frame hw ev m
  rcases avail_cases hw ev m with ⟨hp, h | ⟨c, h⟩⟩ | ⟨frame, d, b, hp, h | h⟩
  · rw [h]
    exact ⟨es, el, Or.inl ⟨hp, rfl, rfl, ef.2.2.2.2.2.2.1, Or.inl ef.2.2.2.1⟩⟩
  · obtain ⟨r1, r2, r3, r4, r5, r6⟩ := reset_effect (with_cursor c (rev_entry hw ev m))
    rw [h]
    refine ⟨same_static_trans (same_static_trans es (with_cursor_frame c _).2.2.2.2.2.2.2.2) r1,
      ?_, Or.inl ⟨hp, r4, r5, ?_, Or.inr r3⟩⟩
    · have := log_step_trans el (log_step_trans (log_step_refl (rev_entry hw ev m)) r2)
      simpa using this
    · rw [r6]; exact ef.2.2.2.2.2.2.1
  · obtain ⟨x1, x2, -, -⟩ := handle_rev_data_effect hw frame
      (with_cursor (rev_next_cursor hw m.rev_data_curr (rev_length hw ev.mem m.rev_data_curr))
        (rev_entry hw ev m))
    rw [h]
    refine ⟨same_static_trans (same_static_trans (same_static_trans es
        (with_cursor_frame _ _).2.2.2.2.2.2.2.2) x1) (with_debug_frame d b _).2.2.2.2.2.2.2.2,
      ?_, Or.inr ⟨frame, hp, rfl, rfl, rfl, rfl⟩⟩
    have := log_step_trans el x2
    simpa using this
  · obtain ⟨x1, x2, -, -⟩ := handle_rev_data_effect hw frame
      (with_cursor (rev_next_cursor hw m.rev_data_curr (rev_length hw ev.mem m.rev_data_curr))
        (rev_entry hw ev m))
    rw [h]
    refine ⟨same_static_trans (same_static_trans (same_static_trans (same_static_trans es
        (with_cursor_frame _ _).2.2.2.2.2.2.2.2) x1) (with_debug_frame d b _).2.2.2.2.2.2.2.2)
        (writel_frame _ _).2.2.2.2.2.2.2.2,
      ?_, Or.inr ⟨frame, hp, rfl, rfl, rfl, rfl⟩⟩
    have h3 : log_step (driver_cmds [hw_write.REV_PTR m.rev_addr])
        (mddi_handle_rev_data hw frame (with_cursor (rev_next_cursor hw m.rev_data_curr
          (rev_length hw ev.mem m.rev_data_curr)) (rev_entry hw ev m)))
        (mddi_writel (.REV_PTR m.rev_addr) (with_debug d b (mddi_handle_rev_data hw frame
          (with_cursor (rev_next_cursor hw m.rev_data_curr
            (rev_length hw ev.mem m.rev_data_curr)) (rev_entry hw ev m))))) :=
      ⟨[.REV_PTR m.rev_addr], rfl, rfl⟩
    have := log_step_trans (log_step_trans el x2) h3
    simpa [driver_cmds, bookkeeping_write] using this

theorem avail_cursor_lt (hw : mddi_hw) (ev : rev_event) (m : mddi_info)
    (hp : m.rev_data_curr < hw.MDDI_REV_BUFFER_SIZE) :
    (mddi_handle_rev_data_avail hw ev m).rev_data_curr < hw.MDDI_REV_BUFFER_SIZE := by
  have hS : 0 < hw.MDDI_REV_BUFFER_SIZE := by omega
  rcases (avail_core hw ev m).2.2 with ⟨-, -, -, -, h | h⟩ | ⟨frame, -, -, -, -, h⟩
  · rw [h]; exact hp
  · rw [h]; exact hS
  · rw [h]
    rcases (handle_rev_data_effect hw frame (with_cursor (rev_next_cursor hw m.rev_data_curr
      (rev_length hw ev.mem m.rev_data_curr)) (rev_entry hw ev m))).2.2.1 with h2 | h2
    · rw [h2, (with_cursor_frame _ _).2.2.2.2.2.2.2.1, rev_next_cursor_eq hw _ _ hp]
      exact Nat.mod_lt _ hS
    · rw [h2]; exact hS

theorem avail_idle (hw : mddi_hw) (ev : rev_event) (m : mddi_info)
    (hpend : m.reg_read = none) :
    (mddi_handle_rev_data_avail hw ev m).reg_read = none ∧
    (mddi_handle_rev_data_avail hw ev m).ri = m.ri := by
  obtain ⟨e1, e2⟩ := (rev_entry_effect hw ev m).2.2.1 hpend
  obtain ⟨h1, h2⟩ := avail_after_entry hw ev m e1
  exact ⟨h1, h2.trans e2⟩

theorem avail_clean (hw : mddi_hw) (ev : rev_event) (m : mddi_info) (r : Nat)
    (hpend : m.reg_read = some r) (hcrc : ev.REV_CRC_ERR = 0)
    (hno : ∀ frame, rev_packet hw ev m.rev_data_curr = some frame →
      ¬ is_reply hw (m.ri r).reg frame) :
    (mddi_handle_rev_data_avail hw ev m).reg_read = some r ∧
    (mddi_handle_rev_data_avail hw ev m).ri = m.ri := by
  obtain ⟨e1, e2⟩ := (rev_entry_effect hw ev m).2.2.2 hcrc
  rcases (avail_core hw ev m).2.2 with ⟨-, h1, h2, -⟩ | ⟨frame, hp, h1, h2, -⟩
  · exact ⟨by rw [h1, e1, hpend], by rw [h2, e2]⟩
  · rcases handle_rev_data_pending hw frame (with_cursor (rev_next_cursor hw m.rev_data_curr
      (rev_length hw ev.mem m.rev_data_curr)) (rev_entry hw ev m)) with ⟨x1, x2⟩ | ⟨q, x1, x2, -⟩
    · rw [h1, h2, x1, x2, (with_cursor_frame _ _).1, (with_cursor_frame _ _).2.1, e1, e2]
      exact ⟨hpend, rfl⟩
    · rw [(with_cursor_frame _ _).1, e1, hpend] at x1
      rw [(with_cursor_frame _ _).2.1, e2] at x2
      cases x1
      exact absurd x2 (hno frame hp)

theorem avail_reply (hw : mddi_hw) (hs : hw_sane hw) (ev : rev_event) (m : mddi_info)
    (r : Nat) (frame : Nat → Nat) (hpend : m.reg_read = some r) (hcrc : ev.REV_CRC_ERR = 0)
    (hp : rev_packet hw ev m.rev_data_curr = some frame)
    (hrep : is_reply hw (m.ri r).reg frame) :
    (mddi_handle_rev_data_avail hw ev m).reg_read = none ∧
    (mddi_handle_rev_data_avail hw ev m).ri = Function.update m.ri r
      { done := (m.ri r).done + 1, reg := (m.ri r).reg, status := 0,
        result := rd32 frame hw.offsetof_register_data_list } := by
  obtain ⟨e1, e2⟩ := (rev_entry_effect hw ev m).2.2.2 hcrc
  rcases (avail_core hw ev m).2.2 with ⟨hp2, -⟩ | ⟨frame2, hp2, h1, h2, -⟩
  · rw [hp] at hp2; cases hp2
  · rw [hp] at hp2
    cases hp2
    obtain ⟨x1, x2⟩ := handle_rev_data_reply hw hs frame
      (with_cursor (rev_next_cursor hw m.rev_data_curr (rev_length hw ev.mem m.rev_data_curr))
        (rev_entry hw ev m)) r (m.ri r).reg hrep
      (by rw [(with_cursor_frame _ _).1, e1, hpend])
      (by rw [(with_cursor_frame _ _).2.1, e2])
    rw [h1, h2, x1, x2, (with_cursor_frame _ _).2.1, e2]
    exact ⟨rfl, rfl⟩

theorem and_two_ne_zero_iff (a : Nat) : a &&& 2 ≠ 0 ↔ a.testBit 1 = true := by
  constructor
  · intro h
    by_contra hb
    apply h
    apply Nat.eq_of_testBit_eq
    intro i
    rw [Nat.testBit_and, Nat.zero_testBit]
    have : (2 : Nat) = 2 ^ 1 := rfl
    rw [this, Nat.testBit_two_pow]
    by_cases hi : 1 = i
    · subst hi; simp at hb; simp [hb]
    · simp [hi]
  · intro h h0
    have := congrArg (fun x => Nat.testBit x 1) h0
    simp only [Nat.testBit_and, h, Nat.zero_testBit] at this
    have e : (2 : Nat) = 2 ^ 1 := rfl
    rw [e, Nat.testBit_two_pow] at this
    simp at this

theorem have_caps_set (f : Nat) : (f ||| FLAG_HAVE_CAPS) &&& FLAG_HAVE_CAPS ≠ 0 := by
  unfold FLAG_HAVE_CAPS
  rw [and_two_ne_zero_iff, Nat.testBit_or]
  have e : (2 : Nat) = 2 ^ 1 := rfl
  rw [e, Nat.testBit_two_pow]; simp

theorem have_caps_mono (f x : Nat) (h : f &&& FLAG_HAVE_CAPS ≠ 0) :
    (f ||| x) &&& FLAG_HAVE_CAPS ≠ 0 := by
  unfold FLAG_HAVE_CAPS at *
  rw [and_two_ne_zero_iff] at *
  rw [Nat.testBit_or, h]; simp

theorem have_caps_status (f : Nat) (h : ¬ (f &&& FLAG_HAVE_CAPS ≠ 0)) :
    ¬ ((f ||| FLAG_HAVE_STATUS) &&& FLAG_HAVE_CAPS ≠ 0) := by
  unfold FLAG_HAVE_CAPS FLAG_HAVE_STATUS at *
  rw [and_two_ne_zero_iff] at *
  rw [Nat.testBit_or]
  have e : (8 : Nat) = 2 ^ 3 := rfl
  rw [e, Nat.testBit_two_pow]; simpa using h

/-- One run of the handler never clears `FLAG_HAVE_CAPS`; it sets it exactly when the
frame it dispatches is a capability packet. -/
theorem avail_have_caps (hw : mddi_hw) (ev : rev_event) (m : mddi_info) :
    (m.flags &&& FLAG_HAVE_CAPS ≠ 0 →
      (mddi_handle_rev_data_avail hw ev m).flags &&& FLAG_HAVE_CAPS ≠ 0) ∧
    ((∀ frame, rev_packet hw ev m.rev_data_curr = some frame → ¬ is_caps hw frame) →
      ¬ (m.flags &&& FLAG_HAVE_CAPS ≠ 0) →
      ¬ ((mddi_handle_rev_data_avail hw ev m).flags &&& FLAG_HAVE_CAPS ≠ 0)) ∧
    (∀ frame, rev_packet hw ev m.rev_data_curr = some frame → is_caps hw frame →
      (mddi_handle_rev_data_avail hw ev m).flags &&& FLAG_HAVE_CAPS ≠ 0) := by
  have ef : (rev_entry hw ev m).flags = m.flags := (rev_entry_frame hw ev m).2.2.2.2.2.2.1
  rcases (avail_core hw ev m).2.2 with ⟨hp, -, -, h, -⟩ | ⟨frame, hp, -, -, h, -⟩
  · rw [h]
    refine ⟨id, fun _ h2 => h2, ?_⟩
    intro frame hp2
    rw [hp] at hp2; cases hp2
  · rw [h]
    have hx := (handle_rev_data_effect hw frame (with_cursor (rev_next_cursor hw
      m.rev_data_curr (rev_length hw ev.mem m.rev_data_curr)) (rev_entry hw ev m))).2.2.2
    rw [(with_cursor_frame _ _).2.2.1, ef] at hx
    refine ⟨?_, ?_, ?_⟩
    · intro h0
      rcases hx with hx | hx | ⟨hx, -⟩ <;> rw [hx]
      · exact h0
      · exact have_caps_mono _ _ h0
      · exact have_caps_mono _ _ h0
    · intro hno h0
      rcases hx with hx | hx | ⟨hx, hc⟩
      · rw [hx]; exact h0
      · rw [hx]; exact have_caps_status _ h0
      · exact absurd hc (hno frame hp)
    · intro frame2 hp2 hc
      rw [hp] at hp2
      cases hp2
      unfold mddi_handle_rev_data
      have h1 : rd16 frame 0 ≤ hw.MDDI_REV_BUFFER_SIZE - 2 ∧
          rd16 frame 0 ≥ hw.sizeof_mddi_rev_packet - 2 := ⟨hc.1.2, hc.1.1⟩
      simp only [h1, and_self, if_true, hc.2, wake_up]
      rw [(with_cursor_frame _ _).2.2.1, ef]
      exact have_caps_set _

/-! ### Effects of a batch of interrupts -/

theorem run_events_effect (hw : mddi_hw) (evs : List rev_event) :
    ∀ m : mddi_info, same_static m (run_events hw evs m) ∧
      log_step [] m (run_events hw evs m) ∧
      (m.rev_data_curr < hw.MDDI_REV_BUFFER_SIZE →
        (run_events hw evs m).rev_data_curr < hw.MDDI_REV_BUFFER_SIZE) := by
  induction evs with
  | nil => intro m; exact ⟨same_static_refl m, log_step_refl m, id⟩
  | cons ev evs ih =>
    intro m
    obtain ⟨a1, a2, -⟩ := avail_core hw ev m
    obtain ⟨b1, b2, b3⟩ := ih (mddi_handle_rev_data_avail hw ev m)
    rw [run_events_cons]
    refine ⟨same_static_trans a1 b1, ?_, fun hp => b3 (avail_cursor_lt hw ev m hp)⟩
    simpa using log_step_trans a2 b2

theorem run_events_idle (hw : mddi_hw) (evs : List rev_event) :
    ∀ m : mddi_info, m.reg_read = none →
      (run_events hw evs m).reg_read = none ∧ (run_events hw evs m).ri = m.ri := by
  induction evs with
  | nil => intro m h; exact ⟨h, rfl⟩
  | cons ev evs ih =>
    intro m h
    obtain ⟨a1, a2⟩ := avail_idle hw ev m h
    obtain ⟨b1, b2⟩ := ih _ a1
    rw [run_events_cons]
    exact ⟨b1, b2.trans a2⟩

theorem avail_any (hw : mddi_hw) (ev : rev_event) (m : mddi_info) (r : Nat)
    (hpend : m.reg_read = some r) :
    ((mddi_handle_rev_data_avail hw ev m).reg_read = some r ∧
      (mddi_handle_rev_data_avail hw ev m).ri = m.ri) ∨
    ((mddi_handle_rev_data_avail hw ev m).reg_read = none ∧
      (mddi_handle_rev_data_avail hw ev m).ri = Function.update m.ri r
        { done := (m.ri r).done + 1, reg := (m.ri r).reg, status := neg32 hw.EIO,
          result := neg32 1 }) ∨
    (∃ v, (mddi_handle_rev_data_avail hw ev m).reg_read = none ∧
      (mddi_handle_rev_data_avail hw ev m).ri = Function.update m.ri r
        { done := (m.ri r).done + 1, reg := (m.ri r).reg, status := 0, result := v }) := by
  by_cases hcrc : ev.REV_CRC_ERR = 0
  · obtain ⟨e1, e2⟩ := (rev_entry_effect hw ev m).2.2.2 hcrc
    rcases (avail_core hw ev m).2.2 with ⟨-, h1, h2, -⟩ | ⟨frame, hp, h1, h2, -⟩
    · exact Or.inl ⟨by rw [h1, e1, hpend], by rw [h2, e2]⟩
    · rcases handle_rev_data_pending hw frame (with_cursor (rev_next_cursor hw m.rev_data_curr
        (rev_length hw ev.mem m.rev_data_curr)) (rev_entry hw ev m)) with
        ⟨x1, x2⟩ | ⟨q, x1, -, x3, x4⟩
      · rw [(with_cursor_frame _ _).1, e1] at x1
        rw [(with_cursor_frame _ _).2.1, e2] at x2
        exact Or.inl ⟨by rw [h1, x1, hpend], by rw [h2, x2]⟩
      · rw [(with_cursor_frame _ _).1, e1, hpend] at x1
        cases x1
        rw [(with_cursor_frame _ _).2.1, e2] at x4
        exact Or.inr (Or.inr ⟨_, by rw [h1, x3], by rw [h2, x4]⟩)
  · obtain ⟨e1, e2⟩ := rev_entry_crc hw ev m r hcrc hpend
    obtain ⟨h1, h2⟩ := avail_after_entry hw ev m e1
    exact Or.inr (Or.inl ⟨h1, h2.trans e2⟩)

theorem unanswered_cons (hw : mddi_hw) (r : Nat) (m : mddi_info) (ev : rev_event)
    (evs : List rev_event) :
    unanswered hw r m (ev :: evs) ↔
      (¬ reply_completes hw r m ev ∧
        unanswered hw r (mddi_handle_rev_data_avail hw ev m) evs) := Iff.rfl

theorem answered_cons (hw : mddi_hw) (r v : Nat) (m : mddi_info) (ev : rev_event)
    (evs : List rev_event) :
    answered hw r v m (ev :: evs) ↔
      ((reply_completes hw r m ev ∧ reply_data hw ev m.rev_data_curr = v) ∨
        (¬ reply_completes hw r m ev ∧
          answered hw r v (mddi_handle_rev_data_avail hw ev m) evs)) := Iff.rfl

theorem frame_is_reply_iff (hw : mddi_hw) (a : Nat) (o : Option (Nat → Nat)) :
    frame_is_reply hw a o ↔ ∃ frame, o = some frame ∧ is_reply hw a frame := by
  cases o with
  | none => exact ⟨fun h => h.elim, fun ⟨_, h, _⟩ => by cases h⟩
  | some f => exact ⟨fun h => ⟨f, rfl, h⟩, fun ⟨_, h, h2⟩ => by cases h; exact h2⟩

/-- One run of the handler that does not complete the pending registration by a reply
leaves it pending or fails it (CRC error). -/
theorem avail_unanswered (hw : mddi_hw) (ev : rev_event) (m : mddi_info) (r : Nat)
    (hpend : m.reg_read = some r) (hno : ¬ reply_completes hw r m ev) :
    ((mddi_handle_rev_data_avail hw ev m).reg_read = some r ∧
      (mddi_handle_rev_data_avail hw ev m).ri = m.ri) ∨
    ((mddi_handle_rev_data_avail hw ev m).reg_read = none ∧
      (mddi_handle_rev_data_avail hw ev m).ri = Function.update m.ri r
        { done := (m.ri r).done + 1, reg := (m.ri r).reg, status := neg32 hw.EIO,
          result := neg32 1 }) := by
  by_cases hcrc : ev.REV_CRC_ERR = 0
  · refine Or.inl (avail_clean hw ev m r hpend hcrc ?_)
    intro frame hp hr
    exact hno ⟨hpend, hcrc, (frame_is_reply_iff hw _ _).2 ⟨frame, hp, hr⟩⟩
  · obtain ⟨e1, e2⟩ := rev_entry_crc hw ev m r hcrc hpend
    obtain ⟨h1, h2⟩ := avail_after_entry hw ev m e1
    exact Or.inr ⟨h1, h2.trans e2⟩

/-- One run of the handler that completes the registration by a reply: the slot is
emptied and the registration holds status 0 and the data of the reply. -/
theorem avail_answered (hw : mddi_hw) (hs : hw_sane hw) (ev : rev_event) (m : mddi_info)
    (r : Nat) (h : reply_completes hw r m ev) :
    (mddi_handle_rev_data_avail hw ev m).reg_read = none ∧
    (mddi_handle_rev_data_avail hw ev m).ri = Function.update m.ri r
      { done := (m.ri r).done + 1, reg := (m.ri r).reg, status := 0,
        result := reply_data hw ev m.rev_data_curr } := by
  obtain ⟨hpend, hcrc, hf⟩ := h
  obtain ⟨frame, hp, hr⟩ := (frame_is_reply_iff hw _ _).1 hf
  have e : reply_data hw ev m.rev_data_curr = rd32 frame hw.offsetof_register_data_list := by
    unfold reply_data; rw [hp]
  rw [e]
  exact avail_reply hw hs ev m r frame hpend hcrc hp hr

theorem not_answered_of_idle (hw : mddi_hw) (r v : Nat) (evs : List rev_event) :
    ∀ m : mddi_info, m.reg_read = none → ¬ answered hw r v m evs := by
  induction evs with
  | nil => intro m _ h; exact h
  | cons ev evs ih =>
    intro m h ha
    rw [answered_cons] at ha
    rcases ha with ⟨hc, -⟩ | ⟨-, hrest⟩
    · rw [hc.1] at h; cases h
    · exact ih _ (avail_idle hw ev m h).1 hrest

/-- A batch during which no reply completes the pending registration leaves it pending
or failed. -/
theorem run_events_unanswered (hw : mddi_hw) (evs : List rev_event) :
    ∀ (m : mddi_info) (r : Nat), m.reg_read = some r → unanswered hw r m evs →
      ((run_events hw evs m).reg_read = some r ∧ (run_events hw evs m).ri = m.ri) ∨
      ((run_events hw evs m).reg_read = none ∧
        (run_events hw evs m).ri = Function.update m.ri r
          { done := (m.ri r).done + 1, reg := (m.ri r).reg, status := neg32 hw.EIO,
            result := neg32 1 }) := by
  induction evs with
  | nil => intro m r h _; exact Or.inl ⟨h, rfl⟩
  | cons ev evs ih =>
    intro m r h hno
    rw [unanswered_cons] at hno
    rw [run_events_cons]
    rcases avail_unanswered hw ev m r h hno.1 with ⟨a1, a2⟩ | ⟨a1, a2⟩
    · rcases ih _ r a1 hno.2 with ⟨b1, b2⟩ | ⟨b1, b2⟩
      · exact Or.inl ⟨b1, b2.trans a2⟩
      · exact Or.inr ⟨b1, by rw [b2, a2]⟩
    · obtain ⟨b1, b2⟩ := run_events_idle hw evs _ a1
      exact Or.inr ⟨b1, b2.trans a2⟩

/-- A batch during which a reply carrying `v` completes the pending registration. -/
theorem run_events_answered (hw : mddi_hw) (hs : hw_sane hw) (evs : List rev_event) :
    ∀ (m : mddi_info) (r v : Nat), m.reg_read = some r → answered hw r v m evs →
      (run_events hw evs m).reg_read = none ∧
      (run_events hw evs m).ri = Function.update m.ri r
        { done := (m.ri r).done + 1, reg := (m.ri r).reg, status := 0, result := v } := by
  induction evs with
  | nil => intro m r v _ h; exact h.elim
  | cons ev evs ih =>
    intro m r v h ha
    rw [answered_cons] at ha
    rw [run_events_cons]
    rcases ha with ⟨hc, hv⟩ | ⟨hno, hrest⟩
    · obtain ⟨a1, a2⟩ := avail_answered hw hs ev m r hc
      obtain ⟨b1, b2⟩ := run_events_idle hw evs _ a1
      exact ⟨b1, by rw [b2, a2, hv]⟩
    · rcases avail_unanswered hw ev m r h hno with ⟨a1, a2⟩ | ⟨a1, -⟩
      · obtain ⟨b1, b2⟩ := ih _ r v a1 hrest
        exact ⟨b1, by rw [b2, a2]⟩
      · exact absurd hrest (not_answered_of_idle hw r v evs _ a1)

theorem run_events_have_caps (hw : mddi_hw) (evs : List rev_event) :
    ∀ m : mddi_info,
      (m.flags &&& FLAG_HAVE_CAPS ≠ 0 → (run_events hw evs m).flags &&& FLAG_HAVE_CAPS ≠ 0) ∧
      (no_caps hw m evs → ¬ (m.flags &&& FLAG_HAVE_CAPS ≠ 0) →
        ¬ ((run_events hw evs m).flags &&& FLAG_HAVE_CAPS ≠ 0)) := by
  induction evs with
  | nil => intro m; exact ⟨id, fun _ h => h⟩
  | cons ev evs ih =>
    intro m
    obtain ⟨a1, a2, -⟩ := avail_have_caps hw ev m
    obtain ⟨b1, b2⟩ := ih (mddi_handle_rev_data_avail hw ev m)
    rw [run_events_cons]
    exact ⟨fun h => b1 (a1 h), fun hno h => b2 hno.2 (a2 hno.1 h)⟩

theorem run_events_brings_caps (hw : mddi_hw) (evs : List rev_event) (m : mddi_info)
    (hc : brings_caps hw m evs) : (run_events hw evs m).flags &&& FLAG_HAVE_CAPS ≠ 0 := by
  obtain ⟨pre, ev, post, frame, he, hp, hcap⟩ := hc
  rw [he, run_events_append, run_events_cons]
  exact (run_events_have_caps hw post _).1
    ((avail_have_caps hw ev (run_events hw pre m)).2.2 frame hp hcap)

/-! ### Sleeps and the registration -/

theorem unanswered_or_answered (hw : mddi_hw) (r : Nat) (evs : List rev_event) :
    ∀ m : mddi_info, unanswered hw r m evs ∨ ∃ v, answered hw r v m evs := by
  induction evs with
  | nil => intro m; exact Or.inl trivial
  | cons ev evs ih =>
    intro m
    by_cases hc : reply_completes hw r m ev
    · exact Or.inr ⟨_, (answered_cons hw r _ m ev evs).2 (Or.inl ⟨hc, rfl⟩)⟩
    · rcases ih (mddi_handle_rev_data_avail hw ev m) with h | ⟨v, h⟩
      · exact Or.inl ((unanswered_cons hw r m ev evs).2 ⟨hc, h⟩)
      · exact Or.inr ⟨v, (answered_cons hw r v m ev evs).2 (Or.inr ⟨hc, h⟩)⟩

theorem unanswered_not_answered (hw : mddi_hw) (r v : Nat) (evs : List rev_event) :
    ∀ m : mddi_info, unanswered hw r m evs → ¬ answered hw r v m evs := by
  induction evs with
  | nil => intro m _ h; exact h
  | cons ev evs ih =>
    intro m hu ha
    rw [unanswered_cons] at hu
    rw [answered_cons] at ha
    rcases ha with ⟨hc, -⟩ | ⟨-, hrest⟩
    · exact hu.1 hc
    · exact ih _ hu.2 hrest

theorem answered_unique (hw : mddi_hw) (r v v2 : Nat) (evs : List rev_event) :
    ∀ m : mddi_info, answered hw r v m evs → answered hw r v2 m evs → v = v2 := by
  induction evs with
  | nil => intro m h; exact h.elim
  | cons ev evs ih =>
    intro m h1 h2
    rw [answered_cons] at h1 h2
    rcases h1 with ⟨c1, e1⟩ | ⟨n1, r1⟩ <;> rcases h2 with ⟨c2, e2⟩ | ⟨n2, r2⟩
    · exact e1.symm.trans e2
    · exact absurd c1 n2
    · exact absurd c2 n1
    · exact ih _ r1 r2

theorem first_answer_cons (hw : mddi_hw) (r v k : Nat) (m0 : mddi_info)
    (q : mddi_info × List rev_event) (rest : List (mddi_info × List rev_event)) :
    first_answer hw r v k m0 (q :: rest) ↔
      ((answered hw r v q.1 q.2 ∧ submitted (new_writes m0 q.1) = k) ∨
        (unanswered hw r q.1 q.2 ∧ first_answer hw r v k m0 rest)) := Iff.rfl

theorem watch_nil (hw : mddi_hw) (r : Nat) (c c2 : slot) :
    watch hw r c [] c2 ↔ c2 = c := Iff.rfl

theorem watch_cons (hw : mddi_hw) (r : Nat) (c c2 : slot) (q : mddi_info × List rev_event)
    (rest : List (mddi_info × List rev_event)) :
    watch hw r c (q :: rest) c2 ↔
      ∃ c1, sleep_step hw r c q c1 ∧ watch hw r c1 rest c2 := Iff.rfl

theorem watch_append (hw : mddi_hw) (r : Nat) (T1 : List (mddi_info × List rev_event)) :
    ∀ (c c1 c2 : slot) (T2 : List (mddi_info × List rev_event)),
      watch hw r c T1 c1 → watch hw r c1 T2 c2 → watch hw r c (T1 ++ T2) c2 := by
  induction T1 with
  | nil =>
    intro c c1 c2 T2 h1 h2
    rw [watch_nil] at h1
    subst h1
    exact h2
  | cons q T1 ih =>
    intro c c1 c2 T2 h1 h2
    rw [watch_cons] at h1
    obtain ⟨x, hx, hrest⟩ := h1
    exact (watch_cons hw r c c2 q (T1 ++ T2)).2 ⟨x, hx, ih x c1 c2 T2 hrest h2⟩

/-- Once the registration has left the slot, no sleep moves it, and the slot is empty
whenever the caller goes to sleep. -/
theorem watch_idle (hw : mddi_hw) (r : Nat) (T : List (mddi_info × List rev_event)) :
    ∀ c c2 : slot, c ≠ .pending → watch hw r c T c2 →
      c2 = c ∧ ∀ q ∈ T, q.1.reg_read = none := by
  induction T with
  | nil =>
    intro c c2 _ h
    exact ⟨h, fun q hq => by cases hq⟩
  | cons q T ih =>
    intro c c2 hc h
    rw [watch_cons] at h
    obtain ⟨c1, h1, h2⟩ := h
    cases c with
    | pending => exact absurd rfl hc
    | faulted =>
      have h1b : c1 = .faulted ∧ q.1.reg_read = none := h1
      obtain ⟨e, hq⟩ := h1b
      subst e
      obtain ⟨i1, i2⟩ := ih _ c2 (by intro h; cases h) h2
      refine ⟨i1, ?_⟩
      intro x hx
      rcases List.mem_cons.1 hx with rfl | hx
      · exact hq
      · exact i2 x hx
    | replied v =>
      have h1b : c1 = .replied v ∧ q.1.reg_read = none := h1
      obtain ⟨e, hq⟩ := h1b
      subst e
      obtain ⟨i1, i2⟩ := ih _ c2 (by intro h; cases h) h2
      refine ⟨i1, ?_⟩
      intro x hx
      rcases List.mem_cons.1 hx with rfl | hx
      · exact hq
      · exact i2 x hx

theorem first_answer_idle (hw : mddi_hw) (r v k : Nat) (m0 : mddi_info)
    (T : List (mddi_info × List rev_event)) (h : ∀ q ∈ T, q.1.reg_read = none) :
    ¬ first_answer hw r v k m0 T := by
  induction T with
  | nil => intro hf; exact hf
  | cons q T ih =>
    intro hf
    rw [first_answer_cons] at hf
    rcases hf with ⟨ha, -⟩ | ⟨-, hrest⟩
    · exact not_answered_of_idle hw r v q.2 q.1 (h q (List.mem_cons_self _ _)) ha
    · exact ih (fun x hx => h x (List.mem_cons_of_mem _ hx)) hrest

theorem first_answer_append (hw : mddi_hw) (r v k : Nat) (m0 : mddi_info)
    (T L : List (mddi_info × List rev_event)) (h : first_answer hw r v k m0 (T ++ L)) :
    first_answer hw r v k m0 T ∨
      ((∀ q ∈ T, unanswered hw r q.1 q.2) ∧ first_answer hw r v k m0 L) := by
  induction T with
  | nil => exact Or.inr ⟨fun q hq => (by cases hq), h⟩
  | cons q T ih =>
    rw [List.cons_append, first_answer_cons] at h
    rcases h with h | ⟨hu, hrest⟩
    · exact Or.inl ((first_answer_cons hw r v k m0 q T).2 (Or.inl h))
    · rcases ih hrest with h2 | ⟨h2, h3⟩
      · exact Or.inl ((first_answer_cons hw r v k m0 q T).2 (Or.inr ⟨hu, h2⟩))
      · refine Or.inr ⟨?_, h3⟩
        intro x hx
        rcases List.mem_cons.1 hx with rfl | hx
        · exact hu
        · exact h2 x hx

/-- Sleeps during which no reply completes the registration leave it pending or
failed. -/
theorem watch_unanswered (hw : mddi_hw) (r : Nat) (T : List (mddi_info × List rev_event)) :
    ∀ c c2 : slot, (c = .pending ∨ c = .faulted) → watch hw r c T c2 →
      (∀ q ∈ T, unanswered hw r q.1 q.2) → c2 = .pending ∨ c2 = .faulted := by
  induction T with
  | nil =>
    intro c c2 hc h _
    rw [watch_nil] at h
    rw [h]
    exact hc
  | cons q T ih =>
    intro c c2 hc h hall
    rcases hc with rfl | rfl
    · rw [watch_cons] at h
      obtain ⟨c1, h1, h2⟩ := h
      have h1b : (unanswered hw r q.1 q.2 ∧ (c1 = .pending ∨ c1 = .faulted)) ∨
          ∃ v, answered hw r v q.1 q.2 ∧ c1 = .replied v := h1
      rcases h1b with ⟨-, hc1⟩ | ⟨v, ha, -⟩
      · exact ih c1 c2 hc1 h2 (fun x hx => hall x (List.mem_cons_of_mem _ hx))
      · exact absurd ha (unanswered_not_answered hw r v q.2 q.1
          (hall q (List.mem_cons_self _ _)))
    · exact Or.inr (watch_idle hw r (q :: T) _ c2 (by intro h; cases h) h).1

/-- Sleeps the first answered one of which carries `v` complete the registration with
`v`. -/
theorem watch_first_answer (hw : mddi_hw) (r v k : Nat) (m0 : mddi_info)
    (T : List (mddi_info × List rev_event)) :
    ∀ c2 : slot, watch hw r .pending T c2 → first_answer hw r v k m0 T →
      c2 = .replied v ∧ ∃ q ∈ T, submitted (new_writes m0 q.1) = k := by
  induction T with
  | nil => intro c2 _ hf; exact hf.elim
  | cons q T ih =>
    intro c2 h hf
    rw [watch_cons] at h
    obtain ⟨c1, h1, h2⟩ := h
    have h1b : (unanswered hw r q.1 q.2 ∧ (c1 = .pending ∨ c1 = .faulted)) ∨
        ∃ v2, answered hw r v2 q.1 q.2 ∧ c1 = .replied v2 := h1
    rw [first_answer_cons] at hf
    rcases h1b with ⟨hu, hc1⟩ | ⟨v2, ha, hc1⟩
    · rcases hf with ⟨ha, -⟩ | ⟨-, hrest⟩
      · exact absurd ha (unanswered_not_answered hw r v q.2 q.1 hu)
      · rcases hc1 with rfl | rfl
        · obtain ⟨i1, x, hx, i2⟩ := ih c2 h2 hrest
          exact ⟨i1, x, List.mem_cons_of_mem _ hx, i2⟩
        · exact absurd hrest (first_answer_idle hw r v k m0 T
            (watch_idle hw r T _ c2 (by intro h; cases h) h2).2)
    · rcases hf with ⟨ha2, hk⟩ | ⟨hu, -⟩
      · have e := answered_unique hw r v v2 q.2 q.1 ha2 ha
        subst e
        subst hc1
        exact ⟨(watch_idle hw r T _ c2 (by intro h; cases h) h2).1, q,
          List.mem_cons_self _ _, hk⟩
      · exact absurd ha (unanswered_not_answered hw r v2 q.2 q.1 hu)

theorem submitted_append (a b : List hw_write) :
    submitted (a ++ b) = submitted a + submitted b := by
  unfold submitted
  rw [List.filter_append, List.length_append]

theorem submitted_driver_cmds (l : List hw_write) : submitted (driver_cmds l) = submitted l := by
  unfold submitted driver_cmds
  rw [List.filter_filter]
  congr 1
  apply List.filter_congr
  intro w _
  cases w <;> simp [is_submission, bookkeeping_write]


/-! ### Steps of the calling thread -/

theorem block_eq (hw : mddi_hw) (s : sys) :
    block hw s = { mddi := run_events hw (next_batch s s.mddi) s.mddi, waits := s.waits.tail,
                   STAT := s.STAT, slept := s.slept ++ [(s.mddi, next_batch s s.mddi)] } := by
  unfold block next_batch
  cases h : s.waits with
  | nil => cases s; simp_all [run_events_nil]
  | cons f rest => simp

theorem thread_rel_refl (hw : mddi_hw) (s : sys) : thread_rel hw [] 0 s s :=
  ⟨by simp, id, log_step_refl _, rfl, rfl, rfl, rfl⟩

theorem thread_rel_trans {hw : mddi_hw} {c1 c2 : List hw_write} {k1 k2 : Nat} {a b c : sys}
    (h1 : thread_rel hw c1 k1 a b) (h2 : thread_rel hw c2 k2 b c) :
    thread_rel hw (c1 ++ c2) (k1 + k2) a c := by
  obtain ⟨a1, a2, a3, a4, a5, a6, a7⟩ := h1
  obtain ⟨b1, b2, b3, b4, b5, b6, b7⟩ := h2
  refine ⟨?_, fun h => b2 (a2 h), log_step_trans a3 b3, b4.trans a4, b5.trans a5,
    b6.trans a6, b7.trans a7⟩
  rw [b1, a1, List.drop_drop, Nat.add_comm]

theorem thread_rel_writel (hw : mddi_hw) (w : hw_write) (s : sys) :
    thread_rel hw (driver_cmds [w]) 0 s (s.upd (mddi_writel w)) :=
  ⟨by simp [sys.upd], id, log_step_writel w s.mddi, rfl, rfl, rfl, rfl⟩

theorem thread_rel_block (hw : mddi_hw) (s : sys) : thread_rel hw [] 1 s (block hw s) := by
  rw [block_eq]
  obtain ⟨h1, h2, h3⟩ := run_events_effect hw (next_batch s s.mddi) s.mddi
  obtain ⟨-, -, -, -, e5, e6, -, -, e9, -, e11⟩ := h1
  exact ⟨by simp, h3, h2, e6, e5, e9, e11⟩

theorem thread_rel_arm (hw : mddi_hw) (mask : Nat) (s : sys) :
    thread_rel hw [] 0 s (s.upd (mddi_wait_interrupt_arm mask)) :=
  ⟨by simp [sys.upd], id, ⟨[.INTEN (s.mddi.int_enable ||| mask)], rfl, rfl⟩, rfl, rfl, rfl, rfl⟩

theorem thread_rel_wait (hw : mddi_hw) (mask : Nat) (s : sys) :
    thread_rel hw [] 1 s (mddi_wait_interrupt hw mask s) := by
  unfold mddi_wait_interrupt mddi_wait_interrupt_timeout
  exact thread_rel_trans (thread_rel_arm hw mask s) (thread_rel_block hw _)

/-- A step of the thread that writes only the pending slot and the registration objects. -/
theorem thread_rel_slot (hw : mddi_hw) (s : sys) (f : mddi_info → mddi_info)
    (hf : ∀ m, (f m).hw_log = m.hw_log ∧ (f m).rev_data_curr = m.rev_data_curr ∧
      same_static m (f m)) : thread_rel hw [] 0 s (s.upd f) := by
  obtain ⟨h1, h2, h3⟩ := hf s.mddi
  obtain ⟨-, -, -, -, e5, e6, -, -, e9, -, e11⟩ := h3
  exact ⟨by simp [sys.upd], fun h => by show (f s.mddi).rev_data_curr < _; rw [h2]; exact h,
    ⟨[], by simp [sys.upd, h1], rfl⟩, e6, e5, e9, e11⟩

theorem slot_is_congr (hw : mddi_hw) (r a : Nat) (c : slot) (m m2 : mddi_info)
    (h1 : m2.reg_read = m.reg_read) (h2 : m2.ri = m.ri) (h : slot_is hw r a c m) :
    slot_is hw r a c m2 := by
  cases c <;> simp only [slot_is] at * <;> rw [h1, h2] <;> exact h

theorem read_submit_rel (hw : mddi_hw) (r : Nat) (s : sys) :
    thread_rel hw [.PRI_PTR s.mddi.reg_read_addr s.mddi.reg_read_data,
      .CMD (.MDDI_CMD_PERIODIC_REV_ENCAP 1)] 2 s (read_submit hw r s) := by
  unfold read_submit
  have h1 := thread_rel_slot hw s (init_completion r)
    (fun m => ⟨rfl, rfl, same_static_refl _⟩)
  have h2 := thread_rel_slot hw (s.upd (init_completion r))
    (fun m => { m with reg_read := some r }) (fun m => ⟨rfl, rfl, same_static_refl _⟩)
  have h3 := thread_rel_writel hw (.PRI_PTR s.mddi.reg_read_addr s.mddi.reg_read_data)
    ((s.upd (init_completion r)).upd fun m => { m with reg_read := some r })
  have h4 := thread_rel_wait hw hw.MDDI_INT_PRI_LINK_LIST_DONE
    (((s.upd (init_completion r)).upd fun m => { m with reg_read := some r }).upd
      (mddi_writel (.PRI_PTR s.mddi.reg_read_addr s.mddi.reg_read_data)))
  have h5 := thread_rel_writel hw (.CMD (.MDDI_CMD_PERIODIC_REV_ENCAP 1))
    (mddi_wait_interrupt hw hw.MDDI_INT_PRI_LINK_LIST_DONE
      (((s.upd (init_completion r)).upd fun m => { m with reg_read := some r }).upd
        (mddi_writel (.PRI_PTR s.mddi.reg_read_addr s.mddi.reg_read_data))))
  have h6 := thread_rel_wait hw hw.MDDI_INT_NO_CMD_PKTS_PEND
    ((mddi_wait_interrupt hw hw.MDDI_INT_PRI_LINK_LIST_DONE
      (((s.upd (init_completion r)).upd fun m => { m with reg_read := some r }).upd
        (mddi_writel (.PRI_PTR s.mddi.reg_read_addr s.mddi.reg_read_data)))).upd
      (mddi_writel (.CMD (.MDDI_CMD_PERIODIC_REV_ENCAP 1))))
  exact thread_rel_trans (thread_rel_trans (thread_rel_trans (thread_rel_trans
    (thread_rel_trans h1 h2) h3) h4) h5) h6

theorem read_retrain_idle (hw : mddi_hw) (u : sys) (hidle : u.mddi.reg_read = none) :
    thread_rel hw [.CMD .MDDI_CMD_SEND_RTD, .CMD .MDDI_CMD_LINK_ACTIVE] 1 u
      (read_retrain hw u) ∧
    (read_retrain hw u).mddi.reg_read = none ∧ (read_retrain hw u).mddi.ri = u.mddi.ri := by
  unfold read_retrain
  refine ⟨thread_rel_trans (thread_rel_trans (thread_rel_writel hw _ u)
    (thread_rel_writel hw _ _)) (thread_rel_wait hw _ _), ?_⟩
  unfold mddi_wait_interrupt mddi_wait_interrupt_timeout
  rw [block_eq]
  exact run_events_idle hw _ _ hidle

theorem loop_done (hw : mddi_hw) (r n : Nat) (s : sys)
    (h : ((read_attempt hw r s).mddi.ri r).status = 0) :
    mddi_remote_read_loop hw r n s = read_attempt hw r s := by
  cases n <;> (unfold mddi_remote_read_loop; simp [h])

theorem loop_retry (hw : mddi_hw) (r n : Nat) (s : sys)
    (h : ((read_attempt hw r s).mddi.ri r).status ≠ 0) :
    mddi_remote_read_loop hw r (n + 1) s =
      mddi_remote_read_loop hw r n (read_retrain hw (read_attempt hw r s)) := by
  rw [mddi_remote_read_loop]
  simp [h]

theorem loop_last (hw : mddi_hw) (r : Nat) (s : sys)
    (h : ((read_attempt hw r s).mddi.ri r).status ≠ 0) :
    mddi_remote_read_loop hw r 0 s = read_retrain hw (read_attempt hw r s) := by
  rw [mddi_remote_read_loop]
  simp [h]

theorem neg32_ne_zero (hw : mddi_hw) (hs : hw_sane hw) :
    neg32 hw.EIO ≠ 0 ∧ neg32 1 ≠ 0 ∧ neg32 1 = 0xFFFFFFFF := by
  obtain ⟨-, -, -, -, -, -, -, -, e1, e2⟩ := hs
  unfold neg32
  refine ⟨by omega, by norm_num, by norm_num⟩

theorem log_step_new_writes {cmds : List hw_write} {m m2 : mddi_info}
    (h : log_step cmds m m2) : driver_cmds (new_writes m m2) = cmds := by
  obtain ⟨t, h1, h2⟩ := h
  unfold new_writes
  rw [h1, List.drop_left]
  exact h2

/-- The end of `mddi_remote_read` (lines 866-873) when the registration is already out
of the slot: one command, one wait, and the registration is left as it was. -/
theorem read_tail_idle (hw : mddi_hw) (u : sys) (hidle : u.mddi.reg_read = none) :
    thread_rel hw [.CMD (.MDDI_CMD_PERIODIC_REV_ENCAP 0)] 1 u
      ((mddi_wait_interrupt hw hw.MDDI_INT_NO_CMD_PKTS_PEND
        (u.upd (mddi_writel (.CMD (.MDDI_CMD_PERIODIC_REV_ENCAP 0))))).upd
          fun m => { m with reg_read := none }) ∧
    ((mddi_wait_interrupt hw hw.MDDI_INT_NO_CMD_PKTS_PEND
        (u.upd (mddi_writel (.CMD (.MDDI_CMD_PERIODIC_REV_ENCAP 0))))).upd
          fun m => { m with reg_read := none }).mddi.ri = u.mddi.ri := by
  refine ⟨thread_rel_trans (thread_rel_trans (thread_rel_writel hw _ u)
    (thread_rel_wait hw _ _)) (thread_rel_slot hw _ _
      (fun m => ⟨rfl, rfl, same_static_refl _⟩)), ?_⟩
  unfold mddi_wait_interrupt mddi_wait_interrupt_timeout
  rw [block_eq]
  exact (run_events_idle hw _ (mddi_wait_interrupt_arm hw.MDDI_INT_NO_CMD_PKTS_PEND
    (mddi_writel (.CMD (.MDDI_CMD_PERIODIC_REV_ENCAP 0)) u.mddi)) hidle).2

/-- The function `mddi_remote_read` around its retry loop: when the loop ends with the
registration out of the slot, the value returned is the registration's result, the slot
is empty, and the log gains the loop's writes followed by the command that disables
periodic reverse encapsulation. -/
theorem remote_read_wrap (hw : mddi_hw) (reg r : Nat) (s : sys) (cmds : List hw_write)
    (k : Nat)
    (hrel : thread_rel hw cmds k (read_prepared hw reg r s)
      (mddi_remote_read_loop hw r 2 (read_prepared hw reg r s)))
    (hidle : (mddi_remote_read_loop hw r 2 (read_prepared hw reg r s)).mddi.reg_read = none) :
    (mddi_remote_read hw reg r s).1 =
      ((mddi_remote_read_loop hw r 2 (read_prepared hw reg r s)).mddi.ri r).result ∧
    (mddi_remote_read hw reg r s).2.mddi.reg_read = none ∧
    driver_cmds (new_writes s.mddi (mddi_remote_read hw reg r s).2.mddi) =
      cmds ++ [.CMD (.MDDI_CMD_PERIODIC_REV_ENCAP 0)] := by
  obtain ⟨t1, t2⟩ := read_tail_idle hw _ hidle
  have hout : mddi_remote_read hw reg r s =
      ((((mddi_wait_interrupt hw hw.MDDI_INT_NO_CMD_PKTS_PEND
        ((mddi_remote_read_loop hw r 2 (read_prepared hw reg r s)).upd
          (mddi_writel (.CMD (.MDDI_CMD_PERIODIC_REV_ENCAP 0))))).upd
          fun m => { m with reg_read := none }).mddi.ri r).result,
        (mddi_wait_interrupt hw hw.MDDI_INT_NO_CMD_PKTS_PEND
        ((mddi_remote_read_loop hw r 2 (read_prepared hw reg r s)).upd
          (mddi_writel (.CMD (.MDDI_CMD_PERIODIC_REV_ENCAP 0))))).upd
          fun m => { m with reg_read := none }) := rfl
  rw [hout]
  refine ⟨?_, rfl, ?_⟩
  · show (_ : reg_read_info).result = _
    rw [t2]
  · have hl := (thread_rel_trans hrel t1).2.2.1
    have e : new_writes s.mddi = new_writes (read_prepared hw reg r s).mddi := by
      funext m2; rfl
    rw [e, log_step_new_writes hl]

theorem read_prepared_frame (hw : mddi_hw) (reg r : Nat) (s : sys) :
    ((read_prepared hw reg r s).mddi.ri r).reg = reg % 2 ^ 32 ∧
    (read_prepared hw reg r s).waits = s.waits ∧
    (read_prepared hw reg r s).mddi.rev_data_curr = s.mddi.rev_data_curr ∧
    (read_prepared hw reg r s).mddi.reg_read_addr = s.mddi.reg_read_addr ∧
    (read_prepared hw reg r s).mddi.reg_read_data = read_llentry hw reg s.mddi.reg_read_data ∧
    (read_prepared hw reg r s).mddi.hw_log = s.mddi.hw_log :=
  ⟨by simp [read_prepared, sys.upd, ri_set_reg, ri_set_status], rfl, rfl, rfl, rfl, rfl⟩

theorem block_slept (hw : mddi_hw) (s : sys) :
    (block hw s).slept = s.slept ++ [(s.mddi, next_batch s s.mddi)] := by
  rw [block_eq]

theorem wait_slept (hw : mddi_hw) (mask : Nat) (s : sys) :
    (mddi_wait_interrupt hw mask s).slept = s.slept ++
      [(mddi_wait_interrupt_arm mask s.mddi,
        next_batch s (mddi_wait_interrupt_arm mask s.mddi))] := by
  unfold mddi_wait_interrupt mddi_wait_interrupt_timeout
  rw [block_slept]
  rfl

/-- One sleep of the caller moves the registration as `sleep_step` says. -/
theorem block_watch (hw : mddi_hw) (hs : hw_sane hw) (r a : Nat) (c : slot) (u : sys)
    (hc : slot_is hw r a c u.mddi) :
    ∃ c2, sleep_step hw r c (u.mddi, next_batch u u.mddi) c2 ∧
      slot_is hw r a c2 (block hw u).mddi := by
  rw [block_eq]
  show ∃ c2, _ ∧ slot_is hw r a c2 (run_events hw (next_batch u u.mddi) u.mddi)
  cases c with
  | faulted =>
    obtain ⟨e1, e2⟩ := run_events_idle hw (next_batch u u.mddi) u.mddi hc.1
    exact ⟨.faulted, ⟨rfl, hc.1⟩, e1, by rw [e2]; exact hc.2⟩
  | replied v =>
    obtain ⟨e1, e2⟩ := run_events_idle hw (next_batch u u.mddi) u.mddi hc.1
    exact ⟨.replied v, ⟨rfl, hc.1⟩, e1, by rw [e2]; exact hc.2⟩
  | pending =>
    obtain ⟨h1, h2, h3⟩ := hc
    rcases unanswered_or_answered hw r (next_batch u u.mddi) u.mddi with hu | ⟨v, ha⟩
    · rcases run_events_unanswered hw _ u.mddi r h1 hu with ⟨e1, e2⟩ | ⟨e1, e2⟩
      · exact ⟨.pending, Or.inl ⟨hu, Or.inl rfl⟩, e1, by rw [e2]; exact h2,
          by rw [e2]; exact h3⟩
      · refine ⟨.faulted, Or.inl ⟨hu, Or.inr rfl⟩, e1, ?_⟩
        rw [e2, h2, h3]; simp
    · obtain ⟨e1, e2⟩ := run_events_answered hw hs _ u.mddi r v h1 ha
      refine ⟨.replied v, Or.inr ⟨v, ha, rfl⟩, e1, ?_⟩
      rw [e2, h2, h3]; simp

theorem wait_watch (hw : mddi_hw) (hs : hw_sane hw) (r a mask : Nat) (c : slot) (u : sys)
    (hc : slot_is hw r a c u.mddi) :
    ∃ c2, sleep_step hw r c (mddi_wait_interrupt_arm mask u.mddi,
        next_batch u (mddi_wait_interrupt_arm mask u.mddi)) c2 ∧
      slot_is hw r a c2 (mddi_wait_interrupt hw mask u).mddi := by
  unfold mddi_wait_interrupt mddi_wait_interrupt_timeout
  exact block_watch hw hs r a c (u.upd (mddi_wait_interrupt_arm mask))
    (slot_is_congr hw r a c u.mddi _ rfl rfl hc)

theorem read_collect_cases (hw : mddi_hw) (r : Nat) (u : sys) :
    ((u.mddi.ri r).done ≠ 0 → read_collect hw r u = u.upd (consume_completion r)) ∧
    ((u.mddi.ri r).done = 0 → ((block hw u).mddi.ri r).done ≠ 0 →
      read_collect hw r u = (block hw u).upd (consume_completion r)) ∧
    ((u.mddi.ri r).done = 0 → ((block hw u).mddi.ri r).done = 0 →
      read_collect hw r u = (block hw u).upd (read_timeout r)) := by
  refine ⟨?_, ?_, ?_⟩
  · intro h
    unfold read_collect wait_for_completion_timeout
    simp [h]
  · intro h h2
    unfold read_collect wait_for_completion_timeout
    simp [h, h2]
  · intro h h2
    unfold read_collect wait_for_completion_timeout
    simp [h, h2]

/-- The second half of an attempt: the sleep it makes unless the completion has been
signalled already, and what the test of `ri.status` finds. -/
theorem read_collect_run (hw : mddi_hw) (hs : hw_sane hw) (r a : Nat) (u : sys) (c : slot)
    (hc : slot_is hw r a c u.mddi) :
    ∃ T3 c3, (read_collect hw r u).slept = u.slept ++ T3 ∧ watch hw r c T3 c3 ∧
      read_outcome hw r a c3 (read_collect hw r u).mddi ∧
      (∃ k, thread_rel hw [] k u (read_collect hw r u)) ∧ ∀ q ∈ T3, q.1 = u.mddi := by
  obtain ⟨k1, k2, k3⟩ := read_collect_cases hw r u
  have hcons : thread_rel hw [] 0 u (u.upd (consume_completion r)) :=
    thread_rel_slot hw u (consume_completion r) (fun m => ⟨rfl, rfl, same_static_refl _⟩)
  cases c with
  | faulted =>
    obtain ⟨e1, e2⟩ := hc
    have hd : (u.mddi.ri r).done ≠ 0 := by rw [e2]; simp
    rw [k1 hd]
    refine ⟨[], .faulted, by simp [sys.upd], rfl, ?_, ⟨0, hcons⟩, fun q hq => by cases hq⟩
    simp [read_outcome, sys.upd, consume_completion, e1, e2]
  | replied v =>
    obtain ⟨e1, e2⟩ := hc
    have hd : (u.mddi.ri r).done ≠ 0 := by rw [e2]; simp
    rw [k1 hd]
    refine ⟨[], .replied v, by simp [sys.upd], rfl, ?_, ⟨0, hcons⟩, fun q hq => by cases hq⟩
    simp [read_outcome, sys.upd, consume_completion, e1, e2]
  | pending =>
    obtain ⟨c3, st3, sl3⟩ := block_watch hw hs r a .pending u hc
    have hd : (u.mddi.ri r).done = 0 := hc.2.1
    have hb := thread_rel_block hw u
    have hw3 : watch hw r .pending [(u.mddi, next_batch u u.mddi)] c3 :=
      (watch_cons hw r _ _ _ _).2 ⟨c3, st3, rfl⟩
    have hq : ∀ q ∈ [(u.mddi, next_batch u u.mddi)], q.1 = u.mddi := by
      intro q hq
      rw [List.mem_singleton.1 hq]
    cases c3 with
    | pending =>
      obtain ⟨e1, e2, e3⟩ := sl3
      rw [k3 hd e2]
      refine ⟨_, .pending, ?_, hw3, ?_, ⟨_, thread_rel_trans hb (thread_rel_slot hw (block hw u)
        (read_timeout r) (fun m => ⟨rfl, rfl, same_static_refl _⟩))⟩, hq⟩
      · show (block hw u).slept = _
        rw [block_slept]
      · simp [read_outcome, sys.upd, read_timeout, ri_set_status, ri_set_result, e3]
    | faulted =>
      obtain ⟨e1, e2⟩ := sl3
      have hd2 : ((block hw u).mddi.ri r).done ≠ 0 := by rw [e2]; simp
      rw [k2 hd hd2]
      refine ⟨_, .faulted, ?_, hw3, ?_, ⟨_, thread_rel_trans hb (thread_rel_slot hw (block hw u)
        (consume_completion r) (fun m => ⟨rfl, rfl, same_static_refl _⟩))⟩, hq⟩
      · show (block hw u).slept = _
        rw [block_slept]
      · simp [read_outcome, sys.upd, consume_completion, e1, e2]
    | replied v =>
      obtain ⟨e1, e2⟩ := sl3
      have hd2 : ((block hw u).mddi.ri r).done ≠ 0 := by rw [e2]; simp
      rw [k2 hd hd2]
      refine ⟨_, .replied v, ?_, hw3, ?_, ⟨_, thread_rel_trans hb (thread_rel_slot hw (block hw u)
        (consume_completion r) (fun m => ⟨rfl, rfl, same_static_refl _⟩))⟩, hq⟩
      · show (block hw u).slept = _
        rw [block_slept]
      · simp [read_outcome, sys.upd, consume_completion, e1, e2]

theorem submitted_log_step {cmds : List hw_write} {m0 m : mddi_info}
    (h : log_step cmds m0 m) : submitted (new_writes m0 m) = submitted cmds := by
  rw [← submitted_driver_cmds, log_step_new_writes h]

theorem read_armed_step (hw : mddi_hw) (r : Nat) (m : mddi_info) :
    log_step [.PRI_PTR m.reg_read_addr m.reg_read_data] m (read_armed hw r m) :=
  ⟨[.PRI_PTR m.reg_read_addr m.reg_read_data,
      .INTEN (m.int_enable ||| hw.MDDI_INT_PRI_LINK_LIST_DONE)],
    by simp [read_armed, mddi_wait_interrupt_arm, mddi_writel, init_completion], rfl⟩

theorem read_armed_frame (hw : mddi_hw) (r : Nat) (m : mddi_info) :
    (read_armed hw r m).reg_read = some r ∧
    ((read_armed hw r m).ri r).reg = (m.ri r).reg ∧
    (read_armed hw r m).rev_data_curr = m.rev_data_curr := by
  refine ⟨rfl, ?_, rfl⟩
  simp [read_armed, mddi_wait_interrupt_arm, mddi_writel, init_completion]

/-- The first half of an attempt: its two sleeps, how they move the registration, and
the log when the caller enters the second. -/
theorem read_submit_run (hw : mddi_hw) (hs : hw_sane hw) (r : Nat) (s : sys) :
    ∃ q2 c2, (read_submit hw r s).slept = s.slept ++
        [attempt_sleep hw r s, q2] ∧
      watch hw r .pending
        [attempt_sleep hw r s, q2] c2 ∧
      slot_is hw r (s.mddi.ri r).reg c2 (read_submit hw r s).mddi ∧
      log_step [.PRI_PTR s.mddi.reg_read_addr s.mddi.reg_read_data,
        .CMD (.MDDI_CMD_PERIODIC_REV_ENCAP 1)] s.mddi q2.1 := by
  have hA : slot_is hw r (s.mddi.ri r).reg .pending
      (((s.upd (init_completion r)).upd fun m => { m with reg_read := some r }).upd
        fun m => mddi_writel (.PRI_PTR m.reg_read_addr m.reg_read_data) m).mddi := by
    refine ⟨rfl, ?_, ?_⟩ <;> simp [sys.upd, mddi_writel, init_completion]
  obtain ⟨c1, st1, sl1⟩ := wait_watch hw hs r _ hw.MDDI_INT_PRI_LINK_LIST_DONE .pending _ hA
  obtain ⟨c2, st2, sl2⟩ := wait_watch hw hs r _ hw.MDDI_INT_NO_CMD_PKTS_PEND c1
    ((mddi_wait_interrupt hw hw.MDDI_INT_PRI_LINK_LIST_DONE
      (((s.upd (init_completion r)).upd fun m => { m with reg_read := some r }).upd
        fun m => mddi_writel (.PRI_PTR m.reg_read_addr m.reg_read_data) m)).upd
      (mddi_writel (.CMD (.MDDI_CMD_PERIODIC_REV_ENCAP 1))))
    (slot_is_congr hw r _ c1 (mddi_wait_interrupt hw hw.MDDI_INT_PRI_LINK_LIST_DONE
      (((s.upd (init_completion r)).upd fun m => { m with reg_read := some r }).upd
        fun m => mddi_writel (.PRI_PTR m.reg_read_addr m.reg_read_data) m)).mddi _ rfl rfl sl1)
  have h1 := thread_rel_slot hw s (init_completion r)
    (fun m => ⟨rfl, rfl, same_static_refl _⟩)
  have h2 := thread_rel_slot hw (s.upd (init_completion r))
    (fun m => { m with reg_read := some r }) (fun m => ⟨rfl, rfl, same_static_refl _⟩)
  have h3 := thread_rel_writel hw (.PRI_PTR s.mddi.reg_read_addr s.mddi.reg_read_data)
    ((s.upd (init_completion r)).upd fun m => { m with reg_read := some r })
  have h4 := thread_rel_wait hw hw.MDDI_INT_PRI_LINK_LIST_DONE
    (((s.upd (init_completion r)).upd fun m => { m with reg_read := some r }).upd
      (mddi_writel (.PRI_PTR s.mddi.reg_read_addr s.mddi.reg_read_data)))
  have h5 := thread_rel_writel hw (.CMD (.MDDI_CMD_PERIODIC_REV_ENCAP 1))
    (mddi_wait_interrupt hw hw.MDDI_INT_PRI_LINK_LIST_DONE
      (((s.upd (init_completion r)).upd fun m => { m with reg_read := some r }).upd
        (mddi_writel (.PRI_PTR s.mddi.reg_read_addr s.mddi.reg_read_data))))
  have h6 := thread_rel_arm hw hw.MDDI_INT_NO_CMD_PKTS_PEND
    ((mddi_wait_interrupt hw hw.MDDI_INT_PRI_LINK_LIST_DONE
      (((s.upd (init_completion r)).upd fun m => { m with reg_read := some r }).upd
        (mddi_writel (.PRI_PTR s.mddi.reg_read_addr s.mddi.reg_read_data)))).upd
      (mddi_writel (.CMD (.MDDI_CMD_PERIODIC_REV_ENCAP 1))))
  have hall := thread_rel_trans (thread_rel_trans (thread_rel_trans (thread_rel_trans
    (thread_rel_trans h1 h2) h3) h4) h5) h6
  refine ⟨_, c2, ?_, (watch_cons hw r _ _ _ _).2 ⟨c1, st1,
    (watch_cons hw r _ _ _ _).2 ⟨c2, st2, rfl⟩⟩, sl2, hall.2.2.1⟩
  unfold read_submit
  dsimp only
  rw [wait_slept]
  show (mddi_wait_interrupt hw hw.MDDI_INT_PRI_LINK_LIST_DONE _).slept ++ _ = _
  rw [wait_slept, List.append_assoc]
  rfl

/-- One attempt of `mddi_remote_read`: its sleeps, how they move the registration, what
the test of `ri.status` finds, and the log when the caller enters each sleep. -/
theorem read_attempt_run (hw : mddi_hw) (hs : hw_sane hw) (r : Nat) (s : sys) :
    ∃ T c, (read_attempt hw r s).slept = s.slept ++
        (attempt_sleep hw r s :: T) ∧
      watch hw r .pending
        (attempt_sleep hw r s :: T) c ∧
      read_outcome hw r (s.mddi.ri r).reg c (read_attempt hw r s).mddi ∧
      (∃ k, thread_rel hw [.PRI_PTR s.mddi.reg_read_addr s.mddi.reg_read_data,
        .CMD (.MDDI_CMD_PERIODIC_REV_ENCAP 1)] k s (read_attempt hw r s)) ∧
      ∀ q ∈ attempt_sleep hw r s :: T,
        ∃ cq, log_step cq s.mddi q.1 ∧ submitted cq = 1 := by
  obtain ⟨q2, c2, e1, w1, sl, lg⟩ := read_submit_run hw hs r s
  obtain ⟨T3, c3, e2, w2, out, ⟨k, hrel⟩, hq3⟩ := read_collect_run hw hs r _
    (read_submit hw r s) c2 sl
  refine ⟨q2 :: T3, c3, ?_, ?_, out, ⟨_, thread_rel_trans (read_submit_rel hw r s) hrel⟩, ?_⟩
  · show (read_collect hw r (read_submit hw r s)).slept = _
    rw [e2, e1, List.append_assoc]
    rfl
  · exact watch_append hw r _ _ c2 c3 T3 w1 w2
  · intro q hq
    rcases List.mem_cons.1 hq with rfl | hq
    · exact ⟨_, read_armed_step hw r s.mddi, rfl⟩
    · rcases List.mem_cons.1 hq with rfl | hq
      · exact ⟨_, lg, rfl⟩
      · rw [hq3 q hq]
        exact ⟨_, (read_submit_rel hw r s).2.2.1, rfl⟩

/-- One attempt of `mddi_remote_read`, by the status it leaves: status 0 means that a
reply completed the registration during one of its sleeps, any other status that none did
and that the result is `-1`. -/
theorem read_round_run (hw : mddi_hw) (hs : hw_sane hw) (r v k : Nat) (m0 : mddi_info)
    (s : sys) (c0 : List hw_write) (hlog : log_step c0 m0 s.mddi) :
    ∃ T, (read_attempt hw r s).slept = s.slept ++
        (attempt_sleep hw r s :: T) ∧
      (read_attempt hw r s).mddi.reg_read = none ∧
      (∃ kk, thread_rel hw [.PRI_PTR s.mddi.reg_read_addr s.mddi.reg_read_data,
        .CMD (.MDDI_CMD_PERIODIC_REV_ENCAP 1)] kk s (read_attempt hw r s)) ∧
      (((read_attempt hw r s).mddi.ri r).status = 0 →
        (¬ ∀ q ∈ attempt_sleep hw r s :: T,
          unanswered hw r q.1 q.2) ∧
        ∀ Lrest, first_answer hw r v k m0
            ((attempt_sleep hw r s :: T) ++ Lrest) →
          k = submitted c0 + 1 ∧ ((read_attempt hw r s).mddi.ri r).result = v) ∧
      (((read_attempt hw r s).mddi.ri r).status ≠ 0 →
        ((read_attempt hw r s).mddi.ri r).result = neg32 1 ∧
        ∀ Lrest, first_answer hw r v k m0
            ((attempt_sleep hw r s :: T) ++ Lrest) →
          (∀ q ∈ attempt_sleep hw r s :: T,
            unanswered hw r q.1 q.2) ∧ first_answer hw r v k m0 Lrest) := by
  obtain ⟨T, c, e, w, ⟨o1, o2, o3⟩, hrel, hq⟩ := read_attempt_run hw hs r s
  obtain ⟨n1, n2, -⟩ := neg32_ne_zero hw hs
  refine ⟨T, e, o1, hrel, ?_, ?_⟩
  · intro hst
    cases c with
    | pending => exact absurd (o3.1.symm.trans hst) n2
    | faulted => exact absurd (o3.1.symm.trans hst) n1
    | replied v2 =>
      refine ⟨?_, ?_⟩
      · intro hall
        rcases watch_unanswered hw r _ _ _ (Or.inl rfl) w hall with h | h <;> cases h
      · intro Lrest hf
        rcases first_answer_append hw r v k m0 _ _ hf with h | ⟨hall, -⟩
        · obtain ⟨hc, q, hqm, hk⟩ := watch_first_answer hw r v k m0 _ _ w h
          cases hc
          obtain ⟨cq, lq, sq⟩ := hq q hqm
          refine ⟨?_, o3.2⟩
          rw [← hk, submitted_log_step (log_step_trans hlog lq), submitted_append, sq]
        · rcases watch_unanswered hw r _ _ _ (Or.inl rfl) w hall with h | h <;> cases h
  · intro hst
    have hc : c = .pending ∨ c = .faulted := by
      cases c with
      | pending => exact Or.inl rfl
      | faulted => exact Or.inr rfl
      | replied v2 => exact absurd o3.1 hst
    refine ⟨?_, ?_⟩
    · rcases hc with rfl | rfl
      · exact o3.2
      · exact o3.2
    · intro Lrest hf
      rcases first_answer_append hw r v k m0 _ _ hf with h | h
      · obtain ⟨hc2, -⟩ := watch_first_answer hw r v k m0 _ _ w h
        rw [hc2] at hc
        rcases hc with h | h <;> cases h
      · exact h

theorem read_retrain_slept (hw : mddi_hw) (u : sys) :
    (read_retrain hw u).slept = u.slept ++ [retrain_sleep hw u] := by
  unfold read_retrain
  dsimp only
  rw [wait_slept]
  rfl

theorem retrain_sleep_idle (hw : mddi_hw) (u : sys) (h : u.mddi.reg_read = none) :
    (retrain_sleep hw u).1.reg_read = none := h

theorem read_round_cmds_eq {hw : mddi_hw} {cmds : List hw_write} {k : Nat} {s s2 : sys}
    (h : thread_rel hw cmds k s s2) : read_round_cmds s2 = read_round_cmds s := by
  unfold read_round_cmds
  rw [h.2.2.2.1, h.2.2.2.2.1]

/-- The retry loop of `mddi_remote_read`, entered with `retry_count = n` in a state whose
log is `c0` beyond that of `m0`: its sleeps; when no reply completes the registration
during any of them it makes `n + 1` failed rounds; when the first reply that completes it
carries `v`, the loop ends with that attempt and the result `v`, unless that reply comes
only after the loop. -/
theorem loop_run (hw : mddi_hw) (hs : hw_sane hw) (r v k : Nat) (m0 : mddi_info) :
    ∀ (n : Nat) (s : sys) (c0 : List hw_write), log_step c0 m0 s.mddi →
      ∃ LL, (mddi_remote_read_loop hw r n s).slept = s.slept ++
          (attempt_sleep hw r s :: LL) ∧
        (mddi_remote_read_loop hw r n s).mddi.reg_read = none ∧
        ((∀ q ∈ attempt_sleep hw r s :: LL,
            unanswered hw r q.1 q.2) →
          (∃ kk, thread_rel hw (List.replicate (n + 1) (read_round_cmds s)).flatten kk s
            (mddi_remote_read_loop hw r n s)) ∧
          ((mddi_remote_read_loop hw r n s).mddi.ri r).result = neg32 1) ∧
        (∀ Lrest, first_answer hw r v k m0
            ((attempt_sleep hw r s :: LL) ++ Lrest) →
          (∃ i, i ≤ n ∧ k = submitted c0 + i + 1 ∧
            (∃ kk, thread_rel hw ((List.replicate i (read_round_cmds s)).flatten ++
              [.PRI_PTR s.mddi.reg_read_addr s.mddi.reg_read_data,
                .CMD (.MDDI_CMD_PERIODIC_REV_ENCAP 1)]) kk s (mddi_remote_read_loop hw r n s)) ∧
            ((mddi_remote_read_loop hw r n s).mddi.ri r).result = v) ∨
          ((∀ q ∈ attempt_sleep hw r s :: LL,
              unanswered hw r q.1 q.2) ∧ first_answer hw r v k m0 Lrest)) := by
  intro n
  induction n with
  | zero =>
    intro s c0 hlog
    obtain ⟨T, e, hidle, ⟨kk, hrel⟩, hok, hfail⟩ := read_round_run hw hs r v k m0 s c0 hlog
    by_cases hst : ((read_attempt hw r s).mddi.ri r).status = 0
    · obtain ⟨hno, hyes⟩ := hok hst
      rw [loop_done hw r 0 s hst]
      refine ⟨T, e, hidle, fun hall => absurd hall hno, ?_⟩
      intro Lrest hf
      obtain ⟨hk, hv⟩ := hyes Lrest hf
      exact Or.inl ⟨0, Nat.le_refl _, hk, ⟨kk, by simpa using hrel⟩, hv⟩
    · obtain ⟨hres, hsplit⟩ := hfail hst
      obtain ⟨hrel2, i1, i2⟩ := read_retrain_idle hw (read_attempt hw r s) hidle
      rw [loop_last hw r s hst]
      have hround := thread_rel_trans hrel hrel2
      refine ⟨T ++ [retrain_sleep hw (read_attempt hw r s)], ?_, i1, ?_, ?_⟩
      · rw [read_retrain_slept, e, List.append_assoc]
        rfl
      · intro _
        refine ⟨⟨_, by simpa [read_round_cmds] using hround⟩, ?_⟩
        rw [i2]
        exact hres
      · intro Lrest hf
        have hf2 : first_answer hw r v k m0
            ((attempt_sleep hw r s :: T) ++
              (retrain_sleep hw (read_attempt hw r s) ::
                Lrest)) := by
          simpa using hf
        obtain ⟨hall, hrest⟩ := hsplit _ hf2
        rw [first_answer_cons] at hrest
        rcases hrest with ⟨ha, -⟩ | ⟨hu, hrest⟩
        · exact absurd ha (not_answered_of_idle hw r v _ _ (retrain_sleep_idle hw _ hidle))
        · refine Or.inr ⟨?_, hrest⟩
          intro q hq
          rw [← List.cons_append] at hq
          rcases List.mem_append.1 hq with hq | hq
          · exact hall q hq
          · rw [List.mem_singleton.1 hq]
            exact hu
  | succ n ih =>
    intro s c0 hlog
    obtain ⟨T, e, hidle, ⟨kk, hrel⟩, hok, hfail⟩ := read_round_run hw hs r v k m0 s c0 hlog
    by_cases hst : ((read_attempt hw r s).mddi.ri r).status = 0
    · obtain ⟨hno, hyes⟩ := hok hst
      rw [loop_done hw r (n + 1) s hst]
      refine ⟨T, e, hidle, fun hall => absurd hall hno, ?_⟩
      intro Lrest hf
      obtain ⟨hk, hv⟩ := hyes Lrest hf
      exact Or.inl ⟨0, Nat.zero_le _, hk, ⟨kk, by simpa using hrel⟩, hv⟩
    · obtain ⟨hres, hsplit⟩ := hfail hst
      obtain ⟨hrel2, i1, i2⟩ := read_retrain_idle hw (read_attempt hw r s) hidle
      rw [loop_retry hw r n s hst]
      have hround : thread_rel hw (read_round_cmds s) (kk + 1) s
          (read_retrain hw (read_attempt hw r s)) := by
        simpa [read_round_cmds] using thread_rel_trans hrel hrel2
      have hceq := read_round_cmds_eq hround
      have hsub : submitted (c0 ++ read_round_cmds s) = submitted c0 + 1 := by
        rw [submitted_append]
        rfl
      obtain ⟨LL, e2, j1, jA, jB⟩ := ih (read_retrain hw (read_attempt hw r s))
        (c0 ++ read_round_cmds s) (log_step_trans hlog hround.2.2.1)
      rw [hceq] at jA jB
      rw [hround.2.2.2.1, hround.2.2.2.2.1] at jB
      refine ⟨T ++ retrain_sleep hw (read_attempt hw r s) ::
        attempt_sleep hw r (read_retrain hw (read_attempt hw r s)) :: LL, ?_, j1, ?_, ?_⟩
      · rw [e2, read_retrain_slept, e, List.append_assoc, List.append_assoc]
        rfl
      · intro hall
        obtain ⟨⟨k2, g1⟩, g2⟩ := jA (fun q hq => hall q (by
          rw [← List.cons_append]
          exact List.mem_append_right _ (List.mem_cons_of_mem _ hq)))
        refine ⟨⟨(kk + 1) + k2, ?_⟩, g2⟩
        have := thread_rel_trans hround g1
        rw [List.replicate_succ, List.flatten_cons]
        exact this
      · intro Lrest hf
        have hf2 : first_answer hw r v k m0
            ((attempt_sleep hw r s :: T) ++
              (retrain_sleep hw (read_attempt hw r s) ::
                ((attempt_sleep hw r (read_retrain hw (read_attempt hw r s)) :: LL) ++
                  Lrest))) := by
          simpa using hf
        obtain ⟨hall, hrest⟩ := hsplit _ hf2
        rw [first_answer_cons] at hrest
        rcases hrest with ⟨ha, -⟩ | ⟨hu, hrest⟩
        · exact absurd ha (not_answered_of_idle hw r v _ _ (retrain_sleep_idle hw _ hidle))
        · rcases jB Lrest hrest with ⟨i, hi, hk, ⟨k2, g1⟩, g2⟩ | ⟨hall2, hrest2⟩
          · refine Or.inl ⟨i + 1, by omega, by rw [hk, hsub]; ring, ⟨(kk + 1) + k2, ?_⟩, g2⟩
            have := thread_rel_trans hround g1
            rw [List.replicate_succ, List.flatten_cons, List.append_assoc]
            exact this
          · refine Or.inr ⟨?_, hrest2⟩
            intro q hq
            rw [← List.cons_append] at hq
            rcases List.mem_append.1 hq with hq | hq
            · exact hall q hq
            · rcases List.mem_cons.1 hq with rfl | hq
              · exact hu
              · exact hall2 q hq

theorem armed_write_slot (mask : Nat) (w : hw_write) (m : mddi_info) :
    (mddi_wait_interrupt_arm mask (mddi_writel w m)).reg_read = m.reg_read := rfl

/-- The sleep of the end of `mddi_remote_read` entered in state `u`. -/
theorem read_tail_slept (hw : mddi_hw) (u : sys) :
    ((mddi_wait_interrupt hw hw.MDDI_INT_NO_CMD_PKTS_PEND
        (u.upd (mddi_writel (.CMD (.MDDI_CMD_PERIODIC_REV_ENCAP 0))))).upd
          fun m => { m with reg_read := none }).slept = u.slept ++
      [(mddi_wait_interrupt_arm hw.MDDI_INT_NO_CMD_PKTS_PEND
          (mddi_writel (.CMD (.MDDI_CMD_PERIODIC_REV_ENCAP 0)) u.mddi),
        next_batch u (mddi_wait_interrupt_arm hw.MDDI_INT_NO_CMD_PKTS_PEND
          (mddi_writel (.CMD (.MDDI_CMD_PERIODIC_REV_ENCAP 0)) u.mddi)))] := by
  show (mddi_wait_interrupt hw hw.MDDI_INT_NO_CMD_PKTS_PEND _).slept = _
  rw [wait_slept]
  rfl

/-- A whole call of `mddi_remote_read` in terms of its sleeps.  The slot is empty on
return.  When no reply completes the registration during any sleep of the call, the
result is the failure value after three failed rounds; when the first reply that
completes it arrives after `k` submissions and carries `v`, the result is `v` and the
call made `k - 1` failed rounds before the successful attempt, with `k` at most three. -/
theorem remote_read_run (hw : mddi_hw) (hs : hw_sane hw) (reg r v k : Nat) (s : sys) :
    (∃ LL, new_sleeps s (mddi_remote_read hw reg r s).2 =
      attempt_sleep hw r (read_prepared hw reg r s) :: LL) ∧
    (mddi_remote_read hw reg r s).2.mddi.reg_read = none ∧
    ((∀ q ∈ new_sleeps s (mddi_remote_read hw reg r s).2, unanswered hw r q.1 q.2) →
      (mddi_remote_read hw reg r s).1 = neg32 1 ∧
      driver_cmds (new_writes s.mddi (mddi_remote_read hw reg r s).2.mddi) =
        (List.replicate 3 (read_round_cmds (read_prepared hw reg r s))).flatten ++
          [.CMD (.MDDI_CMD_PERIODIC_REV_ENCAP 0)]) ∧
    (first_answer hw r v k s.mddi (new_sleeps s (mddi_remote_read hw reg r s).2) →
      (mddi_remote_read hw reg r s).1 = v ∧
      ∃ i, i ≤ 2 ∧ k = i + 1 ∧
        driver_cmds (new_writes s.mddi (mddi_remote_read hw reg r s).2.mddi) =
          (List.replicate i (read_round_cmds (read_prepared hw reg r s))).flatten ++
            [.PRI_PTR s.mddi.reg_read_addr (read_llentry hw reg s.mddi.reg_read_data),
              .CMD (.MDDI_CMD_PERIODIC_REV_ENCAP 1),
              .CMD (.MDDI_CMD_PERIODIC_REV_ENCAP 0)]) := by
  obtain ⟨-, -, -, p4, p5, -⟩ := read_prepared_frame hw reg r s
  obtain ⟨LL, e, hidle, hA, hB⟩ := loop_run hw hs r v k s.mddi 2 (read_prepared hw reg r s) []
    ⟨[], by simp [read_prepared, sys.upd, ri_set_reg, ri_set_status], rfl⟩
  have hsl : new_sleeps s (mddi_remote_read hw reg r s).2 =
      (attempt_sleep hw r (read_prepared hw reg r s) :: LL) ++
        [(mddi_wait_interrupt_arm hw.MDDI_INT_NO_CMD_PKTS_PEND
            (mddi_writel (.CMD (.MDDI_CMD_PERIODIC_REV_ENCAP 0))
              (mddi_remote_read_loop hw r 2 (read_prepared hw reg r s)).mddi),
          next_batch (mddi_remote_read_loop hw r 2 (read_prepared hw reg r s))
            (mddi_wait_interrupt_arm hw.MDDI_INT_NO_CMD_PKTS_PEND
              (mddi_writel (.CMD (.MDDI_CMD_PERIODIC_REV_ENCAP 0))
                (mddi_remote_read_loop hw r 2 (read_prepared hw reg r s)).mddi)))] := by
    have h1 := read_tail_slept hw (mddi_remote_read_loop hw r 2 (read_prepared hw reg r s))
    rw [e] at h1
    have h0 : (read_prepared hw reg r s).slept = s.slept := rfl
    rw [h0, List.append_assoc] at h1
    unfold new_sleeps
    show List.drop s.slept.length ((mddi_wait_interrupt hw hw.MDDI_INT_NO_CMD_PKTS_PEND
        ((mddi_remote_read_loop hw r 2 (read_prepared hw reg r s)).upd
          (mddi_writel (.CMD (.MDDI_CMD_PERIODIC_REV_ENCAP 0))))).upd
          fun m => { m with reg_read := none }).slept = _
    rw [h1, List.drop_left]
  refine ⟨⟨_, by rw [hsl]; rfl⟩, ?_, ?_, ?_⟩
  · rfl
  · intro hall
    rw [hsl] at hall
    obtain ⟨⟨kk, hrel⟩, hres⟩ := hA (fun q hq => hall q (List.mem_append_left _ hq))
    obtain ⟨q1, -, q3⟩ := remote_read_wrap hw reg r s _ kk hrel hidle
    exact ⟨q1.trans hres, q3⟩
  · intro hf
    rw [hsl] at hf
    rcases hB _ hf with ⟨i, hi, hk, ⟨kk, hrel⟩, hres⟩ | ⟨-, hlast⟩
    · obtain ⟨q1, -, q3⟩ := remote_read_wrap hw reg r s _ kk hrel hidle
      refine ⟨q1.trans hres, i, hi, by simpa [submitted] using hk, ?_⟩
      rw [q3, p4, p5, List.append_assoc]
      rfl
    · refine absurd hlast (first_answer_idle hw r v k s.mddi _ ?_)
      intro q hq
      rw [List.mem_singleton.1 hq]
      exact (armed_write_slot _ _ _).trans hidle

/-! ### The simulated peer -/

theorem peer_event_ring (hw : mddi_hw) (p i : Nat) (f : Nat → Nat)
    (hp : p < hw.MDDI_REV_BUFFER_SIZE) (hi : i < hw.MDDI_REV_BUFFER_SIZE) :
    ring_frame hw (peer_event hw p f).mem p i = f i := by
  unfold ring_frame peer_event
  dsimp only
  rw [Nat.mod_eq_of_lt hp]
  by_cases h : p + i < hw.MDDI_REV_BUFFER_SIZE
  · rw [Nat.mod_eq_of_lt h]
    have e : p + i + hw.MDDI_REV_BUFFER_SIZE - p = i + hw.MDDI_REV_BUFFER_SIZE := by omega
    rw [e, Nat.add_mod_right, Nat.mod_eq_of_lt hi]
  · rw [mod_wrap_once (p + i) _ (by omega) (by omega)]
    have e : p + i - hw.MDDI_REV_BUFFER_SIZE + hw.MDDI_REV_BUFFER_SIZE - p = i := by omega
    rw [e, Nat.mod_eq_of_lt hi]

theorem reg_frame_at (hw : mddi_hw) (hs : hw_sane hw) (hl : reg_layout_ok hw) (a v : Nat) :
    (reg_frame hw a v 0 = (hw.offsetof_register_data_list + 2) % 256 ∧
      reg_frame hw a v (0 + 1) = (hw.offsetof_register_data_list + 2) / 256 % 256) ∧
    (reg_frame hw a v hw.offsetof_type = hw.TYPE_REGISTER_ACCESS % 256 ∧
      reg_frame hw a v (hw.offsetof_type + 1) = hw.TYPE_REGISTER_ACCESS / 256 % 256) ∧
    (reg_frame hw a v hw.offsetof_register_address = a % 256 ∧
      reg_frame hw a v (hw.offsetof_register_address + 1) = a / 256 % 256 ∧
      reg_frame hw a v (hw.offsetof_register_address + 2) = a / 65536 % 256 ∧
      reg_frame hw a v (hw.offsetof_register_address + 3) = a / 16777216 % 256) ∧
    (reg_frame hw a v hw.offsetof_register_data_list = v % 256 ∧
      reg_frame hw a v (hw.offsetof_register_data_list + 1) = v / 256 % 256 ∧
      reg_frame hw a v (hw.offsetof_register_data_list + 2) = v / 65536 % 256 ∧
      reg_frame hw a v (hw.offsetof_register_data_list + 3) = v / 16777216 % 256) := by
  obtain ⟨-, -, t0, -, -, -, -, tr, -⟩ := hs
  obtain ⟨l1, l2, l3, -, l5, -⟩ := hl
  refine ⟨⟨?_, ?_⟩, ⟨?_, ?_⟩, ⟨?_, ?_, ?_, ?_⟩, ⟨?_, ?_, ?_, ?_⟩⟩ <;>
    (unfold reg_frame
     repeat (first | rw [if_pos rfl] | rw [if_neg (by omega)]))

theorem reg_frame_fields (hw : mddi_hw) (hs : hw_sane hw) (hl : reg_layout_ok hw) (a v : Nat)
    (ha : a < 2 ^ 32) (hv : v < 2 ^ 32) :
    rd16 (reg_frame hw a v) 0 = hw.offsetof_register_data_list + 2 ∧
    rd16 (reg_frame hw a v) hw.offsetof_type = hw.TYPE_REGISTER_ACCESS ∧
    rd32 (reg_frame hw a v) hw.offsetof_register_address = a ∧
    rd32 (reg_frame hw a v) hw.offsetof_register_data_list = v := by
  obtain ⟨⟨e1, e2⟩, ⟨e3, e4⟩, ⟨e5, e6, e7, e8⟩, ⟨e9, ea, eb, ec⟩⟩ := reg_frame_at hw hs hl a v
  have tr := hs.2.2.2.2.2.2.2.1
  obtain ⟨-, -, l3, -, l5, -⟩ := hl
  refine ⟨?_, ?_, ?_, ?_⟩
  · unfold rd16
    rw [e1, e2]
    omega
  · unfold rd16
    rw [e3, e4]
    omega
  · unfold rd32
    rw [e5, e6, e7, e8]
    omega
  · unfold rd32
    rw [e9, ea, eb, ec]
    omega

/-- The interrupt raised for the peer's reply is dispatched as a reply for `a` carrying
`v`, wherever in the ring the cursor stands. -/
theorem peer_event_reply (hw : mddi_hw) (hs : hw_sane hw) (hl : reg_layout_ok hw)
    (p a v : Nat) (hp : p < hw.MDDI_REV_BUFFER_SIZE) (ha : a < 2 ^ 32) (hv : v < 2 ^ 32) :
    ∃ frame, rev_packet hw (peer_event hw p (reg_frame hw a v)) p = some frame ∧
      is_reply hw a frame ∧ rd32 frame hw.offsetof_register_data_list = v := by
  obtain ⟨f1, f2, f3, f4⟩ := reg_frame_fields hw hs hl a v ha hv
  have hS := hs.1
  obtain ⟨l1, l2, l3, l4, l5, -⟩ := hl
  have ht := hs.2.2.1
  have hring : ∀ i, i < hw.MDDI_REV_BUFFER_SIZE →
      ring_frame hw (peer_event hw p (reg_frame hw a v)).mem p i = reg_frame hw a v i :=
    fun i hi => peer_event_ring hw p i _ hp hi
  have hL : rev_length hw (peer_event hw p (reg_frame hw a v)).mem p =
      hw.offsetof_register_data_list + 2 := by
    rw [rev_length_eq_rd16 hw _ p hp hS, ← f1]
    unfold rd16
    rw [hring 0 (by omega), hring (0 + 1) (by omega)]
  have hfr : ∀ i, i < hw.offsetof_register_data_list + 4 →
      rev_frame hw (peer_event hw p (reg_frame hw a v)) p
        (hw.offsetof_register_data_list + 2) i = reg_frame hw a v i := by
    intro i hi
    rw [rev_frame_bytes hw _ p _ i hp (by omega) hS (by omega), hring i (by omega)]
  refine ⟨rev_frame hw (peer_event hw p (reg_frame hw a v)) p
    (hw.offsetof_register_data_list + 2), ?_, ⟨?_, ?_, ?_⟩, ?_⟩
  · unfold rev_packet
    rw [hL, if_neg (by simp [peer_event]), if_neg (by omega)]
  · have e : rd16 (rev_frame hw (peer_event hw p (reg_frame hw a v)) p
        (hw.offsetof_register_data_list + 2)) 0 = rd16 (reg_frame hw a v) 0 := by
      unfold rd16
      rw [hfr 0 (by omega), hfr (0 + 1) (by omega)]
    rw [e, f1]
    constructor <;> omega
  · refine Eq.trans ?_ f2
    unfold rd16
    rw [hfr _ (by omega), hfr _ (by omega)]
  · refine Eq.trans ?_ f3
    unfold rd32
    rw [hfr _ (by omega), hfr _ (by omega), hfr _ (by omega), hfr _ (by omega)]
  · refine Eq.trans ?_ f4
    unfold rd32
    rw [hfr _ (by omega), hfr _ (by omega), hfr _ (by omega), hfr _ (by omega)]

theorem write_armed_log (hw : mddi_hw) (val reg : Nat) (m : mddi_info) :
    ∃ x, (write_armed hw val reg m).hw_log.reverse =
      .INTEN x :: .PRI_PTR m.reg_write_addr (write_llentry hw val reg m.reg_write_addr) ::
        m.hw_log.reverse :=
  ⟨m.int_enable ||| hw.MDDI_INT_PRI_LINK_LIST_DONE,
    by simp [write_armed, mddi_wait_interrupt_arm, mddi_writel]⟩

theorem read_armed_log (hw : mddi_hw) (r : Nat) (m : mddi_info) :
    ∃ x, (read_armed hw r m).hw_log.reverse =
      .INTEN x :: .PRI_PTR m.reg_read_addr m.reg_read_data :: m.hw_log.reverse :=
  ⟨m.int_enable ||| hw.MDDI_INT_PRI_LINK_LIST_DONE,
    by simp [read_armed, mddi_wait_interrupt_arm, mddi_writel, init_completion]⟩

/-- The simulated peer stays silent after a write descriptor and records its data. -/
theorem echo_peer_after_write (hw : mddi_hw) (hl : reg_layout_ok hw) (val reg : Nat)
    (m : mddi_info) :
    echo_peer hw (write_armed hw val reg m) = [] ∧
    peer_register hw (reg % 2 ^ 32) (write_armed hw val reg m).hw_log.reverse = val % 2 ^ 32 := by
  obtain ⟨x, hx⟩ := write_armed_log hw val reg m
  have hne : ¬ (hw.MDDI_WRITE ||| 1 = hw.MDDI_READ ||| 1) := fun h => hl.2.2.2.2.2 h.symm
  constructor
  · unfold echo_peer
    rw [hx]
    simp [write_llentry, hne]
  · rw [hx]
    simp [peer_register, write_llentry]

/-- The simulated peer answers a read descriptor with the value it holds for the
descriptor's register. -/
theorem echo_peer_after_read (hw : mddi_hw) (reg r : Nat) (m : mddi_info)
    (hd : m.reg_read_data = read_llentry hw reg m.reg_read_data) :
    echo_peer hw (read_armed hw r m) =
      [peer_event hw m.rev_data_curr
        (reg_frame hw (reg % 2 ^ 32) (peer_register hw (reg % 2 ^ 32) m.hw_log.reverse))] := by
  obtain ⟨x, hx⟩ := read_armed_log hw r m
  unfold echo_peer
  rw [hx, hd]
  simp [read_llentry, read_armed, mddi_wait_interrupt_arm, mddi_writel, init_completion]

/-! ### The capability flag along the calling thread -/

theorem flag_rel_refl (hw : mddi_hw) (s : sys) : flag_rel hw 0 s s :=
  ⟨by simp, id, id, fun _ i hi => absurd hi (Nat.not_lt_zero i), fun _ h _ => h⟩

theorem nth_batch_drop (s0 s : sys) (k i : Nat) (h : s.waits = s0.waits.drop k) :
    nth_batch s i = nth_batch s0 (k + i) := by
  unfold nth_batch
  rw [h, List.drop_drop, Nat.add_comm]

theorem flag_rel_trans {hw : mddi_hw} {k1 k2 : Nat} {a b c : sys}
    (h1 : flag_rel hw k1 a b) (h2 : flag_rel hw k2 b c) : flag_rel hw (k1 + k2) a c := by
  obtain ⟨a1, a2, a3, a4, a5⟩ := h1
  obtain ⟨b1, b2, b3, b4, b5⟩ := h2
  refine ⟨by rw [b1, a1, List.drop_drop, Nat.add_comm], fun h => b2 (a2 h),
    fun h => b3 (a3 h), ?_, ?_⟩
  · intro hp i hi hb
    by_cases hik : i < k1
    · exact b3 (a4 hp i hik hb)
    · refine b4 (a2 hp) (i - k1) (by omega) ?_
      intro m hm
      rw [nth_batch_drop a b k1 (i - k1) a1, show k1 + (i - k1) = i by omega]
      exact hb m hm
  · intro hp hn hno
    refine b5 (a2 hp) (a5 hp hn (fun i hi => hno i (by omega))) ?_
    intro i hi m hm
    rw [nth_batch_drop a b k1 i a1]
    exact hno (k1 + i) (by omega) m hm

/-- A step of the thread that writes neither the flags nor the cursor. -/
theorem flag_rel_upd (hw : mddi_hw) (s : sys) (f : mddi_info → mddi_info)
    (hf : ∀ m, (f m).flags = m.flags ∧ (f m).rev_data_curr = m.rev_data_curr) :
    flag_rel hw 0 s (s.upd f) := by
  obtain ⟨h1, h2⟩ := hf s.mddi
  refine ⟨by simp [sys.upd], ?_, ?_, fun _ i hi => absurd hi (Nat.not_lt_zero i), ?_⟩
  · intro h; show (f s.mddi).rev_data_curr < _; rw [h2]; exact h
  · intro h; show (f s.mddi).flags &&& _ ≠ 0; rw [h1]; exact h
  · intro _ h _; show ¬ ((f s.mddi).flags &&& _ ≠ 0); rw [h1]; exact h

theorem flag_rel_block (hw : mddi_hw) (s : sys) : flag_rel hw 1 s (block hw s) := by
  rw [block_eq]
  obtain ⟨-, -, h3⟩ := run_events_effect hw (next_batch s s.mddi) s.mddi
  obtain ⟨c1, c2⟩ := run_events_have_caps hw (next_batch s s.mddi) s.mddi
  refine ⟨by simp, h3, c1, ?_, ?_⟩
  · intro hp i hi hb
    have : i = 0 := by omega
    subst this
    exact run_events_brings_caps hw _ _ (hb s.mddi hp)
  · intro hp hn hno
    exact c2 (hno 0 (by omega) s.mddi hp) hn

theorem flag_rel_wait (hw : mddi_hw) (mask : Nat) (s : sys) :
    flag_rel hw 1 s (mddi_wait_interrupt hw mask s) := by
  unfold mddi_wait_interrupt mddi_wait_interrupt_timeout
  exact flag_rel_trans (flag_rel_upd hw s (mddi_wait_interrupt_arm mask) (fun _ => ⟨rfl, rfl⟩))
    (flag_rel_block hw _)

theorem readl_STAT_eq (s : sys) :
    (mddi_readl_STAT s).1 = s.STAT.headD 0 ∧ (mddi_readl_STAT s).2.mddi = s.mddi ∧
    (mddi_readl_STAT s).2.waits = s.waits ∧ (mddi_readl_STAT s).2.STAT = s.STAT.tail := by
  unfold mddi_readl_STAT
  cases h : s.STAT <;> simp [h]

theorem flag_rel_readl (hw : mddi_hw) (s : sys) : flag_rel hw 0 s (mddi_readl_STAT s).2 := by
  obtain ⟨-, h2, h3, -⟩ := readl_STAT_eq s
  refine ⟨by rw [h3]; simp, ?_, ?_, fun _ i hi => absurd hi (Nat.not_lt_zero i), ?_⟩
  · rw [h2]; exact id
  · rw [h2]; exact id
  · rw [h2]; exact fun _ h _ => h

theorem thread_rel_readl (hw : mddi_hw) (s : sys) :
    thread_rel hw [] 0 s (mddi_readl_STAT s).2 := by
  obtain ⟨-, h2, h3, -⟩ := readl_STAT_eq s
  refine ⟨by rw [h3]; simp, ?_, ?_, ?_, ?_, ?_, ?_⟩ <;> rw [h2]
  · exact id
  · exact log_step_refl _

theorem block_STAT (hw : mddi_hw) (s : sys) : (block hw s).STAT = s.STAT := by
  rw [block_eq]

theorem wait_STAT (hw : mddi_hw) (mask : Nat) (s : sys) :
    (mddi_wait_interrupt hw mask s).STAT = s.STAT := by
  unfold mddi_wait_interrupt mddi_wait_interrupt_timeout
  rw [block_STAT]; rfl

theorem init_rel_trans {hw : mddi_hw} {c1 c2 : List hw_write} {k1 k2 : Nat} {a b c : sys}
    (h1 : init_rel hw c1 k1 a b) (h2 : init_rel hw c2 k2 b c) :
    init_rel hw (c1 ++ c2) (k1 + k2) a c :=
  ⟨thread_rel_trans h1.1 h2.1, flag_rel_trans h1.2 h2.2⟩

theorem init_rel_writel (hw : mddi_hw) (w : hw_write) (s : sys) :
    init_rel hw (driver_cmds [w]) 0 s (s.upd (mddi_writel w)) :=
  ⟨thread_rel_writel hw w s, flag_rel_upd hw s _ (fun _ => ⟨rfl, rfl⟩)⟩

theorem init_rel_wait (hw : mddi_hw) (mask : Nat) (s : sys) :
    init_rel hw [] 1 s (mddi_wait_interrupt hw mask s) :=
  ⟨thread_rel_wait hw mask s, flag_rel_wait hw mask s⟩

theorem init_rel_block (hw : mddi_hw) (s : sys) : init_rel hw [] 1 s (block hw s) :=
  ⟨thread_rel_block hw s, flag_rel_block hw s⟩

theorem init_rel_readl (hw : mddi_hw) (s : sys) : init_rel hw [] 0 s (mddi_readl_STAT s).2 :=
  ⟨thread_rel_readl hw s, flag_rel_readl hw s⟩

/-- The start of one iteration of the inner loop of `mddi_init`: the command, the wait
and the read of `STAT`. -/
theorem rtd_first (hw : mddi_hw) (u : sys) :
    init_rel hw [.CMD .MDDI_CMD_SEND_RTD] 1 u
      (mddi_readl_STAT (mddi_wait_interrupt hw hw.MDDI_INT_NO_CMD_PKTS_PEND
        (u.upd (mddi_writel (.CMD .MDDI_CMD_SEND_RTD))))).2 ∧
    (mddi_readl_STAT (mddi_wait_interrupt hw hw.MDDI_INT_NO_CMD_PKTS_PEND
        (u.upd (mddi_writel (.CMD .MDDI_CMD_SEND_RTD))))).1 = u.STAT.headD 0 ∧
    (mddi_readl_STAT (mddi_wait_interrupt hw hw.MDDI_INT_NO_CMD_PKTS_PEND
        (u.upd (mddi_writel (.CMD .MDDI_CMD_SEND_RTD))))).2.STAT = u.STAT.tail := by
  obtain ⟨r1, -, -, r4⟩ := readl_STAT_eq (mddi_wait_interrupt hw hw.MDDI_INT_NO_CMD_PKTS_PEND
    (u.upd (mddi_writel (.CMD .MDDI_CMD_SEND_RTD))))
  rw [wait_STAT] at r1 r4
  exact ⟨init_rel_trans (init_rel_trans (init_rel_writel hw _ u) (init_rel_wait hw _ _))
    (init_rel_readl hw _), r1, r4⟩

theorem rtd_loop_succ (hw : mddi_hw) (n : Nat) (u : sys) :
    mddi_init_rtd_loop hw (n + 1) u =
      if (mddi_readl_STAT (mddi_wait_interrupt hw hw.MDDI_INT_NO_CMD_PKTS_PEND
          (u.upd (mddi_writel (.CMD .MDDI_CMD_SEND_RTD))))).1 &&& hw.MDDI_STAT_RTD_MEAS_FAIL = 0
      then (mddi_readl_STAT (mddi_wait_interrupt hw hw.MDDI_INT_NO_CMD_PKTS_PEND
          (u.upd (mddi_writel (.CMD .MDDI_CMD_SEND_RTD))))).2
      else mddi_init_rtd_loop hw n (msleep hw
        (mddi_readl_STAT (mddi_wait_interrupt hw hw.MDDI_INT_NO_CMD_PKTS_PEND
          (u.upd (mddi_writel (.CMD .MDDI_CMD_SEND_RTD))))).2) := rfl

theorem rtd_fail (hw : mddi_hw) (n v : Nat) (rest : List Nat) (u : sys)
    (hst : u.STAT = v :: rest) (hv : v &&& hw.MDDI_STAT_RTD_MEAS_FAIL ≠ 0) :
    ∃ u2, mddi_init_rtd_loop hw (n + 1) u = mddi_init_rtd_loop hw n u2 ∧
      init_rel hw [.CMD .MDDI_CMD_SEND_RTD] 2 u u2 ∧ u2.STAT = rest := by
  obtain ⟨h1, h2, h3⟩ := rtd_first hw u
  rw [hst] at h2 h3
  refine ⟨_, ?_, init_rel_trans h1 (init_rel_block hw _), ?_⟩
  · rw [rtd_loop_succ, h2, if_neg (by simpa using hv)]
    rfl
  · show (block hw _).STAT = rest
    rw [block_STAT, h3]; rfl

theorem rtd_pass (hw : mddi_hw) (n v : Nat) (rest : List Nat) (u : sys)
    (hst : u.STAT = v :: rest) (hv : v &&& hw.MDDI_STAT_RTD_MEAS_FAIL = 0) :
    init_rel hw [.CMD .MDDI_CMD_SEND_RTD] 1 u (mddi_init_rtd_loop hw (n + 1) u) := by
  obtain ⟨h1, h2, -⟩ := rtd_first hw u
  rw [hst] at h2
  rw [rtd_loop_succ, h2, if_pos (by simpa using hv)]
  exact h1

/-- The inner loop of `mddi_init` for arbitrary readings of `STAT`: between one and `n`
round-trip-delay commands. -/
theorem rtd_loop_any (hw : mddi_hw) (n : Nat) :
    ∀ u : sys, ∃ j k, (0 < n → 1 ≤ j) ∧ j ≤ n ∧
      init_rel hw (List.replicate j (hw_write.CMD .MDDI_CMD_SEND_RTD)) k u
        (mddi_init_rtd_loop hw n u) := by
  induction n with
  | zero => intro u; exact ⟨0, 0, by simp, by simp, thread_rel_refl hw u, flag_rel_refl hw u⟩
  | succ n ih =>
    intro u
    obtain ⟨h1, -, -⟩ := rtd_first hw u
    rw [rtd_loop_succ]
    split_ifs with hc
    · exact ⟨1, 1, fun _ => le_refl _, by omega, h1⟩
    · obtain ⟨j, k, -, hj, hrel⟩ := ih (msleep hw
        (mddi_readl_STAT (mddi_wait_interrupt hw hw.MDDI_INT_NO_CMD_PKTS_PEND
          (u.upd (mddi_writel (.CMD .MDDI_CMD_SEND_RTD))))).2)
      have := init_rel_trans (init_rel_trans h1 (init_rel_block hw _)) hrel
      refine ⟨1 + j, 1 + 1 + k, fun _ => by omega, by omega, ?_⟩
      rw [List.replicate_add]
      exact this

theorem caps_loop_succ (hw : mddi_hw) (n : Nat) (u : sys) :
    mddi_init_caps_loop hw (n + 1) u =
      if (caps_round hw u).mddi.flags &&& FLAG_HAVE_CAPS ≠ 0 then caps_round hw u
      else mddi_init_caps_loop hw n (caps_round hw u) := rfl

theorem wait_event_cases (hw : mddi_hw) (u : sys) :
    (u.mddi.flags &&& FLAG_HAVE_CAPS ≠ 0 ∧
      wait_event_timeout hw (fun m => m.flags &&& FLAG_HAVE_CAPS ≠ 0) u = u) ∨
    (¬ (u.mddi.flags &&& FLAG_HAVE_CAPS ≠ 0) ∧
      wait_event_timeout hw (fun m => m.flags &&& FLAG_HAVE_CAPS ≠ 0) u = block hw u) := by
  unfold wait_event_timeout
  by_cases h : u.mddi.flags &&& FLAG_HAVE_CAPS ≠ 0
  · exact Or.inl ⟨h, by simp [h]⟩
  · exact Or.inr ⟨h, by simp at h; simp [h]⟩

/-- The first iteration of the outer loop when round-trip-delay measurement fails three
times and then passes, and a capability packet arrives in one of the nine batches of
interrupts up to the test of the flag. -/
theorem caps_round_found (hw : mddi_hw) (s : sys) (a b c d : Nat) (rest : List Nat) (i : Nat)
    (hp : s.mddi.rev_data_curr < hw.MDDI_REV_BUFFER_SIZE)
    (hst : s.STAT = a :: b :: c :: d :: rest)
    (ha : a &&& hw.MDDI_STAT_RTD_MEAS_FAIL ≠ 0) (hb : b &&& hw.MDDI_STAT_RTD_MEAS_FAIL ≠ 0)
    (hc : c &&& hw.MDDI_STAT_RTD_MEAS_FAIL ≠ 0) (hd : d &&& hw.MDDI_STAT_RTD_MEAS_FAIL = 0)
    (hi : i ≤ 8)
    (hcaps : ∀ m : mddi_info, m.rev_data_curr < hw.MDDI_REV_BUFFER_SIZE →
      brings_caps hw m (nth_batch s i m)) :
    (caps_round hw s).mddi.flags &&& FLAG_HAVE_CAPS ≠ 0 ∧
    ∃ k, thread_rel hw [.CMD .MDDI_CMD_SEND_RTD, .CMD .MDDI_CMD_SEND_RTD,
      .CMD .MDDI_CMD_SEND_RTD, .CMD .MDDI_CMD_SEND_RTD, .CMD .CMD_GET_CLIENT_CAP] k s
        (caps_round hw s) := by
  obtain ⟨u1, e1, r1, st1⟩ := rtd_fail hw 3 a _ s hst ha
  obtain ⟨u2, e2, r2, st2⟩ := rtd_fail hw 2 b _ u1 st1 hb
  obtain ⟨u3, e3, r3, st3⟩ := rtd_fail hw 1 c _ u2 st2 hc
  have r4 := rtd_pass hw 0 d _ u3 st3 hd
  have hrtd : init_rel hw [.CMD .MDDI_CMD_SEND_RTD, .CMD .MDDI_CMD_SEND_RTD,
      .CMD .MDDI_CMD_SEND_RTD, .CMD .MDDI_CMD_SEND_RTD] 7 s (mddi_init_rtd_loop hw 4 s) := by
    rw [e1, e2, e3]
    exact init_rel_trans (init_rel_trans (init_rel_trans r1 r2) r3) r4
  have h8 := init_rel_trans (init_rel_trans hrtd
    (init_rel_writel hw (.CMD .CMD_GET_CLIENT_CAP) _)) (init_rel_wait hw
      hw.MDDI_INT_NO_CMD_PKTS_PEND _)
  unfold caps_round
  rcases wait_event_cases hw (mddi_wait_interrupt hw hw.MDDI_INT_NO_CMD_PKTS_PEND
      ((mddi_init_rtd_loop hw 4 s).upd (mddi_writel (.CMD .CMD_GET_CLIENT_CAP)))) with
    ⟨hh, he⟩ | ⟨-, he⟩
  · rw [he]
    exact ⟨hh, _, h8.1⟩
  · rw [he]
    have h9 := init_rel_trans h8 (init_rel_block hw _)
    exact ⟨h9.2.2.2.2.1 hp i (by omega) hcaps, _, h9.1⟩

theorem caps_absent_of_rel (hw : mddi_hw) (k : Nat) (u u2 : sys) (h : flag_rel hw k u u2)
    (ha : caps_absent hw u) : caps_absent hw u2 := by
  obtain ⟨a1, a2, a3⟩ := ha
  refine ⟨h.2.1 a1, h.2.2.2.2 a1 a2 (fun i _ m hm => a3 i m hm), ?_⟩
  intro i m hm
  rw [nth_batch_drop u u2 k i h.1]
  exact a3 _ m hm

/-- One iteration of the outer loop when no capability packet arrives: between one and
four round-trip-delay commands, the capability request, and the flag still clear. -/
theorem caps_round_absent (hw : mddi_hw) (u : sys) (ha : caps_absent hw u) :
    ∃ j k, 1 ≤ j ∧ j ≤ 4 ∧
      thread_rel hw (List.replicate j (hw_write.CMD .MDDI_CMD_SEND_RTD) ++
        [.CMD .CMD_GET_CLIENT_CAP]) k u (caps_round hw u) ∧
      caps_absent hw (caps_round hw u) := by
  obtain ⟨j, k, hj1, hj2, hrtd⟩ := rtd_loop_any hw 4 u
  have h8 := init_rel_trans (init_rel_trans hrtd
    (init_rel_writel hw (.CMD .CMD_GET_CLIENT_CAP) _)) (init_rel_wait hw
      hw.MDDI_INT_NO_CMD_PKTS_PEND _)
  unfold caps_round
  rcases wait_event_cases hw (mddi_wait_interrupt hw hw.MDDI_INT_NO_CMD_PKTS_PEND
      ((mddi_init_rtd_loop hw 4 u).upd (mddi_writel (.CMD .CMD_GET_CLIENT_CAP)))) with
    ⟨hh, -⟩ | ⟨-, he⟩
  · exact absurd hh (caps_absent_of_rel hw _ u _ h8.2 ha).2.1
  · rw [he]
    have h9 := init_rel_trans h8 (init_rel_block hw _)
    refine ⟨j, k + 0 + 1 + 1, hj1 (by omega), hj2, ?_, caps_absent_of_rel hw _ u _ h9.2 ha⟩
    simpa using h9.1

theorem set_auto_hibernate_rel (hw : mddi_hw) (enable : Nat) (u : sys) :
    thread_rel hw [.CMD .MDDI_CMD_POWERDOWN,
      .CMD (.MDDI_CMD_HIBERNATE (if enable ≠ 0 then 1 else 0))] 2 u
      (mddi_set_auto_hibernate hw enable u) := by
  unfold mddi_set_auto_hibernate
  exact thread_rel_trans (thread_rel_trans (thread_rel_trans (thread_rel_writel hw _ u)
    (thread_rel_wait hw _ _)) (thread_rel_writel hw _ _)) (thread_rel_wait hw _ _)

theorem rd16_congr (f g : Nat → Nat) (n j : Nat) (h : ∀ i, i < n → g i = f i)
    (hj : j + 1 < n) : rd16 g j = rd16 f j := by
  unfold rd16
  rw [h j (by omega), h (j + 1) hj]

/-- The interrupt raised for a capability packet of the peer is dispatched as such,
wherever in the ring the cursor stands. -/
theorem peer_event_caps (hw : mddi_hw) (hs : hw_sane hw) (p : Nat) (f : Nat → Nat)
    (hp : p < hw.MDDI_REV_BUFFER_SIZE) (hc : is_caps hw f) :
    ∃ frame, rev_packet hw (peer_event hw p f) p = some frame ∧ is_caps hw frame := by
  obtain ⟨hS, hH, -, ht, -⟩ := hs
  obtain ⟨⟨c1, c2⟩, c3⟩ := hc
  obtain ⟨L, hLdef⟩ : ∃ L, L = rd16 f 0 := ⟨_, rfl⟩
  rw [← hLdef] at c1 c2
  have hring : ∀ i, i < hw.MDDI_REV_BUFFER_SIZE →
      ring_frame hw (peer_event hw p f).mem p i = f i :=
    fun i hi => peer_event_ring hw p i _ hp hi
  have hL : rev_length hw (peer_event hw p f).mem p = L := by
    rw [rev_length_eq_rd16 hw _ p hp hS, hLdef]
    exact rd16_congr _ _ hw.MDDI_REV_BUFFER_SIZE 0 hring (by omega)
  have hfr : ∀ i, i < 2 + L → rev_frame hw (peer_event hw p f) p L i = f i := by
    intro i hi
    rw [rev_frame_bytes hw _ p _ i hp c2 hS hi, hring i (by omega)]
  refine ⟨rev_frame hw (peer_event hw p f) p L, ?_, ⟨?_, ?_⟩, ?_⟩
  · unfold rev_packet
    rw [hL, if_neg (by simp [peer_event]), if_neg (by omega)]
  · rw [rd16_congr _ _ (2 + L) 0 hfr (by omega), ← hLdef]
    exact c1
  · rw [rd16_congr _ _ (2 + L) 0 hfr (by omega), ← hLdef]
    exact c2
  · rw [rd16_congr _ _ (2 + L) _ hfr (by omega)]
    exact c3

theorem caps_peer_brings (hw : mddi_hw) (hs : hw_sane hw) (hc : is_caps hw (caps_frame hw))
    (m : mddi_info) (hm : m.rev_data_curr < hw.MDDI_REV_BUFFER_SIZE) :
    brings_caps hw m (caps_peer hw m) := by
  obtain ⟨frame, f1, f2⟩ := peer_event_caps hw hs m.rev_data_curr _ hm hc
  exact ⟨[], _, [], frame, rfl, f1, f2⟩

theorem nth_batch_no_caps (hw : mddi_hw) (s : sys)
    (h : ∀ f ∈ s.waits, ∀ m : mddi_info, m.rev_data_curr < hw.MDDI_REV_BUFFER_SIZE →
      no_caps hw m (f m)) (i : Nat) (m : mddi_info)
    (hm : m.rev_data_curr < hw.MDDI_REV_BUFFER_SIZE) : no_caps hw m (nth_batch s i m) := by
  unfold nth_batch
  cases hd : s.waits.drop i with
  | nil => trivial
  | cons f rest =>
    have : f ∈ s.waits := List.mem_of_mem_drop (by rw [hd]; exact List.mem_cons_self _ _)
    exact h f this m hm

/-- The publication of the client device (lines 655-681) from the state `u`. -/
theorem publish_frame (u : sys) :
    (sys.upd (fun m =>
        { m with ext_log := m.ext_log ++ [.platform_device_register_client m.caps] })
      (if u.mddi.mddi_enable then
        u.upd fun m => { m with ext_log := m.ext_log ++ [.mddi_enable 1] } else u)).mddi.hw_log
      = u.mddi.hw_log ∧
    (sys.upd (fun m =>
        { m with ext_log := m.ext_log ++ [.platform_device_register_client m.caps] })
      (if u.mddi.mddi_enable then
        u.upd fun m => { m with ext_log := m.ext_log ++ [.mddi_enable 1] } else u)).mddi.ext_log
      = u.mddi.ext_log ++ (if u.mddi.mddi_enable then [.mddi_enable 1] else []) ++
        [.platform_device_register_client u.mddi.caps] ∧
    (sys.upd (fun m =>
        { m with ext_log := m.ext_log ++ [.platform_device_register_client m.caps] })
      (if u.mddi.mddi_enable then
        u.upd fun m => { m with ext_log := m.ext_log ++ [.mddi_enable 1] } else u)).mddi.caps
      = u.mddi.caps := by
  cases h : u.mddi.mddi_enable <;> simp [sys.upd]

theorem detect_found (hw : mddi_hw) (pd : msm_mddi_platform_data) (s : sys)
    (h : (mddi_init_caps_loop hw 3 s).mddi.flags &&& FLAG_HAVE_CAPS ≠ 0) :
    mddi_init_detect hw (some pd) s = .ok (0, sys.upd (fun m =>
        { m with ext_log := m.ext_log ++ [.platform_device_register_client m.caps] })
      (if ((mddi_set_auto_hibernate hw 1 (mddi_init_caps_loop hw 3 s)).upd
          (set_panel_fb pd)).mddi.mddi_enable then
        ((mddi_set_auto_hibernate hw 1 (mddi_init_caps_loop hw 3 s)).upd (set_panel_fb pd)).upd
          fun m => { m with ext_log := m.ext_log ++ [.mddi_enable 1] }
        else (mddi_set_auto_hibernate hw 1 (mddi_init_caps_loop hw 3 s)).upd
          (set_panel_fb pd))) := by
  unfold mddi_init_detect
  dsimp only
  rw [if_pos h]

/-- With a null `pd` and the capability flag set, the detection part stops at line 663,
after the auto-hibernate commands. -/
theorem detect_fault (hw : mddi_hw) (s : sys)
    (h : (mddi_init_caps_loop hw 3 s).mddi.flags &&& FLAG_HAVE_CAPS ≠ 0) :
    mddi_init_detect hw none s =
      .error (mddi_set_auto_hibernate hw 1 (mddi_init_caps_loop hw 3 s)) := by
  unfold mddi_init_detect
  dsimp only
  rw [if_pos h]

theorem detect_absent (hw : mddi_hw) (pd : Option msm_mddi_platform_data) (s : sys)
    (h : ¬ ((mddi_init_caps_loop hw 3 s).mddi.flags &&& FLAG_HAVE_CAPS ≠ 0)) :
    mddi_init_detect hw pd s = .ok (0, msleep hw
      ((mddi_init_caps_loop hw 3 s).upd (mddi_writel (.CMD .MDDI_CMD_POWERDOWN)))) := by
  unfold mddi_init_detect
  dsimp only
  rw [if_neg h]

theorem powerdown_rel (hw : mddi_hw) (u : sys) :
    thread_rel hw [.CMD .MDDI_CMD_POWERDOWN] 1 u
      (msleep hw (u.upd (mddi_writel (.CMD .MDDI_CMD_POWERDOWN)))) :=
  thread_rel_trans (thread_rel_writel hw _ u) (thread_rel_block hw _)

theorem no_events_no_caps (hw : mddi_hw) (m : mddi_info) : no_caps hw m (no_events m) :=
  True.intro

/-- A matching in-range register-access frame completes the pending registration. -/
theorem handle_rev_data_match (hw : mddi_hw) (hs : hw_sane hw) (rev : Nat → Nat)
    (m : mddi_info) (r : Nat)
    (hlen : length_in_range hw (rd16 rev 0))
    (htype : rd16 rev hw.offsetof_type = hw.TYPE_REGISTER_ACCESS)
    (hpend : m.reg_read = some r)
    (hreg : rd32 rev hw.offsetof_register_address = (m.ri r).reg) :
    (mddi_handle_rev_data hw rev m).reg_read = none ∧
    ((mddi_handle_rev_data hw rev m).ri r).status = 0 ∧
    ((mddi_handle_rev_data hw rev m).ri r).result = rd32 rev hw.offsetof_register_data_list ∧
    ((mddi_handle_rev_data hw rev m).ri r).done = (m.ri r).done + 1 ∧
    ((mddi_handle_rev_data hw rev m).ri r).reg = (m.ri r).reg ∧
    ∀ q, q ≠ r → (mddi_handle_rev_data hw rev m).ri q = m.ri q := by
  rw [handle_rev_data_reg hw hs rev m hlen htype]
  obtain ⟨h1, h2⟩ := rev_register_access_match hw rev
    { m with rev_log := m.rev_log ++ [rev] } r hpend hreg
  rw [h1, h2]
  refine ⟨rfl, by simp, by simp, by simp, by simp, ?_⟩
  intro q hq
  simp [Function.update_noteq hq]

/-- C1. For every ring content, every cursor `p` inside the ring and every packet whose
length `L` is in range, the frame handed to `mddi_handle_rev_data` has byte `i` equal to
`ring[(p + i) mod S]` for every `i < 2 + L`; and the same packet placed where it does not
wrap is dispatched with the same `2 + L` bytes. -/
theorem C1_wrapped_packet_reassembled (hw : mddi_hw) (ev : rev_event) (m : mddi_info)
    (hS : 2 ≤ hw.MDDI_REV_BUFFER_SIZE)
    (hp : m.rev_data_curr < hw.MDDI_REV_BUFFER_SIZE) (hcnt : ev.REV_PKT_CNT ≠ 0)
    (hlen : length_in_range hw (rev_length hw ev.mem m.rev_data_curr)) :
    ∃ frame : Nat → Nat,
      (mddi_handle_rev_data_avail hw ev m).rev_log = m.rev_log ++ [frame] ∧
      (∀ i, i < 2 + rev_length hw ev.mem m.rev_data_curr →
        frame i = ev.mem ((m.rev_data_curr + i) % hw.MDDI_REV_BUFFER_SIZE)) ∧
      (∀ (ev2 : rev_event) (m2 : mddi_info), ev2.REV_PKT_CNT ≠ 0 →
        m2.rev_data_curr + 2 + rev_length hw ev.mem m.rev_data_curr
          < hw.MDDI_REV_BUFFER_SIZE →
        (∀ i, i < 2 + rev_length hw ev.mem m.rev_data_curr →
          ev2.mem (m2.rev_data_curr + i) =
            ev.mem ((m.rev_data_curr + i) % hw.MDDI_REV_BUFFER_SIZE)) →
        ∃ frame2 : Nat → Nat,
          (mddi_handle_rev_data_avail hw ev2 m2).rev_log = m2.rev_log ++ [frame2] ∧
          ∀ i, i < 2 + rev_length hw ev.mem m.rev_data_curr → frame2 i = frame i) := by
  refine ⟨rev_frame hw ev m.rev_data_curr (rev_length hw ev.mem m.rev_data_curr),
    avail_rev_log hw ev m hcnt hlen.2,
    fun i hi => rev_frame_bytes hw ev _ _ i hp hlen.2 hS hi, ?_⟩
  intro ev2 m2 hcnt2 hfit hsame
  have hp2 : m2.rev_data_curr < hw.MDDI_REV_BUFFER_SIZE := by omega
  have hL : rev_length hw ev2.mem m2.rev_data_curr = rev_length hw ev.mem m.rev_data_curr := by
    rw [rev_length_eq_rd16 hw ev.mem _ hp hS]
    unfold rev_length rd16 ring_frame
    have h0 := hsame 0 (by omega)
    have h1 := hsame 1 (by omega)
    have hne : ¬ m2.rev_data_curr + 1 = hw.MDDI_REV_BUFFER_SIZE := by omega
    simp only [hne, if_false, Nat.add_zero, Nat.zero_add] at h0 ⊢
    rw [h0, h1]
    omega
  refine ⟨rev_frame hw ev2 m2.rev_data_curr (rev_length hw ev2.mem m2.rev_data_curr),
    avail_rev_log hw ev2 m2 hcnt2 (by rw [hL]; exact hlen.2), ?_⟩
  intro i hi
  rw [rev_frame_bytes hw ev _ _ i hp hlen.2 hS hi,
    rev_frame_bytes hw ev2 _ _ i hp2 (by rw [hL]; exact hlen.2) hS (by rw [hL]; exact hi)]
  unfold ring_frame
  rw [Nat.mod_eq_of_lt (by omega)]
  exact hsame i hi

/-- C1, instantiated: a register-access reply of length 16 whose length bytes straddle the
end of a 256-byte ring (cursor 255). -/
theorem C1_wrapped_packet_reassembled_witness :
    ∃ frame : Nat → Nat,
      (mddi_handle_rev_data_avail sample_hw (peer_event sample_hw 255 (reg_frame sample_hw 7 9))
          (sample_info 255 none)).rev_log = (sample_info 255 none).rev_log ++ [frame] ∧
      (∀ i, i < 2 + rev_length sample_hw (peer_event sample_hw 255 (reg_frame sample_hw 7 9)).mem
            (sample_info 255 none).rev_data_curr →
        frame i = (peer_event sample_hw 255 (reg_frame sample_hw 7 9)).mem
          (((sample_info 255 none).rev_data_curr + i) % sample_hw.MDDI_REV_BUFFER_SIZE)) ∧
      (∀ (ev2 : rev_event) (m2 : mddi_info), ev2.REV_PKT_CNT ≠ 0 →
        m2.rev_data_curr + 2 + rev_length sample_hw (peer_event sample_hw 255 (reg_frame sample_hw 7 9)).mem
            (sample_info 255 none).rev_data_curr < sample_hw.MDDI_REV_BUFFER_SIZE →
        (∀ i, i < 2 + rev_length sample_hw (peer_event sample_hw 255 (reg_frame sample_hw 7 9)).mem
              (sample_info 255 none).rev_data_curr →
          ev2.mem (m2.rev_data_curr + i) = (peer_event sample_hw 255 (reg_frame sample_hw 7 9)).mem
            (((sample_info 255 none).rev_data_curr + i) % sample_hw.MDDI_REV_BUFFER_SIZE)) →
        ∃ frame2 : Nat → Nat,
          (mddi_handle_rev_data_avail sample_hw ev2 m2).rev_log = m2.rev_log ++ [frame2] ∧
          ∀ i, i < 2 + rev_length sample_hw (peer_event sample_hw 255 (reg_frame sample_hw 7 9)).mem
              (sample_info 255 none).rev_data_curr → frame2 i = frame i) :=
  C1_wrapped_packet_reassembled sample_hw (peer_event sample_hw 255 (reg_frame sample_hw 7 9)) (sample_info 255 none)
    (by decide) (by decide) (by decide) (by decide)

/-- C2. For a sequence of handler invocations starting at a cursor inside the ring, each
with a nonzero packet count and finding at the current cursor a packet with in-range
length and known type: after every prefix of the sequence the cursor is the start cursor
plus the sum of `2 + L_i` of the packets handled so far, modulo the ring size, it stays
inside the ring, and no resynchronisation (no `FORCE_NEW_REV_PTR` command) has occurred. -/
theorem C2_cursor_stays_in_sync (hw : mddi_hw) (hs : hw_sane hw) (evs : List rev_event)
    (m : mddi_info) (hp : m.rev_data_curr < hw.MDDI_REV_BUFFER_SIZE)
    (hb : back_to_back hw m.rev_data_curr evs) (k : Nat) :
    (run_events hw (evs.take k) m).rev_data_curr =
      (m.rev_data_curr + stream_bytes hw m.rev_data_curr (evs.take k)) %
        hw.MDDI_REV_BUFFER_SIZE ∧
    (run_events hw (evs.take k) m).rev_data_curr < hw.MDDI_REV_BUFFER_SIZE ∧
    hw_write.CMD .MDDI_CMD_FORCE_NEW_REV_PTR ∉ new_writes m (run_events hw (evs.take k) m) := by
  obtain ⟨h1, t, h2, h3⟩ :=
    run_events_back_to_back hw hs (evs.take k) m hp (back_to_back_take hw evs _ k hb)
  have hS : 0 < hw.MDDI_REV_BUFFER_SIZE := by have := hs.1; omega
  refine ⟨h1, by rw [h1]; exact Nat.mod_lt _ hS, ?_⟩
  unfold new_writes
  rw [h2, List.drop_left]
  exact h3

/-- C2, instantiated: two packets from cursor 250 of a 256-byte ring, the first wrapping
past the end; the cursor ends at 250 + 18 + 8 - 256 = 20. -/
theorem C2_cursor_stays_in_sync_witness :
    (hw_sane sample_hw ∧
      (sample_info 250 none).rev_data_curr < sample_hw.MDDI_REV_BUFFER_SIZE ∧
      back_to_back sample_hw (sample_info 250 none).rev_data_curr sample_stream) ∧
    (run_events sample_hw (sample_stream.take 2) (sample_info 250 none)).rev_data_curr = 20 :=
  ⟨⟨by decide, by decide, by decide, by decide, by decide, by decide, by decide, by decide,
      True.intro⟩,
    (C2_cursor_stays_in_sync sample_hw (by decide) sample_stream (sample_info 250 none)
      (by decide) ⟨by decide, by decide, by decide, by decide, by decide, by decide,
        True.intro⟩ 2).1.trans (by decide)⟩

/-- C3. When `mddi_handle_rev_data` receives an in-range REGISTER_ACCESS frame while a
read is pending and the frame's register address equals the pending registration's `reg`,
then afterwards the pending slot is empty, the registration's status is 0, its result is
the frame's `register_data_list`, and its completion has been signalled exactly once
(the counter went up by one); no other registration object is touched. -/
theorem C3_matching_reply_completes (hw : mddi_hw) (hs : hw_sane hw) (rev : Nat → Nat)
    (m : mddi_info) (r : Nat)
    (hlen : length_in_range hw (rd16 rev 0))
    (htype : rd16 rev hw.offsetof_type = hw.TYPE_REGISTER_ACCESS)
    (hpend : m.reg_read = some r)
    (hreg : rd32 rev hw.offsetof_register_address = (m.ri r).reg) :
    (mddi_handle_rev_data hw rev m).reg_read = none ∧
    ((mddi_handle_rev_data hw rev m).ri r).status = 0 ∧
    ((mddi_handle_rev_data hw rev m).ri r).result = rd32 rev hw.offsetof_register_data_list ∧
    ((mddi_handle_rev_data hw rev m).ri r).done = (m.ri r).done + 1 ∧
    ((mddi_handle_rev_data hw rev m).ri r).reg = (m.ri r).reg ∧
    ∀ q, q ≠ r → (mddi_handle_rev_data hw rev m).ri q = m.ri q :=
  handle_rev_data_match hw hs rev m r hlen htype hpend hreg

/-- C3, instantiated: the reply for register 7 with data 9 while a read of register 7 is
pending at address 3. -/
theorem C3_matching_reply_completes_witness :
    (hw_sane sample_hw ∧ length_in_range sample_hw (rd16 (reg_frame sample_hw 7 9) 0) ∧
      rd16 (reg_frame sample_hw 7 9) sample_hw.offsetof_type = sample_hw.TYPE_REGISTER_ACCESS ∧
      (sample_info 0 (some 3)).reg_read = some 3 ∧
      rd32 (reg_frame sample_hw 7 9) sample_hw.offsetof_register_address =
        ((sample_info 0 (some 3)).ri 3).reg) ∧
    (mddi_handle_rev_data sample_hw (reg_frame sample_hw 7 9) (sample_info 0 (some 3))).reg_read
      = none ∧
    ((mddi_handle_rev_data sample_hw (reg_frame sample_hw 7 9) (sample_info 0 (some 3))).ri 3).result
      = 9 :=
  have h := C3_matching_reply_completes sample_hw (by decide) (reg_frame sample_hw 7 9)
    (sample_info 0 (some 3)) 3 (by decide) (by decide) rfl (by decide)
  ⟨⟨by decide, by decide, by decide, rfl, by decide⟩, h.1, by rw [h.2.2.1]; decide⟩

/-- C4. A REGISTER_ACCESS reply whose register address differs from the pending
registration's `reg` is dropped: the slot still holds the same registration and no
registration object changes (status, result and completion counter included); a later
reply whose address matches completes that registration with the later reply's value.
A reply arriving while no read is pending leaves the slot, the registration objects, the
capability and status snapshots and the flags unchanged. -/
theorem C4_mismatched_reply_dropped (hw : mddi_hw) (hs : hw_sane hw) (rev rev2 : Nat → Nat)
    (m : mddi_info) (r : Nat)
    (hlen : length_in_range hw (rd16 rev 0))
    (htype : rd16 rev hw.offsetof_type = hw.TYPE_REGISTER_ACCESS)
    (hlen2 : length_in_range hw (rd16 rev2 0))
    (htype2 : rd16 rev2 hw.offsetof_type = hw.TYPE_REGISTER_ACCESS)
    (hpend : m.reg_read = some r)
    (hne : rd32 rev hw.offsetof_register_address ≠ (m.ri r).reg)
    (heq2 : rd32 rev2 hw.offsetof_register_address = (m.ri r).reg) :
    ((mddi_handle_rev_data hw rev m).reg_read = some r ∧
      (mddi_handle_rev_data hw rev m).ri = m.ri) ∧
    ((mddi_handle_rev_data hw rev2 (mddi_handle_rev_data hw rev m)).reg_read = none ∧
      ((mddi_handle_rev_data hw rev2 (mddi_handle_rev_data hw rev m)).ri r).status = 0 ∧
      ((mddi_handle_rev_data hw rev2 (mddi_handle_rev_data hw rev m)).ri r).result =
        rd32 rev2 hw.offsetof_register_data_list ∧
      ((mddi_handle_rev_data hw rev2 (mddi_handle_rev_data hw rev m)).ri r).done =
        (m.ri r).done + 1) ∧
    (∀ m0 : mddi_info, m0.reg_read = none →
      (mddi_handle_rev_data hw rev m0).reg_read = none ∧
      (mddi_handle_rev_data hw rev m0).ri = m0.ri ∧
      (mddi_handle_rev_data hw rev m0).caps = m0.caps ∧
      (mddi_handle_rev_data hw rev m0).status = m0.status ∧
      (mddi_handle_rev_data hw rev m0).flags = m0.flags) := by
  have e1 : mddi_handle_rev_data hw rev m = { m with rev_log := m.rev_log ++ [rev] } := by
    rw [handle_rev_data_reg hw hs rev m hlen htype]
    exact rev_register_access_mismatch hw rev _ r hpend hne
  refine ⟨by rw [e1]; exact ⟨hpend, rfl⟩, ?_, ?_⟩
  · have h := handle_rev_data_match hw hs rev2 (mddi_handle_rev_data hw rev m) r hlen2
      htype2 (by rw [e1]; exact hpend) (by rw [e1]; exact heq2)
    refine ⟨h.1, h.2.1, h.2.2.1, ?_⟩
    rw [h.2.2.2.1, e1]
  · intro m0 h0
    rw [handle_rev_data_reg hw hs rev m0 hlen htype,
      rev_register_access_idle hw rev { m0 with rev_log := m0.rev_log ++ [rev] } h0]
    exact ⟨h0, rfl, rfl, rfl, rfl⟩

/-- C4, instantiated: while a read of register 7 is pending at address 3, a reply for
register 8 is dropped and the following reply for register 7 completes the read with 9. -/
theorem C4_mismatched_reply_dropped_witness :
    (hw_sane sample_hw ∧ length_in_range sample_hw (rd16 (reg_frame sample_hw 8 1) 0) ∧
      rd16 (reg_frame sample_hw 8 1) sample_hw.offsetof_type = sample_hw.TYPE_REGISTER_ACCESS ∧
      length_in_range sample_hw (rd16 (reg_frame sample_hw 7 9) 0) ∧
      rd16 (reg_frame sample_hw 7 9) sample_hw.offsetof_type = sample_hw.TYPE_REGISTER_ACCESS ∧
      (sample_info 0 (some 3)).reg_read = some 3 ∧
      rd32 (reg_frame sample_hw 8 1) sample_hw.offsetof_register_address ≠
        ((sample_info 0 (some 3)).ri 3).reg ∧
      rd32 (reg_frame sample_hw 7 9) sample_hw.offsetof_register_address =
        ((sample_info 0 (some 3)).ri 3).reg) ∧
    (mddi_handle_rev_data sample_hw (reg_frame sample_hw 8 1)
      (sample_info 0 (some 3))).reg_read = some 3 ∧
    ((mddi_handle_rev_data sample_hw (reg_frame sample_hw 7 9)
      (mddi_handle_rev_data sample_hw (reg_frame sample_hw 8 1)
        (sample_info 0 (some 3)))).ri 3).result = 9 :=
  have h := C4_mismatched_reply_dropped sample_hw (by decide) (reg_frame sample_hw 8 1)
    (reg_frame sample_hw 7 9) (sample_info 0 (some 3)) 3 (by decide) (by decide) (by decide)
    (by decide) rfl (by decide) (by decide)
  ⟨⟨by decide, by decide, by decide, by decide, by decide, rfl, by decide, by decide⟩,
    h.1.1, h.2.1.2.2.1.trans (by decide)⟩

/-- C10. For an invocation of `mddi_handle_rev_data_avail` with nonzero packet count and
zero CRC-error count, resynchronisation is performed exactly when the length of the packet
at the cursor is outside `[sizeof(struct mddi_rev_packet) - 2, S - 2]` or its type is none
of the three known ones; in that case the cursor ends at 0, the writes made are the
interrupt acknowledgement, the ring base to `REV_PTR` twice and then `FORCE_NEW_REV_PTR`
to `CMD`, and the pending-read slot, the registration objects, the snapshots and the
flags are unchanged.  The debug `memset` that follows the dispatch (lines 304-307) runs
after the cursor has been reset: it stays inside the ring unless debug bit 2 is set, the
cursor stood past the ring start and the packet did not reach the ring end; in that case
its length is `0 - prev_offset`, and it writes past the end of the ring. -/
theorem C10_resync_debug_memset_overruns (hw : mddi_hw) (hs : hw_sane hw) (ev : rev_event)
    (m : mddi_info) (hp : m.rev_data_curr < hw.MDDI_REV_BUFFER_SIZE)
    (hcnt : ev.REV_PKT_CNT ≠ 0) (hcrc : ev.REV_CRC_ERR = 0) :
    (hw_write.CMD .MDDI_CMD_FORCE_NEW_REV_PTR ∈
        new_writes m (mddi_handle_rev_data_avail hw ev m) ↔
      ¬ (length_in_range hw (rev_length hw ev.mem m.rev_data_curr) ∧
        known_type hw (rd16 (ring_frame hw ev.mem m.rev_data_curr) hw.offsetof_type))) ∧
    (¬ (length_in_range hw (rev_length hw ev.mem m.rev_data_curr) ∧
        known_type hw (rd16 (ring_frame hw ev.mem m.rev_data_curr) hw.offsetof_type)) →
      (mddi_handle_rev_data_avail hw ev m).rev_data_curr = 0 ∧
      new_writes m (mddi_handle_rev_data_avail hw ev m) =
        [.INT hw.MDDI_INT_REV_DATA_AVAIL, .REV_PTR m.rev_addr, .REV_PTR m.rev_addr,
          .CMD .MDDI_CMD_FORCE_NEW_REV_PTR] ∧
      (mddi_handle_rev_data_avail hw ev m).reg_read = m.reg_read ∧
      (mddi_handle_rev_data_avail hw ev m).ri = m.ri ∧
      (mddi_handle_rev_data_avail hw ev m).caps = m.caps ∧
      (mddi_handle_rev_data_avail hw ev m).status = m.status ∧
      (mddi_handle_rev_data_avail hw ev m).flags = m.flags ∧
      (¬ (m.mddi_debug_flags &&& 2 ≠ 0 ∧ 0 < m.rev_data_curr ∧
          m.rev_data_curr + 2 + rev_length hw ev.mem m.rev_data_curr
            < hw.MDDI_REV_BUFFER_SIZE) →
        (mddi_handle_rev_data_avail hw ev m).mem_fault = m.mem_fault) ∧
      (hw.MDDI_REV_BUFFER_SIZE < 2 ^ 32 → m.mddi_debug_flags &&& 2 ≠ 0 →
        0 < m.rev_data_curr →
        m.rev_data_curr + 2 + rev_length hw ev.mem m.rev_data_curr
          < hw.MDDI_REV_BUFFER_SIZE →
        (mddi_handle_rev_data_avail hw ev m).mem_fault = true)) := by
  have hbadcase : ¬ (length_in_range hw (rev_length hw ev.mem m.rev_data_curr) ∧
        known_type hw (rd16 (ring_frame hw ev.mem m.rev_data_curr) hw.offsetof_type)) →
      (mddi_handle_rev_data_avail hw ev m).rev_data_curr = 0 ∧
      new_writes m (mddi_handle_rev_data_avail hw ev m) =
        [.INT hw.MDDI_INT_REV_DATA_AVAIL, .REV_PTR m.rev_addr, .REV_PTR m.rev_addr,
          .CMD .MDDI_CMD_FORCE_NEW_REV_PTR] ∧
      (mddi_handle_rev_data_avail hw ev m).reg_read = m.reg_read ∧
      (mddi_handle_rev_data_avail hw ev m).ri = m.ri ∧
      (mddi_handle_rev_data_avail hw ev m).caps = m.caps ∧
      (mddi_handle_rev_data_avail hw ev m).status = m.status ∧
      (mddi_handle_rev_data_avail hw ev m).flags = m.flags := by
    intro hbad
    obtain ⟨h1, h2, h3, h4, h5, h6, h7⟩ := avail_bad_step hw ev m hs hp hcnt hbad
    refine ⟨h1, ?_, ?_, ?_, h5, h6, h7⟩
    · unfold new_writes
      rw [h2, List.drop_left]
    · rw [h3, rev_entry_quiet hw ev m hcrc]; rfl
    · rw [h4, rev_entry_quiet hw ev m hcrc]; rfl
  refine ⟨⟨?_, ?_⟩, fun hbad => ?_⟩
  · intro hmem hgood
    obtain ⟨-, hlog⟩ := avail_good_step hw ev m hs hp hcnt hgood.1 hgood.2
    unfold new_writes at hmem
    rcases hlog with hlog | hlog <;> rw [hlog, List.drop_left] at hmem <;> simp at hmem
  · intro hbad
    rw [(hbadcase hbad).2.1]
    simp
  · obtain ⟨g1, g2, g3, g4, g5, g6, g7⟩ := hbadcase hbad
    obtain ⟨f1, f2⟩ := avail_bad_fault hw ev m hs hp hcnt hbad
    exact ⟨g1, g2, g3, g4, g5, g6, g7, f1, f2⟩

/-- C10, instantiated: debug bit 2 is set, the cursor stands at 5, and a packet count of
one is reported while the ring holds only zeros, so that the length read at the cursor is
0, below the minimum of 4.  The handler resynchronises, and the debug `memset` is asked
for `2 ^ 32 - 5` bytes from offset 5 of the 256-byte ring. -/
theorem C10_resync_debug_memset_overruns_witness :
    (hw_sane sample_hw ∧
      (sample_debug_info 5).rev_data_curr < sample_hw.MDDI_REV_BUFFER_SIZE ∧
      zero_event.REV_PKT_CNT ≠ 0 ∧ zero_event.REV_CRC_ERR = 0 ∧
      ¬ (length_in_range sample_hw (rev_length sample_hw zero_event.mem 5) ∧
        known_type sample_hw
          (rd16 (ring_frame sample_hw zero_event.mem 5) sample_hw.offsetof_type)) ∧
      sample_hw.MDDI_REV_BUFFER_SIZE < 2 ^ 32 ∧ (sample_debug_info 5).mddi_debug_flags &&& 2 ≠ 0 ∧
      0 < (sample_debug_info 5).rev_data_curr ∧
      (sample_debug_info 5).rev_data_curr + 2 + rev_length sample_hw zero_event.mem 5
        < sample_hw.MDDI_REV_BUFFER_SIZE) ∧
    hw_write.CMD .MDDI_CMD_FORCE_NEW_REV_PTR ∈
      new_writes (sample_debug_info 5)
        (mddi_handle_rev_data_avail sample_hw zero_event (sample_debug_info 5)) ∧
    (mddi_handle_rev_data_avail sample_hw zero_event (sample_debug_info 5)).rev_data_curr = 0 ∧
    (mddi_handle_rev_data_avail sample_hw zero_event (sample_debug_info 5)).mem_fault = true :=
  have h := C10_resync_debug_memset_overruns sample_hw (by decide) zero_event
    (sample_debug_info 5) (by decide) (by decide) (by decide)
  ⟨⟨by decide, by decide, by decide, by decide, by decide, by decide, by decide, by decide,
      by decide⟩,
    h.1.2 (by decide), (h.2 (by decide)).1,
    (h.2 (by decide)).2.2.2.2.2.2.2.2 (by decide) (by decide) (by decide) (by decide)⟩

/-- C5. When `mddi_handle_rev_data_avail` runs with a nonzero CRC-error count while a
read is pending, the pending slot is cleared, the registration's status is `-EIO`, its
result is `0xFFFFFFFF`, and its completion is signalled once; this status differs from
the one `mddi_remote_read` records for an attempt that timed out, which is `-1`. -/
theorem C5_crc_error_fails_pending_read (hw : mddi_hw) (hs : hw_sane hw) (ev : rev_event)
    (m : mddi_info) (r : Nat) (hcrc : ev.REV_CRC_ERR ≠ 0) (hpend : m.reg_read = some r) :
    (mddi_handle_rev_data_avail hw ev m).reg_read = none ∧
    ((mddi_handle_rev_data_avail hw ev m).ri r).status = neg32 hw.EIO ∧
    ((mddi_handle_rev_data_avail hw ev m).ri r).result = 0xFFFFFFFF ∧
    ((mddi_handle_rev_data_avail hw ev m).ri r).done = (m.ri r).done + 1 ∧
    (∀ m0 : mddi_info, ((read_timeout r m0).ri r).status = 0xFFFFFFFF ∧
      ((read_timeout r m0).ri r).status ≠ ((mddi_handle_rev_data_avail hw ev m).ri r).status) := by
  obtain ⟨h1, h2⟩ := rev_entry_crc hw ev m r hcrc hpend
  obtain ⟨h3, h4⟩ := avail_after_entry hw ev m h1
  have hE : neg32 hw.EIO ≠ 0xFFFFFFFF := by
    obtain ⟨-, -, -, -, -, -, -, -, e1, e2⟩ := hs
    unfold neg32
    omega
  rw [h4, h2]
  refine ⟨h3, by simp, by simp [neg32], by simp, ?_⟩
  intro m0
  have e : ((read_timeout r m0).ri r).status = 0xFFFFFFFF := by
    simp [read_timeout, ri_set_status, ri_set_result, neg32]
  refine ⟨e, ?_⟩
  rw [e]
  simpa using Ne.symm hE

/-- C5, instantiated: a CRC error reported together with one packet while the read at
address 3 is pending. -/
theorem C5_crc_error_fails_pending_read_witness :
    (hw_sane sample_hw ∧ (1 : Nat) ≠ 0 ∧ (sample_info 0 (some 3)).reg_read = some 3) ∧
    ((mddi_handle_rev_data_avail sample_hw
        { mem := fun _ => 0, REV_PKT_CNT := 1, REV_CRC_ERR := 1, stack := fun _ => 0 }
        (sample_info 0 (some 3))).ri 3).status = 0xFFFFFFFB :=
  ⟨⟨by decide, by decide, rfl⟩,
    (C5_crc_error_fails_pending_read sample_hw (by decide)
      { mem := fun _ => 0, REV_PKT_CNT := 1, REV_CRC_ERR := 1, stack := fun _ => 0 }
      (sample_info 0 (some 3)) 3 (by decide) rfl).2.1.trans (by decide)⟩

/-- C8. With a simulated peer that records the address and data of each submitted write
descriptor and answers each submitted read descriptor with a REGISTER_ACCESS reply
carrying the descriptor's register address and the value last written to it,
`mddi_remote_write(val, reg)` followed immediately by `mddi_remote_read(reg)` returns
`val`, for every 32-bit `reg` and `val`.  The peer acts during the wait of the write and
the first wait of the read; whatever interrupts come later do not change the result. -/
theorem C8_write_then_read_returns_value (hw : mddi_hw) (hs : hw_sane hw)
    (hl : reg_layout_ok hw) (val reg r : Nat) (s : sys)
    (rest : List (mddi_info → List rev_event))
    (hval : val < 2 ^ 32) (hreg : reg < 2 ^ 32)
    (hp : s.mddi.rev_data_curr < hw.MDDI_REV_BUFFER_SIZE)
    (henv : s.waits = echo_peer hw :: echo_peer hw :: rest) :
    (mddi_remote_read hw reg r (mddi_remote_write hw val reg s)).1 = val := by
  have hv : val % 2 ^ 32 = val := Nat.mod_eq_of_lt hval
  have hr : reg % 2 ^ 32 = reg := Nat.mod_eq_of_lt hreg
  obtain ⟨w1, w2⟩ := echo_peer_after_write hw hl val reg s.mddi
  have hwrite : (mddi_remote_write hw val reg s).mddi = write_armed hw val reg s.mddi ∧
      (mddi_remote_write hw val reg s).waits = echo_peer hw :: rest := by
    have e : mddi_remote_write hw val reg s =
        block hw ⟨write_armed hw val reg s.mddi, s.waits, s.STAT, s.slept⟩ := rfl
    rw [e, block_eq]
    simp [next_batch, henv, w1, run_events_nil]
  obtain ⟨s1, hs1⟩ : ∃ s1, s1 = mddi_remote_write hw val reg s := ⟨_, rfl⟩
  rw [← hs1] at hwrite ⊢
  obtain ⟨hm1, hw1⟩ := hwrite
  obtain ⟨p1, p2, p3, p4, p5, p6⟩ := read_prepared_frame hw reg r s1
  obtain ⟨a1, a2, a3⟩ := read_armed_frame hw r (read_prepared hw reg r s1).mddi
  have hd : (read_prepared hw reg r s1).mddi.reg_read_data =
      read_llentry hw reg (read_prepared hw reg r s1).mddi.reg_read_data := by
    rw [p5]; rfl
  have hcur : (read_prepared hw reg r s1).mddi.rev_data_curr < hw.MDDI_REV_BUFFER_SIZE := by
    rw [p3, hm1]; exact hp
  have hb0 : next_batch (read_prepared hw reg r s1) = echo_peer hw := by
    unfold next_batch; rw [p2, hw1]; rfl
  obtain ⟨frame, f1, f2, f3⟩ := peer_event_reply hw hs hl _ reg val hcur hreg hval
  have hans : answered hw r val (attempt_sleep hw r (read_prepared hw reg r s1)).1
      (attempt_sleep hw r (read_prepared hw reg r s1)).2 := by
    unfold attempt_sleep
    dsimp only
    rw [hb0, echo_peer_after_read hw reg r _ hd, p6, hm1, hr]
    rw [hr] at w2
    rw [w2, hv, answered_cons]
    refine Or.inl ⟨⟨a1, rfl, ?_⟩, ?_⟩
    · rw [a2, a3, p1, hr, f1]
      exact f2
    · unfold reply_data
      rw [a3, f1]
      exact f3
  have hsub : submitted (new_writes s1.mddi
      (attempt_sleep hw r (read_prepared hw reg r s1)).1) = 1 := by
    have e : new_writes s1.mddi = new_writes (read_prepared hw reg r s1).mddi := by
      funext m2; unfold new_writes; rw [p6]
    rw [e]
    exact submitted_log_step (read_armed_step hw r _)
  obtain ⟨⟨LL, hsl⟩, -, -, hB⟩ := remote_read_run hw hs reg r val 1 s1
  refine (hB ?_).1
  rw [hsl, first_answer_cons]
  exact Or.inl ⟨hans, hsub⟩

/-- C8, instantiated: 9 is written to register 7 and read back. -/
theorem C8_write_then_read_returns_value_witness :
    (hw_sane sample_hw ∧ reg_layout_ok sample_hw ∧ 9 < 2 ^ 32 ∧ 7 < 2 ^ 32 ∧
      (sample_sys [echo_peer sample_hw, echo_peer sample_hw] []).mddi.rev_data_curr
        < sample_hw.MDDI_REV_BUFFER_SIZE ∧
      (sample_sys [echo_peer sample_hw, echo_peer sample_hw] []).waits =
        echo_peer sample_hw :: echo_peer sample_hw :: []) ∧
    (mddi_remote_read sample_hw 7 3 (mddi_remote_write sample_hw 9 7
      (sample_sys [echo_peer sample_hw, echo_peer sample_hw] []))).1 = 9 :=
  ⟨⟨by decide, by decide, by decide, by decide, by decide, rfl⟩,
    C8_write_then_read_returns_value sample_hw (by decide) (by decide) 9 7 3
      (sample_sys [echo_peer sample_hw, echo_peer sample_hw] []) [] (by decide) (by decide)
      (by decide) rfl⟩

/-- C9. In the detection loop of `mddi_init` (3 outer attempts, up to 4 inner attempts
each), started with the cursor inside the ring.  First: if the status register reports
`RTD_MEAS_FAIL` on the first 3 inner attempts and not on the 4th, and a capability packet
is dispatched during one of the waits up to the wait for the capability flag, then
`SEND_RTD` is issued exactly 4 times, `GET_CLIENT_CAP` once and auto-hibernate is enabled
(`POWERDOWN`, then `HIBERNATE | 1`).  With platform data present the client device is then
registered (after the call of the `mddi_enable` hook, if there is one), with the frame
buffer taken from the platform data, and the result is 0.  With a null `pd`, which
`mddi_init` provides for at line 537, line 663 reads through the null pointer: the
function does not return and nothing is registered.  Second: if the capability flag is
clear at the start and no capability packet is ever dispatched, then, whatever `pd` is,
each of the 3 outer attempts issues between 1 and 4 `SEND_RTD` and then `GET_CLIENT_CAP`,
so `GET_CLIENT_CAP` is issued exactly 3 times, `POWERDOWN` is written next, nothing is
registered, and the result is 0. -/
theorem C9_null_platform_data_stops_registration (hw : mddi_hw) (s : sys)
    (hp : s.mddi.rev_data_curr < hw.MDDI_REV_BUFFER_SIZE) :
    (∀ (a b c d : Nat) (rest : List Nat) (i : Nat),
      s.STAT = a :: b :: c :: d :: rest →
      a &&& hw.MDDI_STAT_RTD_MEAS_FAIL ≠ 0 → b &&& hw.MDDI_STAT_RTD_MEAS_FAIL ≠ 0 →
      c &&& hw.MDDI_STAT_RTD_MEAS_FAIL ≠ 0 → d &&& hw.MDDI_STAT_RTD_MEAS_FAIL = 0 →
      i ≤ 8 →
      (∀ m : mddi_info, m.rev_data_curr < hw.MDDI_REV_BUFFER_SIZE →
        brings_caps hw m (nth_batch s i m)) →
      (∀ pd : msm_mddi_platform_data, ∃ t : sys,
        mddi_init_detect hw (some pd) s = .ok (0, t) ∧
        driver_cmds (new_writes s.mddi t.mddi) =
          [.CMD .MDDI_CMD_SEND_RTD, .CMD .MDDI_CMD_SEND_RTD, .CMD .MDDI_CMD_SEND_RTD,
            .CMD .MDDI_CMD_SEND_RTD, .CMD .CMD_GET_CLIENT_CAP, .CMD .MDDI_CMD_POWERDOWN,
            .CMD (.MDDI_CMD_HIBERNATE 1)] ∧
        t.mddi.ext_log = s.mddi.ext_log ++
          (if s.mddi.mddi_enable then [.mddi_enable 1] else []) ++
          [.platform_device_register_client t.mddi.caps] ∧
        t.mddi.panel_info = { fb_base := pd.fb_base, fb_size := pd.fb_size }) ∧
      (∃ u : sys, mddi_init_detect hw none s = .error u ∧
        driver_cmds (new_writes s.mddi u.mddi) =
          [.CMD .MDDI_CMD_SEND_RTD, .CMD .MDDI_CMD_SEND_RTD, .CMD .MDDI_CMD_SEND_RTD,
            .CMD .MDDI_CMD_SEND_RTD, .CMD .CMD_GET_CLIENT_CAP, .CMD .MDDI_CMD_POWERDOWN,
            .CMD (.MDDI_CMD_HIBERNATE 1)] ∧
        u.mddi.ext_log = s.mddi.ext_log)) ∧
    (¬ (s.mddi.flags &&& FLAG_HAVE_CAPS ≠ 0) →
      (∀ f ∈ s.waits, ∀ m : mddi_info, m.rev_data_curr < hw.MDDI_REV_BUFFER_SIZE →
        no_caps hw m (f m)) →
      ∀ pd : Option msm_mddi_platform_data, ∃ t : sys,
        mddi_init_detect hw pd s = .ok (0, t) ∧
        (∃ j1 j2 j3, (1 ≤ j1 ∧ j1 ≤ 4) ∧ (1 ≤ j2 ∧ j2 ≤ 4) ∧ (1 ≤ j3 ∧ j3 ≤ 4) ∧
          driver_cmds (new_writes s.mddi t.mddi) =
            List.replicate j1 (hw_write.CMD .MDDI_CMD_SEND_RTD) ++ [.CMD .CMD_GET_CLIENT_CAP] ++
            (List.replicate j2 (hw_write.CMD .MDDI_CMD_SEND_RTD) ++
              [.CMD .CMD_GET_CLIENT_CAP]) ++
            (List.replicate j3 (hw_write.CMD .MDDI_CMD_SEND_RTD) ++
              [.CMD .CMD_GET_CLIENT_CAP]) ++
            [.CMD .MDDI_CMD_POWERDOWN]) ∧
        t.mddi.ext_log = s.mddi.ext_log) := by
  constructor
  · intro a b c d rest i hst ha hb hc hd hi hcaps
    obtain ⟨hflag, k, hrel⟩ := caps_round_found hw s a b c d rest i hp hst ha hb hc hd hi hcaps
    have hloop : mddi_init_caps_loop hw 3 s = caps_round hw s := by
      rw [caps_loop_succ, if_pos hflag]
    have hall := thread_rel_trans hrel (set_auto_hibernate_rel hw 1 (caps_round hw s))
    obtain ⟨-, -, hlog, -, -, hen, hext⟩ := hall
    constructor
    · intro pd
      refine ⟨_, by rw [detect_found hw pd s (by rw [hloop]; exact hflag), hloop], ?_, ?_, ?_⟩
      · obtain ⟨q1, -, -⟩ := publish_frame
          ((mddi_set_auto_hibernate hw 1 (caps_round hw s)).upd (set_panel_fb pd))
        unfold new_writes
        rw [q1]
        exact log_step_new_writes hlog
      · obtain ⟨-, q2, q3⟩ := publish_frame
          ((mddi_set_auto_hibernate hw 1 (caps_round hw s)).upd (set_panel_fb pd))
        rw [q2, q3]
        show (mddi_set_auto_hibernate hw 1 (caps_round hw s)).mddi.ext_log ++
          (if (mddi_set_auto_hibernate hw 1 (caps_round hw s)).mddi.mddi_enable then
            [ext_call.mddi_enable 1] else []) ++ _ = _
        rw [hen, hext]
      · cases h : ((mddi_set_auto_hibernate hw 1 (caps_round hw s)).upd
          (set_panel_fb pd)).mddi.mddi_enable <;> simp [h, sys.upd, set_panel_fb]
    · refine ⟨_, by rw [detect_fault hw s (by rw [hloop]; exact hflag), hloop], ?_, hext⟩
      exact log_step_new_writes hlog
  · intro hn hno pd
    have ha0 : caps_absent hw s := ⟨hp, hn, fun i m hm => nth_batch_no_caps hw s hno i m hm⟩
    obtain ⟨j1, k1, b1, c1, r1, a1⟩ := caps_round_absent hw s ha0
    obtain ⟨j2, k2, b2, c2, r2, a2⟩ := caps_round_absent hw _ a1
    obtain ⟨j3, k3, b3, c3, r3, a3⟩ := caps_round_absent hw _ a2
    have hloop : mddi_init_caps_loop hw 3 s =
        caps_round hw (caps_round hw (caps_round hw s)) := by
      rw [caps_loop_succ, if_neg a1.2.1, caps_loop_succ, if_neg a2.2.1, caps_loop_succ,
        if_neg a3.2.1]
      rfl
    have hall := thread_rel_trans (thread_rel_trans (thread_rel_trans r1 r2) r3)
      (powerdown_rel hw _)
    obtain ⟨-, -, hlog, -, -, -, hext⟩ := hall
    exact ⟨_, by rw [detect_absent hw pd s (by rw [hloop]; exact a3.2.1), hloop],
      ⟨j1, j2, j3, ⟨b1, c1⟩, ⟨b2, c2⟩, ⟨b3, c3⟩, log_step_new_writes hlog⟩, hext⟩

/-- C9, instantiated.  First with a status register that reports the failure three
times and then success, and a peer that sends its capability packet during the wait that
follows `GET_CLIENT_CAP`: with the sample platform data the client is registered, with a
null `pd` the function stops at line 663 with nothing registered.  Then with a peer that
never sends anything and a null `pd`. -/
theorem C9_null_platform_data_stops_registration_witness :
    (sample_detect_sys.mddi.rev_data_curr < sample_hw.MDDI_REV_BUFFER_SIZE ∧
      sample_detect_sys.STAT = 0x800 :: 0x800 :: 0x800 :: 0 :: [] ∧
      0x800 &&& sample_hw.MDDI_STAT_RTD_MEAS_FAIL ≠ 0 ∧
      0 &&& sample_hw.MDDI_STAT_RTD_MEAS_FAIL = 0 ∧ 7 ≤ 8 ∧
      ∀ m : mddi_info, m.rev_data_curr < sample_hw.MDDI_REV_BUFFER_SIZE →
        brings_caps sample_hw m (nth_batch sample_detect_sys 7 m)) ∧
    ((sample_sys [no_events] []).mddi.rev_data_curr < sample_hw.MDDI_REV_BUFFER_SIZE ∧
      ¬ ((sample_sys [no_events] []).mddi.flags &&& FLAG_HAVE_CAPS ≠ 0) ∧
      ∀ f ∈ (sample_sys [no_events] []).waits, ∀ m : mddi_info,
        m.rev_data_curr < sample_hw.MDDI_REV_BUFFER_SIZE → no_caps sample_hw m (f m)) ∧
    (∃ t : sys, mddi_init_detect sample_hw (some sample_pd) sample_detect_sys = .ok (0, t) ∧
      t.mddi.ext_log = [.platform_device_register_client t.mddi.caps]) ∧
    (∃ u : sys, mddi_init_detect sample_hw none sample_detect_sys = .error u ∧
      u.mddi.ext_log = []) ∧
    (∃ t : sys, mddi_init_detect sample_hw none (sample_sys [no_events] []) = .ok (0, t) ∧
      t.mddi.ext_log = []) :=
  have hA : ∀ m : mddi_info, m.rev_data_curr < sample_hw.MDDI_REV_BUFFER_SIZE →
      brings_caps sample_hw m (nth_batch sample_detect_sys 7 m) :=
    fun m hm => caps_peer_brings sample_hw (by decide) ⟨by decide, by decide⟩ m hm
  have hB : ∀ f ∈ (sample_sys [no_events] []).waits, ∀ m : mddi_info,
      m.rev_data_curr < sample_hw.MDDI_REV_BUFFER_SIZE → no_caps sample_hw m (f m) := by
    intro f hf m _
    simp only [sample_sys, List.mem_singleton] at hf
    rw [hf]
    exact no_events_no_caps sample_hw m
  have h1 := (C9_null_platform_data_stops_registration sample_hw sample_detect_sys
    (by decide)).1 0x800 0x800 0x800 0 [] 7
    rfl (by decide) (by decide) (by decide) (by decide) (by decide) hA
  have h2 := (C9_null_platform_data_stops_registration sample_hw (sample_sys [no_events] [])
    (by decide)).2 (by decide) hB none
  ⟨⟨by decide, rfl, by decide, by decide, by decide, hA⟩, ⟨by decide, by decide, hB⟩,
    (h1.1 sample_pd).imp fun _ h => ⟨h.1, h.2.2.1⟩,
    h1.2.imp fun _ h => ⟨h.1, h.2.2⟩,
    h2.imp fun _ h => ⟨h.1, h.2.2⟩⟩
/-! ### The interrupt service routine -/

theorem testBit_not32 (x i : Nat) :
    (not32 x).testBit i = (decide (i < 32) && !x.testBit i) := by
  unfold not32
  have e : (0xFFFFFFFF : Nat) = 2 ^ 32 - 1 := by norm_num
  rw [e, Nat.testBit_xor, Nat.testBit_two_pow_sub_one, Nat.testBit_mod_two_pow]
  by_cases h : i < 32 <;> simp [h]

theorem and_pow_ne_zero_iff (x k : Nat) : x &&& 2 ^ k ≠ 0 ↔ x.testBit k = true := by
  rw [Nat.and_two_pow]
  cases h : x.testBit k <;> simp [h]

theorem testBit_of_lt32 {x i : Nat} (hx : x < 2 ^ 32) (h : x.testBit i = true) : i < 32 := by
  by_contra hi
  have : x < 2 ^ i := lt_of_lt_of_le hx (Nat.pow_le_pow_right (by norm_num) (by omega))
  rw [Nat.testBit_lt_two_pow this] at h
  exact Bool.noConfusion h

theorem and_ne_zero_bit {x y : Nat} (h : x &&& y ≠ 0) :
    ∃ i, x.testBit i = true ∧ y.testBit i = true := by
  obtain ⟨i, hi⟩ := Nat.ne_zero_implies_bit_true h
  rw [Nat.testBit_and] at hi
  exact ⟨i, by simpa using hi⟩

theorem and_ne_zero_of_bit {x y i : Nat} (hx : x.testBit i = true) (hy : y.testBit i = true) :
    x &&& y ≠ 0 := by
  intro h
  have e := congrArg (fun z => Nat.testBit z i) h
  simp [Nat.testBit_and, hx, hy] at e

theorem isr_deliver_frame (hw : mddi_hw) (ie : isr_event) (m : mddi_info) :
    (isr_deliver hw ie m).got_int = m.got_int ||| (ie.INT &&& m.int_enable) ∧
    (isr_deliver hw ie m).int_enable =
      (if ie.INT &&& m.int_enable &&& hw.MDDI_INT_PRI_LINK_LIST_DONE ≠ 0 then
        m.int_enable &&& not32 hw.MDDI_INT_PRI_LINK_LIST_DONE else m.int_enable) ∧
    (isr_deliver hw ie m).hw_log = m.hw_log ++ [.INT ie.INT] := by
  by_cases h : ie.INT &&& m.int_enable &&& hw.MDDI_INT_PRI_LINK_LIST_DONE ≠ 0
  · have e : isr_deliver hw ie m = mddi_handle_link_list_done
        (with_int_enable (m.int_enable &&& not32 hw.MDDI_INT_PRI_LINK_LIST_DONE)
          (wake_up (with_got_int (m.got_int ||| (ie.INT &&& m.int_enable))
            (mddi_writel (.INT ie.INT) m)))) := by
      unfold isr_deliver
      exact if_pos h
    rw [e, if_pos h]
    exact ⟨rfl, rfl, rfl⟩
  · have e : isr_deliver hw ie m =
        wake_up (with_got_int (m.got_int ||| (ie.INT &&& m.int_enable))
          (mddi_writel (.INT ie.INT) m)) := by
      unfold isr_deliver
      exact if_neg h
    rw [e, if_neg h]
    exact ⟨rfl, rfl, rfl⟩

theorem isr_handler_frame (hw : mddi_hw) (ie : isr_event) (a : Nat) (m : mddi_info) :
    (if a &&& hw.MDDI_INT_REV_DATA_AVAIL ≠ 0 then
      mddi_handle_rev_data_avail hw ie.rev m else m).got_int = m.got_int ∧
    (if a &&& hw.MDDI_INT_REV_DATA_AVAIL ≠ 0 then
      mddi_handle_rev_data_avail hw ie.rev m else m).int_enable = m.int_enable ∧
    log_step [] m (if a &&& hw.MDDI_INT_REV_DATA_AVAIL ≠ 0 then
      mddi_handle_rev_data_avail hw ie.rev m else m) := by
  split_ifs
  · obtain ⟨hst, hl, -⟩ := avail_core hw ie.rev m
    exact ⟨hst.2.2.2.2.2.2.2.1, hst.2.2.2.2.2.2.1, hl⟩
  · exact ⟨rfl, rfl, log_step_refl m⟩

/-- The enabled mask `isr_narrow` computes from the mask at its entry for the masked bits
`a`, and its other effects. -/
theorem isr_narrow_frame (hw : mddi_hw) (a : Nat) (m : mddi_info) :
    (isr_narrow hw a m).got_int = m.got_int ∧
    (isr_narrow hw a m).hw_log = m.hw_log ++ [.INTEN (isr_narrow hw a m).int_enable] ∧
    (isr_narrow hw a m).int_enable =
      (if a &&& hw.MDDI_INT_IN_HIBERNATION ≠ 0 then
        fun x => (x &&& not32 hw.MDDI_INT_IN_HIBERNATION) ||| hw.MDDI_INT_LINK_ACTIVE
        else fun x => x)
      ((if a &&& hw.MDDI_INT_LINK_ACTIVE ≠ 0 then
        fun x => (x &&& not32 hw.MDDI_INT_LINK_ACTIVE) ||| hw.MDDI_INT_IN_HIBERNATION
        else fun x => x)
      (if a &&& not32 hw.MDDI_INT_NEED_CLEAR ≠ 0 then
        m.int_enable &&& not32 (a &&& not32 hw.MDDI_INT_NEED_CLEAR) else m.int_enable)) := by
  have e : isr_narrow hw a m =
      mddi_writel (.INTEN ((if a &&& hw.MDDI_INT_IN_HIBERNATION ≠ 0 then
        fun x => (x &&& not32 hw.MDDI_INT_IN_HIBERNATION) ||| hw.MDDI_INT_LINK_ACTIVE
        else fun x => x)
      ((if a &&& hw.MDDI_INT_LINK_ACTIVE ≠ 0 then
        fun x => (x &&& not32 hw.MDDI_INT_LINK_ACTIVE) ||| hw.MDDI_INT_IN_HIBERNATION
        else fun x => x)
      (if a &&& not32 hw.MDDI_INT_NEED_CLEAR ≠ 0 then
        m.int_enable &&& not32 (a &&& not32 hw.MDDI_INT_NEED_CLEAR) else m.int_enable))))
      (with_int_enable ((if a &&& hw.MDDI_INT_IN_HIBERNATION ≠ 0 then
        fun x => (x &&& not32 hw.MDDI_INT_IN_HIBERNATION) ||| hw.MDDI_INT_LINK_ACTIVE
        else fun x => x)
      ((if a &&& hw.MDDI_INT_LINK_ACTIVE ≠ 0 then
        fun x => (x &&& not32 hw.MDDI_INT_LINK_ACTIVE) ||| hw.MDDI_INT_IN_HIBERNATION
        else fun x => x)
      (if a &&& not32 hw.MDDI_INT_NEED_CLEAR ≠ 0 then
        m.int_enable &&& not32 (a &&& not32 hw.MDDI_INT_NEED_CLEAR) else m.int_enable))) m) := by
    unfold isr_narrow
    dsimp only
    split_ifs <;> rfl
  rw [e]
  exact ⟨rfl, rfl, rfl⟩

theorem mddi_isr_eq (hw : mddi_hw) (ie : isr_event) (m : mddi_info) :
    mddi_isr hw ie m = isr_narrow hw (ie.INT &&& m.int_enable)
      (if ie.INT &&& m.int_enable &&& hw.MDDI_INT_REV_DATA_AVAIL ≠ 0 then
        mddi_handle_rev_data_avail hw ie.rev (isr_deliver hw ie m)
      else isr_deliver hw ie m) := rfl

theorem mddi_isr_got_int (hw : mddi_hw) (ie : isr_event) (m : mddi_info) :
    (mddi_isr hw ie m).got_int = m.got_int ||| (ie.INT &&& m.int_enable) := by
  rw [mddi_isr_eq, (isr_narrow_frame hw _ _).1, (isr_handler_frame hw ie _ _).1,
    (isr_deliver_frame hw ie m).1]

theorem mddi_isr_log (hw : mddi_hw) (ie : isr_event) (m : mddi_info) :
    log_step [] m (mddi_isr hw ie m) ∧
    (mddi_isr hw ie m).hw_log.getLast? = some (.INTEN (mddi_isr hw ie m).int_enable) := by
  rw [mddi_isr_eq]
  obtain ⟨-, h2, -⟩ := isr_narrow_frame hw (ie.INT &&& m.int_enable)
    (if ie.INT &&& m.int_enable &&& hw.MDDI_INT_REV_DATA_AVAIL ≠ 0 then
        mddi_handle_rev_data_avail hw ie.rev (isr_deliver hw ie m)
      else isr_deliver hw ie m)
  obtain ⟨-, -, h3⟩ := isr_handler_frame hw ie (ie.INT &&& m.int_enable) (isr_deliver hw ie m)
  have h1 : log_step [] m (isr_deliver hw ie m) :=
    ⟨[.INT ie.INT], (isr_deliver_frame hw ie m).2.2, rfl⟩
  refine ⟨?_, by rw [h2]; simp⟩
  have h4 := log_step_trans (log_step_trans h1 h3)
    (⟨[.INTEN _], h2, rfl⟩ : log_step [] _ (isr_narrow hw (ie.INT &&& m.int_enable) _))
  simpa using h4

theorem step_clear_bit (c : Prop) [Decidable c] (x y i : Nat)
    (hx : x.testBit i = true → i < 32) :
    (if c then x &&& not32 y else x).testBit i =
      (x.testBit i && !(decide c && y.testBit i)) := by
  by_cases h : c
  · rw [if_pos h, Nat.testBit_and, testBit_not32]
    cases hxi : x.testBit i
    · simp
    · simp [hx hxi, h]
  · rw [if_neg h]
    simp [h]

theorem step_need_clear (a x nc i : Nat) (hx : x.testBit i = true → i < 32) :
    (if a &&& not32 nc ≠ 0 then x &&& not32 (a &&& not32 nc) else x).testBit i =
      (x.testBit i && !(a.testBit i && !nc.testBit i)) := by
  by_cases h : a &&& not32 nc ≠ 0
  · rw [if_pos h, Nat.testBit_and, testBit_not32, Nat.testBit_and, testBit_not32]
    cases hxi : x.testBit i
    · simp
    · simp [hx hxi]
  · rw [if_neg h]
    have hz : a &&& not32 nc = 0 := by
      by_contra hne; exact h hne
    have hb := congrArg (fun z => Nat.testBit z i) hz
    simp only [Nat.testBit_and, testBit_not32, Nat.zero_testBit] at hb
    cases hxi : x.testBit i
    · simp
    · have hlt : decide (i < 32) = true := decide_eq_true (hx hxi)
      rw [hlt, Bool.true_and] at hb
      rw [hb]
      rfl

theorem step_rearm_bit (c : Prop) [Decidable c] (x k j i : Nat)
    (hx : x.testBit i = true → i < 32) :
    ((if c then fun z => (z &&& not32 (2 ^ k)) ||| 2 ^ j else fun z => z) x).testBit i =
      (if c then (x.testBit i && !decide (i = k)) || decide (i = j) else x.testBit i) := by
  by_cases h : c
  · rw [if_pos h, if_pos h]
    show ((x &&& not32 (2 ^ k)) ||| 2 ^ j).testBit i = _
    rw [Nat.testBit_or, Nat.testBit_and, testBit_not32, Nat.testBit_two_pow,
      Nat.testBit_two_pow]
    cases hxi : x.testBit i
    · simp [eq_comm]
    · simp [hx hxi, eq_comm]
  · rw [if_neg h, if_neg h]

/-- Bit `i` of the enabled mask after `mddi_isr`, in terms of the bits at entry of the
enabled mask and of the masked raw bits `INT & int_enable`. -/
theorem mddi_isr_int_enable_bit (hw : mddi_hw) (la ih pl : Nat) (hb : int_bits_ok hw la ih pl)
    (ie : isr_event) (m : mddi_info) (he : m.int_enable < 2 ^ 32) (i : Nat) :
    (mddi_isr hw ie m).int_enable.testBit i =
      (if (ie.INT &&& m.int_enable).testBit ih = true then
        ((if (ie.INT &&& m.int_enable).testBit la = true then
          ((m.int_enable.testBit i &&
              !(decide ((ie.INT &&& m.int_enable).testBit pl = true) && decide (pl = i)) &&
              !((ie.INT &&& m.int_enable).testBit i && !hw.MDDI_INT_NEED_CLEAR.testBit i)) &&
            !decide (i = la)) || decide (i = ih)
        else (m.int_enable.testBit i &&
              !(decide ((ie.INT &&& m.int_enable).testBit pl = true) && decide (pl = i)) &&
              !((ie.INT &&& m.int_enable).testBit i && !hw.MDDI_INT_NEED_CLEAR.testBit i))) &&
          !decide (i = ih)) || decide (i = la)
      else (if (ie.INT &&& m.int_enable).testBit la = true then
          ((m.int_enable.testBit i &&
              !(decide ((ie.INT &&& m.int_enable).testBit pl = true) && decide (pl = i)) &&
              !((ie.INT &&& m.int_enable).testBit i && !hw.MDDI_INT_NEED_CLEAR.testBit i)) &&
            !decide (i = la)) || decide (i = ih)
        else (m.int_enable.testBit i &&
              !(decide ((ie.INT &&& m.int_enable).testBit pl = true) && decide (pl = i)) &&
              !((ie.INT &&& m.int_enable).testBit i && !hw.MDDI_INT_NEED_CLEAR.testBit i)))) := by
  obtain ⟨hla, hih, hpl, bla, bih, bpl, -, -⟩ := hb
  rw [mddi_isr_eq, (isr_narrow_frame hw _ _).2.2, (isr_handler_frame hw ie _ _).2.1,
    (isr_deliver_frame hw ie m).2.1, hla, hih, hpl]
  generalize ie.INT &&& m.int_enable = a
  simp only [and_pow_ne_zero_iff]
  have h32 : m.int_enable.testBit i = true → i < 32 := testBit_of_lt32 he
  have e1 := step_clear_bit (a.testBit pl = true) m.int_enable (2 ^ pl) i h32
  rw [Nat.testBit_two_pow] at e1
  have h1 : (if a.testBit pl = true then m.int_enable &&& not32 (2 ^ pl)
      else m.int_enable).testBit i = true → i < 32 := by
    rw [e1]; intro h; simp only [Bool.and_eq_true] at h; exact h32 h.1
  have e2 := step_need_clear a _ hw.MDDI_INT_NEED_CLEAR i h1
  rw [e1] at e2
  have h2 : (if a &&& not32 hw.MDDI_INT_NEED_CLEAR ≠ 0 then
      (if a.testBit pl = true then m.int_enable &&& not32 (2 ^ pl) else m.int_enable) &&&
        not32 (a &&& not32 hw.MDDI_INT_NEED_CLEAR)
      else (if a.testBit pl = true then m.int_enable &&& not32 (2 ^ pl)
        else m.int_enable)).testBit i = true → i < 32 := by
    rw [e2]; intro h; simp only [Bool.and_eq_true] at h; exact h32 h.1.1
  have e3 := step_rearm_bit (a.testBit la = true) _ la ih i h2
  rw [e2] at e3
  have h3 : ((if a.testBit la = true then fun z => (z &&& not32 (2 ^ la)) ||| 2 ^ ih
      else fun z => z)
      (if a &&& not32 hw.MDDI_INT_NEED_CLEAR ≠ 0 then
      (if a.testBit pl = true then m.int_enable &&& not32 (2 ^ pl) else m.int_enable) &&&
        not32 (a &&& not32 hw.MDDI_INT_NEED_CLEAR)
      else (if a.testBit pl = true then m.int_enable &&& not32 (2 ^ pl)
        else m.int_enable))).testBit i = true → i < 32 := by
    rw [e3]
    split_ifs
    · intro h
      simp only [Bool.or_eq_true, Bool.and_eq_true, decide_eq_true_eq] at h
      rcases h with h | h
      · exact h32 h.1.1.1
      · omega
    · intro h; simp only [Bool.and_eq_true] at h; exact h32 h.1.1
  have e4 := step_rearm_bit (a.testBit ih = true) _ ih la i h3
  rw [e3] at e4
  exact e4

theorem run_isr_got_int (hw : mddi_hw) (intmask : Nat) (evs : List isr_event) :
    ∀ m : mddi_info, (run_isr hw evs m).got_int &&& intmask ≠ 0 →
      m.got_int &&& intmask ≠ 0 ∨ ∃ ie ∈ evs, ie.INT &&& intmask ≠ 0 := by
  induction evs with
  | nil => intro m h; exact Or.inl h
  | cons ie evs ih =>
    intro m h
    rcases ih (mddi_isr hw ie m) h with h2 | ⟨ie2, h2, h3⟩
    · rw [mddi_isr_got_int] at h2
      obtain ⟨i, b1, b2⟩ := and_ne_zero_bit h2
      rw [Nat.testBit_or, Nat.testBit_and] at b1
      cases hgi : m.got_int.testBit i
      · rw [hgi] at b1
        simp only [Bool.false_or, Bool.and_eq_true] at b1
        exact Or.inr ⟨ie, List.mem_cons_self _ _, and_ne_zero_of_bit b1.1 b2⟩
      · exact Or.inl (and_ne_zero_of_bit hgi b2)
    · exact Or.inr ⟨ie2, List.mem_cons_of_mem _ h2, h3⟩

theorem wait_event_result (hw : mddi_hw) (intmask : Nat) (irqs : List isr_event) :
    ∀ m : mddi_info, (wait_event_got_int hw intmask irqs m).1 = 0 ↔
      (wait_event_got_int hw intmask irqs m).2.got_int &&& intmask = 0 := by
  induction irqs with
  | nil =>
    intro m
    unfold wait_event_got_int
    split_ifs with h
    · simp [h]
    · simp only [ne_eq, not_not] at h
      simp [h]
  | cons ie rest ih =>
    intro m
    unfold wait_event_got_int
    split_ifs with h
    · simp [h]
    · exact ih _

theorem wait_event_log (hw : mddi_hw) (intmask : Nat) (irqs : List isr_event) :
    ∀ m : mddi_info, log_step [] m (wait_event_got_int hw intmask irqs m).2 := by
  induction irqs with
  | nil => intro m; unfold wait_event_got_int; exact log_step_refl m
  | cons ie rest ih =>
    intro m
    unfold wait_event_got_int
    split_ifs with h
    · exact log_step_refl m
    · simpa using log_step_trans (mddi_isr_log hw ie m).1 (ih _)

/-- C11, as stated, fails: on the sample header the wait of `mddi_remote_write(9, 7)` ends
with a positive result when `PRI_LINK_LIST_DONE` is raised during it and with 0 (timeout)
when nothing is raised, and the function hands the same value back in both cases. -/
theorem C11_write_result_blind_to_timeout :
    (mddi_wait_interrupt_timeout_irq sample_hw sample_hw.MDDI_INT_PRI_LINK_LIST_DONE
      [sample_done_irq] (write_submit sample_hw 9 7 (sample_info 0 none))).1 ≠ 0 ∧
    (mddi_wait_interrupt_timeout_irq sample_hw sample_hw.MDDI_INT_PRI_LINK_LIST_DONE
      [] (write_submit sample_hw 9 7 (sample_info 0 none))).1 = 0 ∧
    ¬ ((mddi_remote_write_irq sample_hw 9 7 [sample_done_irq] (sample_info 0 none, [])).1 ≠
      (mddi_remote_write_irq sample_hw 9 7 [] (sample_info 0 none, [])).1) :=
  ⟨by decide, by decide, fun h => h rfl⟩

/-- C11, amended.  `mddi_remote_write` returns no value, so any two calls hand the same
(empty) result back, whether the wait for `PRI_LINK_LIST_DONE` ended by delivery or by
timeout.  The wait itself tells the two apart: its result is 0 exactly when the delivered
mask still has no bit of `PRI_LINK_LIST_DONE` at its end, and in that case, and only then,
`mddi_wait_interrupt` appends its timeout message to the kernel log.  In both cases the
descriptor is submitted once (one `PRI_PTR` write and no other command). -/
theorem C11_write_timeout_only_logged (hw : mddi_hw) (val reg : Nat) (irqs : List isr_event)
    (m : mddi_info) (klog : List kmsg) :
    (∀ (val2 reg2 : Nat) (irqs2 : List isr_event) (k2 : mddi_info × List kmsg),
      (mddi_remote_write_irq hw val reg irqs (m, klog)).1 =
        (mddi_remote_write_irq hw val2 reg2 irqs2 k2).1) ∧
    ((mddi_wait_interrupt_timeout_irq hw hw.MDDI_INT_PRI_LINK_LIST_DONE irqs
        (write_submit hw val reg m)).1 = 0 ↔
      (mddi_remote_write_irq hw val reg irqs (m, klog)).2.1.got_int &&&
        hw.MDDI_INT_PRI_LINK_LIST_DONE = 0) ∧
    ((mddi_remote_write_irq hw val reg irqs (m, klog)).2.2 =
      if (mddi_wait_interrupt_timeout_irq hw hw.MDDI_INT_PRI_LINK_LIST_DONE irqs
        (write_submit hw val reg m)).1 = 0 then
        klog ++ [.wait_interrupt_timeout hw.MDDI_INT_PRI_LINK_LIST_DONE
          (mddi_remote_write_irq hw val reg irqs (m, klog)).2.1.got_int]
      else klog) ∧
    driver_cmds (new_writes m (mddi_remote_write_irq hw val reg irqs (m, klog)).2.1) =
      [.PRI_PTR m.reg_write_addr (write_llentry hw val reg m.reg_write_addr)] := by
  have hstate : (mddi_remote_write_irq hw val reg irqs (m, klog)).2.1 =
      (mddi_wait_interrupt_timeout_irq hw hw.MDDI_INT_PRI_LINK_LIST_DONE irqs
        (write_submit hw val reg m)).2 := by
    unfold mddi_remote_write_irq mddi_wait_interrupt_irq
    dsimp only
    split_ifs <;> rfl
  refine ⟨fun _ _ _ _ => rfl, ?_, ?_, ?_⟩
  · rw [hstate]
    exact wait_event_result hw _ irqs _
  · rw [hstate]
    unfold mddi_remote_write_irq mddi_wait_interrupt_irq
    dsimp only
    split_ifs <;> rfl
  · rw [hstate]
    have h1 : log_step [.PRI_PTR m.reg_write_addr (write_llentry hw val reg m.reg_write_addr)]
        m (write_submit hw val reg m) := ⟨[_], rfl, rfl⟩
    have h2 : log_step [] (write_submit hw val reg m)
        (mddi_wait_interrupt_arm hw.MDDI_INT_PRI_LINK_LIST_DONE (write_submit hw val reg m)) :=
      ⟨[_], rfl, rfl⟩
    have h3 := wait_event_log hw hw.MDDI_INT_PRI_LINK_LIST_DONE irqs
      (mddi_wait_interrupt_arm hw.MDDI_INT_PRI_LINK_LIST_DONE (write_submit hw val reg m))
    have h4 := log_step_trans (log_step_trans h1 h2) h3
    exact log_step_new_writes (by simpa using h4)

/-- C13. For every invocation of `mddi_isr` with raw active bits `INT`, enabled mask `e`
and delivered mask `g` at entry, the delivered mask afterwards is `g | (INT & e)`: a bit
that is not enabled at entry keeps its delivered state, and a delivered bit stays
delivered. -/
theorem C13_isr_delivers_only_enabled_bits (hw : mddi_hw) (ie : isr_event) (m : mddi_info) :
    (mddi_isr hw ie m).got_int = m.got_int ||| (ie.INT &&& m.int_enable) ∧
    (∀ i, m.int_enable.testBit i = false →
      (mddi_isr hw ie m).got_int.testBit i = m.got_int.testBit i) ∧
    (∀ i, m.got_int.testBit i = true → (mddi_isr hw ie m).got_int.testBit i = true) := by
  have h := mddi_isr_got_int hw ie m
  refine ⟨h, ?_, ?_⟩
  · intro i hi
    rw [h, Nat.testBit_or, Nat.testBit_and, hi]
    simp
  · intro i hi
    rw [h, Nat.testBit_or, hi]
    rfl

/-- C15. Arming in `mddi_wait_interrupt_timeout(mask)`: before the caller blocks the
delivered mask becomes `delivered & ~mask`, the enabled mask becomes `enabled | mask`, and
that value is written to `INTEN`; delivered and enabled bits outside `mask` are unchanged.
After arming no bit of `mask` is delivered, and after any interrupt invocations that follow
a bit of `mask` is delivered only if one of them read a raw bit of `mask` from `INT`. -/
theorem C15_arming_clears_stale_signal (hw : mddi_hw) (intmask : Nat) (m : mddi_info)
    (hg : m.got_int < 2 ^ 32) :
    (mddi_wait_interrupt_arm intmask m).got_int = m.got_int &&& not32 intmask ∧
    (∀ i, (mddi_wait_interrupt_arm intmask m).got_int.testBit i =
      (m.got_int.testBit i && !intmask.testBit i)) ∧
    (mddi_wait_interrupt_arm intmask m).int_enable = m.int_enable ||| intmask ∧
    (mddi_wait_interrupt_arm intmask m).hw_log =
      m.hw_log ++ [.INTEN (m.int_enable ||| intmask)] ∧
    (∀ i, intmask.testBit i = false →
      (mddi_wait_interrupt_arm intmask m).got_int.testBit i = m.got_int.testBit i ∧
      (mddi_wait_interrupt_arm intmask m).int_enable.testBit i = m.int_enable.testBit i) ∧
    (mddi_wait_interrupt_arm intmask m).got_int &&& intmask = 0 ∧
    (∀ evs : List isr_event,
      (run_isr hw evs (mddi_wait_interrupt_arm intmask m)).got_int &&& intmask ≠ 0 →
      ∃ ie ∈ evs, ie.INT &&& intmask ≠ 0) := by
  have hbit : ∀ i, (mddi_wait_interrupt_arm intmask m).got_int.testBit i =
      (m.got_int.testBit i && !intmask.testBit i) := by
    intro i
    show (m.got_int &&& not32 intmask).testBit i = _
    rw [Nat.testBit_and, testBit_not32]
    cases hgi : m.got_int.testBit i
    · simp
    · simp [testBit_of_lt32 hg hgi]
  have hzero : (mddi_wait_interrupt_arm intmask m).got_int &&& intmask = 0 := by
    apply Nat.eq_of_testBit_eq
    intro i
    rw [Nat.testBit_and, hbit, Nat.zero_testBit]
    cases intmask.testBit i <;> simp
  refine ⟨rfl, hbit, rfl, rfl, ?_, hzero, ?_⟩
  · intro i hi
    constructor
    · rw [hbit, hi]; simp
    · show (m.int_enable ||| intmask).testBit i = _
      rw [Nat.testBit_or, hi]; simp
  · intro evs h
    rcases run_isr_got_int hw intmask evs _ h with h2 | h2
    · exact absurd hzero h2
    · exact h2

/-- C15, instantiated: `PRI_LINK_LIST_DONE` of the sample header is waited for while it
is still delivered from an earlier wait. -/
theorem C15_arming_clears_stale_signal_witness :
    (with_got_int 0x8000 (sample_info 0 none)).got_int < 2 ^ 32 ∧
    (mddi_wait_interrupt_arm 0x8000 (with_got_int 0x8000 (sample_info 0 none))).got_int
      &&& 0x8000 = 0 :=
  ⟨by decide, (C15_arming_clears_stale_signal sample_hw 0x8000
    (with_got_int 0x8000 (sample_info 0 none)) (by decide)).2.2.2.2.2.1⟩

/-- C12, as stated, fails: with a CRC error and one packet reported while the read at
address 3 is pending, the handler moves the cursor past the packet and dispatches it. -/
theorem C12_crc_error_does_not_stop_parsing :
    sample_crc_event.REV_CRC_ERR ≠ 0 ∧ (sample_info 0 (some 3)).reg_read = some 3 ∧
    sample_crc_event.REV_PKT_CNT ≠ 0 ∧
    (mddi_handle_rev_data_avail sample_hw sample_crc_event (sample_info 0 (some 3))).rev_data_curr
      = 18 ∧
    (mddi_handle_rev_data_avail sample_hw sample_crc_event (sample_info 0 (some 3))).rev_data_curr
      ≠ (sample_info 0 (some 3)).rev_data_curr ∧
    (mddi_handle_rev_data_avail sample_hw sample_crc_event (sample_info 0 (some 3))).rev_log.length
      = (sample_info 0 (some 3)).rev_log.length + 1 := by
  decide

/-- C12, amended.  When `mddi_handle_rev_data_avail` runs with a nonzero CRC-error count
while a read is pending, the read is failed first (slot cleared, status `-EIO`, result
`0xFFFFFFFF`) and stays failed.  Framing parsing is skipped only when the packet count is
zero: then the cursor is unchanged and nothing is dispatched.  When the packet count is
nonzero the invocation goes on as without the error: the packet at the cursor is
dispatched when its length is at most `S - 2`, and the cursor moves to `(p + 2 + L) mod S`
when the packet is well formed. -/
theorem C12_crc_error_then_parsing (hw : mddi_hw) (hs : hw_sane hw) (ev : rev_event)
    (m : mddi_info) (r : Nat) (hp : m.rev_data_curr < hw.MDDI_REV_BUFFER_SIZE)
    (hcrc : ev.REV_CRC_ERR ≠ 0) (hpend : m.reg_read = some r) :
    ((mddi_handle_rev_data_avail hw ev m).reg_read = none ∧
      ((mddi_handle_rev_data_avail hw ev m).ri r).status = neg32 hw.EIO ∧
      ((mddi_handle_rev_data_avail hw ev m).ri r).result = 0xFFFFFFFF) ∧
    (ev.REV_PKT_CNT = 0 →
      (mddi_handle_rev_data_avail hw ev m).rev_data_curr = m.rev_data_curr ∧
      (mddi_handle_rev_data_avail hw ev m).rev_log = m.rev_log) ∧
    (ev.REV_PKT_CNT ≠ 0 →
      rev_length hw ev.mem m.rev_data_curr ≤ hw.MDDI_REV_BUFFER_SIZE - 2 →
      (mddi_handle_rev_data_avail hw ev m).rev_log = m.rev_log ++
        [rev_frame hw ev m.rev_data_curr (rev_length hw ev.mem m.rev_data_curr)]) ∧
    (ev.REV_PKT_CNT ≠ 0 → length_in_range hw (rev_length hw ev.mem m.rev_data_curr) →
      known_type hw (rd16 (ring_frame hw ev.mem m.rev_data_curr) hw.offsetof_type) →
      (mddi_handle_rev_data_avail hw ev m).rev_data_curr =
        (m.rev_data_curr + (2 + rev_length hw ev.mem m.rev_data_curr)) %
          hw.MDDI_REV_BUFFER_SIZE) := by
  obtain ⟨h1, h2⟩ := rev_entry_crc hw ev m r hcrc hpend
  obtain ⟨h3, h4⟩ := avail_after_entry hw ev m h1
  refine ⟨⟨h3, by rw [h4, h2]; simp, by rw [h4, h2]; simp [neg32]⟩, ?_, ?_, ?_⟩
  · intro h0
    have e : mddi_handle_rev_data_avail hw ev m = rev_entry hw ev m := by
      unfold mddi_handle_rev_data_avail
      exact if_pos h0
    rw [e]
    exact ⟨(rev_entry_frame hw ev m).2.2.2.1, (rev_entry_frame hw ev m).1⟩
  · intro hcnt hl
    exact avail_rev_log hw ev m hcnt hl
  · intro hcnt hlen htype
    exact (avail_good_step hw ev m hs hp hcnt hlen htype).1

/-- C12, instantiated on the sample header: a CRC error reported together with the reply
for register 7 while the read at address 3 is pending; the cursor moves from 0 to 18. -/
theorem C12_crc_error_then_parsing_witness :
    (hw_sane sample_hw ∧
      (sample_info 0 (some 3)).rev_data_curr < sample_hw.MDDI_REV_BUFFER_SIZE ∧
      sample_crc_event.REV_CRC_ERR ≠ 0 ∧ (sample_info 0 (some 3)).reg_read = some 3) ∧
    ((mddi_handle_rev_data_avail sample_hw sample_crc_event (sample_info 0 (some 3))).ri 3).status
      = 0xFFFFFFFB ∧
    (mddi_handle_rev_data_avail sample_hw sample_crc_event (sample_info 0 (some 3))).rev_data_curr
      = 18 :=
  have h := C12_crc_error_then_parsing sample_hw (by decide) sample_crc_event
    (sample_info 0 (some 3)) 3 (by decide) (by decide) rfl
  ⟨⟨by decide, by decide, by decide, rfl⟩, h.1.2.1.trans (by decide),
    (h.2.2.2 (by decide) (by decide) (by decide)).trans (by decide)⟩

theorem memcpy_checked_some (dst_size src_size : Nat) (dst : Nat → Nat) (d : Nat)
    (src : Nat → Nat) (s n : Nat) (h : d + n ≤ dst_size ∧ s + n ≤ src_size) :
    memcpy_checked dst_size src_size dst d src s n =
      some fun i => if d ≤ i ∧ i < d + n then src (s + (i - d)) else dst i := by
  unfold memcpy_checked
  exact if_pos h

/-- C16. In the wrap path of `mddi_handle_rev_data_avail` (taken when `p + 2 + L >= S`),
for every cursor `p < S` and every length `L <= S - 2`: the first copy length
`rem = S - p` is computed without wrap-around and satisfies `1 <= rem <= 2 + L`; the
second copy length `2 + L - rem` does not underflow; the two copies together move exactly
`2 + L <= S` bytes; both `memcpy` calls stay inside the `S`-byte ring and the `S`-byte
scratch frame, and the frame they build is the one handed to `mddi_handle_rev_data`. -/
theorem C16_wrap_copies_stay_in_bounds (hw : mddi_hw) (ev : rev_event) (p L : Nat)
    (hS : 2 ≤ hw.MDDI_REV_BUFFER_SIZE) (hS32 : hw.MDDI_REV_BUFFER_SIZE < 2 ^ 32)
    (hp : p < hw.MDDI_REV_BUFFER_SIZE) (hL : L ≤ hw.MDDI_REV_BUFFER_SIZE - 2)
    (hwrap : p + 2 + L ≥ hw.MDDI_REV_BUFFER_SIZE) :
    wrap_rem hw p = hw.MDDI_REV_BUFFER_SIZE - p ∧
    1 ≤ wrap_rem hw p ∧ wrap_rem hw p ≤ 2 + L ∧
    sub_size_t (2 + L) (wrap_rem hw p) + wrap_rem hw p = 2 + L ∧
    2 + L ≤ hw.MDDI_REV_BUFFER_SIZE ∧
    p + wrap_rem hw p ≤ hw.MDDI_REV_BUFFER_SIZE ∧
    wrap_copy hw ev p L = some (rev_frame hw ev p L) := by
  have hrem : wrap_rem hw p = hw.MDDI_REV_BUFFER_SIZE - p := by
    unfold wrap_rem sub_size_t
    rw [Nat.mod_eq_of_lt hS32, Nat.mod_eq_of_lt (by omega : p < 2 ^ 32)]
    have e : hw.MDDI_REV_BUFFER_SIZE + 2 ^ 32 - p =
        2 ^ 32 + (hw.MDDI_REV_BUFFER_SIZE - p) := by omega
    rw [e, Nat.add_mod_left, Nat.mod_eq_of_lt (by omega)]
  have hsec : sub_size_t (2 + L) (wrap_rem hw p) = 2 + L - (hw.MDDI_REV_BUFFER_SIZE - p) := by
    rw [hrem]
    unfold sub_size_t
    rw [Nat.mod_eq_of_lt (by omega : 2 + L < 2 ^ 32),
      Nat.mod_eq_of_lt (by omega : hw.MDDI_REV_BUFFER_SIZE - p < 2 ^ 32)]
    have e : 2 + L + 2 ^ 32 - (hw.MDDI_REV_BUFFER_SIZE - p) =
        2 ^ 32 + (2 + L - (hw.MDDI_REV_BUFFER_SIZE - p)) := by omega
    rw [e, Nat.add_mod_left, Nat.mod_eq_of_lt (by omega)]
  refine ⟨hrem, by omega, by omega, by omega, by omega, by omega, ?_⟩
  unfold wrap_copy
  dsimp only
  rw [hsec, hrem, memcpy_checked_some _ _ _ _ _ _ _ (by omega)]
  simp only []
  rw [memcpy_checked_some _ _ _ _ _ _ _ (by omega)]
  congr 1
  funext i
  unfold rev_frame
  rw [if_pos hwrap]
  by_cases h1 : hw.MDDI_REV_BUFFER_SIZE - p ≤ i ∧
      i < hw.MDDI_REV_BUFFER_SIZE - p + (2 + L - (hw.MDDI_REV_BUFFER_SIZE - p))
  · rw [if_pos h1, if_pos h1, Nat.zero_add]
  · rw [if_neg h1, if_neg h1]
    by_cases h2 : i < hw.MDDI_REV_BUFFER_SIZE - p
    · rw [if_pos h2, if_pos (by omega), Nat.sub_zero]
    · rw [if_neg h2, if_neg (by omega)]

/-- C16, instantiated: an 18-byte packet at cursor 250 of the 256-byte sample ring; the
first copy moves 6 bytes and the second 12. -/
theorem C16_wrap_copies_stay_in_bounds_witness :
    (2 ≤ sample_hw.MDDI_REV_BUFFER_SIZE ∧ sample_hw.MDDI_REV_BUFFER_SIZE < 2 ^ 32 ∧
      250 < sample_hw.MDDI_REV_BUFFER_SIZE ∧ 16 ≤ sample_hw.MDDI_REV_BUFFER_SIZE - 2 ∧
      250 + 2 + 16 ≥ sample_hw.MDDI_REV_BUFFER_SIZE) ∧
    wrap_rem sample_hw 250 = 6 ∧ sub_size_t (2 + 16) (wrap_rem sample_hw 250) = 12 ∧
    wrap_copy sample_hw zero_event 250 16 = some (rev_frame sample_hw zero_event 250 16) :=
  ⟨⟨by decide, by decide, by decide, by decide, by decide⟩, by decide, by decide,
    (C16_wrap_copies_stay_in_bounds sample_hw zero_event 250 16 (by decide) (by decide)
      (by decide) (by decide) (by decide)).2.2.2.2.2.2⟩

/-! ### The exits of `mddi_init` -/

theorem block_version (hw : mddi_hw) (s : sys) :
    (block hw s).mddi.version = s.mddi.version := by
  rw [block_eq]
  exact (run_events_effect hw _ s.mddi).1.1

theorem wait_version (hw : mddi_hw) (mask : Nat) (s : sys) :
    (mddi_wait_interrupt hw mask s).mddi.version = s.mddi.version := by
  unfold mddi_wait_interrupt mddi_wait_interrupt_timeout
  rw [block_version]
  rfl

theorem set_auto_hibernate_version (hw : mddi_hw) (enable : Nat) (s : sys) :
    (mddi_set_auto_hibernate hw enable s).mddi.version = s.mddi.version := by
  unfold mddi_set_auto_hibernate
  dsimp only
  rw [wait_version, show ∀ (w : hw_write) (u : sys),
    (u.upd (mddi_writel w)).mddi.version = u.mddi.version from fun _ _ => rfl, wait_version]
  rfl

theorem init_rev_encap_version (hw : mddi_hw) (s : sys) :
    (mddi_init_rev_encap hw s).mddi.version = s.mddi.version := by
  unfold mddi_init_rev_encap
  dsimp only
  rw [wait_version]
  rfl

/-- The version `mddi_init` tests is the low half of the value read from `CORE_VER`. -/
theorem bringup_version (hw : mddi_hw) (env : init_env) (s : sys) :
    (mddi_init_bringup hw env s).mddi.version = env.CORE_VER &&& 0xffff := by
  unfold mddi_init_bringup mddi_init_registers
  dsimp only
  rw [init_rev_encap_version, wait_version]
  show (mddi_set_auto_hibernate hw 0 _).mddi.version = _
  rw [set_auto_hibernate_version]
  rfl

theorem PTR_ERR_ne_zero (p : Nat) (h : IS_ERR p = true) :
    PTR_ERR p ≠ 0 ∧ -4095 ≤ PTR_ERR p ∧ PTR_ERR p < 0 := by
  unfold IS_ERR at h
  simp only [decide_eq_true_eq] at h
  unfold PTR_ERR to_int32
  have hlt : p % 2 ^ 32 < 2 ^ 32 := Nat.mod_lt _ (by norm_num)
  rw [if_neg (by omega)]
  omega

/-- The value `mddi_init` returns on the exits other than the failure of `clk_set_rate`:
`PTR_ERR` of the clock pointer (nonzero for the sample macros), `-ENOMEM`, the result of
`request_irq`, and `-ENODEV`; each differs from 0 when the two errno constants do. -/
theorem mddi_init_other_exits (hw : mddi_hw) (env : init_env) (clk_rate : Nat)
    (s : init_sys) :
    (env.IS_ERR env.clk_get = true →
      (∃ t, mddi_init hw env clk_rate s = .ok (env.PTR_ERR env.clk_get, t)) ∧
      (env.IS_ERR = IS_ERR → env.PTR_ERR = PTR_ERR → env.PTR_ERR env.clk_get ≠ 0)) ∧
    (env.IS_ERR env.clk_get = false → env.clk_set_rate = 0 → env.dma_alloc_coherent = none →
      ∃ t, mddi_init hw env clk_rate s = .ok (-(hw.ENOMEM : Int), t)) ∧
    (env.IS_ERR env.clk_get = false → env.clk_set_rate = 0 →
      (∃ a, env.dma_alloc_coherent = some a) → env.request_irq ≠ 0 →
      ∃ t, mddi_init hw env clk_rate s = .ok (env.request_irq, t)) ∧
    (env.IS_ERR env.clk_get = false → env.clk_set_rate = 0 →
      (∃ a, env.dma_alloc_coherent = some a) → env.request_irq = 0 →
      env.CORE_VER &&& 0xffff < 0x20 →
      ∃ t, mddi_init hw env clk_rate s = .ok (-(hw.ENODEV : Int), t)) := by
  have hclk : ∀ b, env.IS_ERR env.clk_get = b →
      env.IS_ERR ({ (mddi_init_pd env s).call .clk_get with clk := env.clk_get } :
        init_sys).clk = b := fun b h => h
  refine ⟨?_, ?_, ?_, ?_⟩
  · intro h
    refine ⟨?_, fun h1 h2 => ?_⟩
    · unfold mddi_init
      simp only [hclk true h, if_true]
      exact ⟨_, rfl⟩
    · rw [h2]
      rw [h1] at h
      exact (PTR_ERR_ne_zero _ h).1
  · intro h1 h2 h3
    unfold mddi_init
    simp only [hclk false h1, h2, h3, ne_eq, not_true_eq_false, if_false, Bool.false_eq_true]
    exact ⟨_, rfl⟩
  · intro h1 h2 ⟨a, h3⟩ h4
    unfold mddi_init
    simp only [hclk false h1, h2, h3, h4, ne_eq, not_true_eq_false, not_false_eq_true, if_false,
      if_true, Bool.false_eq_true]
    exact ⟨_, rfl⟩
  · intro h1 h2 ⟨a, h3⟩ h4 h5
    unfold mddi_init
    simp only [hclk false h1, h2, h3, h4, ne_eq, not_true_eq_false, if_false,
      Bool.false_eq_true]
    rw [if_pos]
    · exact ⟨_, rfl⟩
    show (init_sys.run (mddi_init_bringup hw env) _).drv.mddi.version < 0x20
    show (mddi_init_bringup hw env _).mddi.version < 0x20
    rw [bringup_version]
    exact h5

/-- C19, the failing input.  When `clk_get` succeeds and `clk_set_rate` fails, `mddi_init`
leaves through `fail0` with `ret` still holding the result of `clk_enable`: it releases
the clock and returns that result, hence 0 whenever `clk_enable` succeeded. -/
theorem C19_clk_rate_failure_returns_clk_enable (hw : mddi_hw) (env : init_env)
    (clk_rate : Nat) (s : init_sys) (hclk : env.IS_ERR env.clk_get = false)
    (hrate : env.clk_set_rate ≠ 0) :
    ∃ t : init_sys, mddi_init hw env clk_rate s = .ok (env.clk_enable, t) ∧
      (env.clk_enable = 0 → mddi_init hw env clk_rate s = .ok (0, t)) ∧
      t.calls = s.calls ++ [.clk_get, .clk_enable, .clk_set_rate clk_rate, .clk_put] := by
  have hc : env.IS_ERR ({ (mddi_init_pd env s).call .clk_get with clk := env.clk_get } :
      init_sys).clk = false := hclk
  have hpd : (mddi_init_pd env s).calls = s.calls := by
    unfold mddi_init_pd
    cases env.pd with
    | none => rfl
    | some pd => dsimp only; split_ifs <;> rfl
  have e : mddi_init hw env clk_rate s = .ok (env.clk_enable, init_fail0
      (init_sys.call (.clk_set_rate clk_rate)
        { (init_sys.call .clk_enable
            { (mddi_init_pd env s).call .clk_get with clk := env.clk_get }) with
          clk_rate := clk_rate })) := by
    unfold mddi_init
    simp only [hc, hrate, ne_eq, not_false_eq_true, if_true, if_false, Bool.false_eq_true]
  refine ⟨_, e, fun h => ?_, ?_⟩
  · rw [e, h]
  · simp [init_fail0, init_sys.call, hpd]

/-- C19, instantiated: `clk_enable` returns 0 and `clk_set_rate` returns `-EINVAL`. -/
theorem C19_clk_rate_failure_returns_clk_enable_witness :
    (sample_rate_failure.IS_ERR sample_rate_failure.clk_get = false ∧
      sample_rate_failure.clk_set_rate ≠ 0) ∧
    ∃ t : init_sys,
      mddi_init sample_hw sample_rate_failure 122880000 sample_init_sys = .ok (0, t) ∧
      t.calls = [.clk_get, .clk_enable, .clk_set_rate 122880000, .clk_put] :=
  have h := C19_clk_rate_failure_returns_clk_enable sample_hw sample_rate_failure 122880000
    sample_init_sys (by decide) (by decide)
  ⟨⟨by decide, by decide⟩, h.imp fun _ ht => ⟨ht.2.1 rfl, ht.2.2⟩⟩
end Mddi

namespace Acpuclock

/-! ### The clock driver -/

theorem same_speed_refl (s : acpu_sys) : same_speed s s := ⟨rfl, rfl, rfl⟩

theorem same_speed_trans {a b c : acpu_sys} (h1 : same_speed a b) (h2 : same_speed b c) :
    same_speed a c :=
  ⟨h2.1.trans h1.1, h2.2.1.trans h1.2.1, h2.2.2.trans h1.2.2⟩

theorem scpll_set_freq_frame (lval : Nat) (s : acpu_sys) :
    same_speed s (scpll_set_freq lval s) := by
  simp [same_speed, scpll_set_freq, poll_status, udelay, write_SCPLL_CTL,
    write_SCPLL_FSM_CTL_EXT]

theorem scpll_apps_enable_frame (state : Bool) (s : acpu_sys) :
    same_speed s (scpll_apps_enable state s) := by
  cases state <;> simp [same_speed, scpll_apps_enable, poll_status, udelay, write_SCPLL_CTL]

theorem scpll_init_frame (lval : Nat) (s : acpu_sys) : same_speed s (scpll_init lval s) := by
  unfold scpll_init
  exact same_speed_trans (by simp [same_speed, poll_status, write_SCPLL_CTL])
    (scpll_set_freq_frame lval _)

theorem select_clock_frame (src config : Nat) (s : acpu_sys) :
    same_speed s (select_clock src config s) := by
  unfold select_clock
  dsimp only
  split_ifs <;> exact ⟨rfl, rfl, rfl⟩

theorem switch_clock_frame (cur next : clkctl_acpu_speed) (s : acpu_sys) :
    same_speed s (switch_clock cur next s) := by
  unfold switch_clock
  split_ifs
  · exact same_speed_trans (same_speed_trans (same_speed_trans (scpll_apps_enable_frame _ _)
      (select_clock_frame _ _ _)) (scpll_set_freq_frame _ _)) (select_clock_frame _ _ _)
  · exact same_speed_trans (same_speed_trans (scpll_apps_enable_frame _ _)
      (scpll_set_freq_frame _ _)) (select_clock_frame _ _ _)
  · exact same_speed_trans (same_speed_trans (select_clock_frame _ _ _)
      (scpll_set_freq_frame _ _)) (select_clock_frame _ _ _)
  · exact same_speed_trans (scpll_set_freq_frame _ _) (select_clock_frame _ _ _)
  · exact same_speed_trans (same_speed_trans (select_clock_frame _ _ _)
      (select_clock_frame _ _ _)) (scpll_apps_enable_frame _ _)
  · exact select_clock_frame _ _ _

/-- A walk that ends with `break` stands at an entry whose `acpu_khz` is the rate. -/
theorem find_rate_found (rate : Nat) (tbl : List clkctl_acpu_speed) :
    ∀ i n, find_rate rate tbl i = .found n →
      i ≤ n ∧ (tbl.get? (n - i)).map (fun e => e.acpu_khz) = some rate := by
  induction tbl with
  | nil => intro i n h; simp [find_rate] at h
  | cons e rest ih =>
    intro i n h
    unfold find_rate at h
    split_ifs at h with h1 h2
    · simp only [lookup.found.injEq] at h
      subst h
      simp [h1]
    · obtain ⟨b1, b2⟩ := ih (i + 1) n h
      refine ⟨by omega, ?_⟩
      have e2 : n - i = (n - (i + 1)) + 1 := by omega
      rw [e2, List.get?_cons_succ]
      exact b2

/-- A walk for a rate that no entry has ends at the first zero entry. -/
theorem find_rate_absent (rate : Nat) (tbl : List clkctl_acpu_speed) :
    ∀ i, (∀ e ∈ tbl, e.acpu_khz ≠ rate) → (∃ e ∈ tbl, e.acpu_khz = 0) →
      find_rate rate tbl i = .at_zero := by
  induction tbl with
  | nil => intro i _ h; obtain ⟨e, he, -⟩ := h; simp at he
  | cons e rest ih =>
    intro i hne hz
    unfold find_rate
    rw [if_neg (hne e (List.mem_cons_self _ _))]
    split_ifs with h2
    · rfl
    · apply ih (i + 1) (fun e2 he2 => hne e2 (List.mem_cons_of_mem _ he2))
      obtain ⟨z, hz1, hz2⟩ := hz
      rcases List.mem_cons.mp hz1 with rfl | hz1
      · exact absurd hz2 h2
      · exact ⟨z, hz1, hz2⟩

theorem set_rate_frame (s : acpu_sys) (cur next : clkctl_acpu_speed) (n : Nat) :
    (set_loops_per_jiffy ((set_current_speed n (switch_clock cur next s)).lpj n)
      (set_current_speed n (switch_clock cur next s))).drv_state.current_speed = some n ∧
    (set_loops_per_jiffy ((set_current_speed n (switch_clock cur next s)).lpj n)
      (set_current_speed n (switch_clock cur next s))).loops_per_jiffy = s.lpj n ∧
    (set_loops_per_jiffy ((set_current_speed n (switch_clock cur next s)).lpj n)
      (set_current_speed n (switch_clock cur next s))).lpj = s.lpj := by
  obtain ⟨-, -, h3⟩ := switch_clock_frame cur next s
  refine ⟨rfl, ?_, h3⟩
  show (switch_clock cur next s).lpj n = _
  rw [h3]

/-- The behaviour of `acpuclk_set_rate` for a rate of at least 1000 Hz while a real entry
is current: `-EINVAL` and no change when no entry has the rate in kHz, and after a result
of 0 the current entry has that rate. -/
theorem set_rate_from_1000 (env : acpu_env) (rate : Nat) (fpc : Int) (s : acpu_sys) (c : Nat)
    (cur : clkctl_acpu_speed) (hcur : s.drv_state.current_speed = some c)
    (hget : acpu_freq_tbl.get? c = some cur) (hrate : rate % 2 ^ 32 / 1000 ≠ 0) :
    (rate % 2 ^ 32 / 1000 ≠ cur.acpu_khz →
      (∀ e ∈ acpu_freq_tbl, e.acpu_khz ≠ rate % 2 ^ 32 / 1000) →
      acpuclk_set_rate env rate fpc s = some (-(env.EINVAL : Int), s)) ∧
    (∀ s2, acpuclk_set_rate env rate fpc s = some (0, s2) → env.EINVAL ≠ 0 →
      ∃ n e, s2.drv_state.current_speed = some n ∧ acpu_freq_tbl.get? n = some e ∧
        e.acpu_khz = rate % 2 ^ 32 / 1000 ∧ e.acpu_khz ≠ 0) := by
  constructor
  · intro h1 h2
    unfold acpuclk_set_rate
    simp only [hcur, hget]
    rw [if_neg h1, find_rate_absent _ _ 0 h2 ⟨⟨0, 0, 0, 0, 0⟩, by decide, rfl⟩]
  · intro s2 h hE
    unfold acpuclk_set_rate at h
    simp only [hcur, hget] at h
    split_ifs at h with h1
    · simp only [Option.some.injEq, Prod.mk.injEq, true_and] at h
      subst h
      exact ⟨c, cur, hcur, hget, h1.symm, by rw [← h1]; exact hrate⟩
    · cases hf : find_rate (rate % 2 ^ 32 / 1000) acpu_freq_tbl 0 with
      | overrun => rw [hf] at h; simp at h
      | at_zero =>
        rw [hf] at h
        simp only [Option.some.injEq, Prod.mk.injEq] at h
        have : (env.EINVAL : Int) = 0 := by omega
        exact absurd (by exact_mod_cast this) hE
      | found n =>
        rw [hf] at h
        obtain ⟨-, b2⟩ := find_rate_found _ _ 0 n hf
        rw [Nat.sub_zero] at b2
        cases hn : acpu_freq_tbl.get? n with
        | none => rw [hn] at b2; simp at b2
        | some next =>
          rw [hn] at b2
          simp only [hn, Option.some.injEq, Prod.mk.injEq, true_and] at h
          simp only [Option.map_some', Option.some.injEq] at b2
          subst h
          exact ⟨n, next, rfl, hn, b2, by rw [b2]; exact hrate⟩

/-- C17, the failing inputs.  For every rate below 1000 Hz (so that the rate in kHz is 0)
while a real entry is current, `acpuclk_set_rate` finds the terminator of `acpu_freq_tbl`
(index 21, `acpu_khz` 0) as if it were a speed: the result is 0, not `-EINVAL`, the
terminator becomes the current speed and `loops_per_jiffy` takes the terminator's `lpj`. -/
theorem C17_rate_below_1000_selects_terminator (env : acpu_env) (rate : Nat) (fpc : Int)
    (s : acpu_sys) (c : Nat) (cur : clkctl_acpu_speed)
    (hcur : s.drv_state.current_speed = some c) (hget : acpu_freq_tbl.get? c = some cur)
    (hreal : cur.acpu_khz ≠ 0) (hrate : rate % 2 ^ 32 / 1000 = 0) :
    ∃ s2, acpuclk_set_rate env rate fpc s = some (0, s2) ∧
      s2.drv_state.current_speed = some 21 ∧
      acpu_freq_tbl.get? 21 = some ⟨0, 0, 0, 0, 0⟩ ∧ acpu_freq_tbl.length = 22 ∧
      s2.loops_per_jiffy = s.lpj 21 := by
  have hf : find_rate 0 acpu_freq_tbl 0 = .found 21 := by decide
  have hn : acpu_freq_tbl.get? 21 = some ⟨0, 0, 0, 0, 0⟩ := by decide
  obtain ⟨f1, f2, -⟩ := set_rate_frame s cur ⟨0, 0, 0, 0, 0⟩ 21
  refine ⟨_, ?_, f1, hn, by decide, f2⟩
  unfold acpuclk_set_rate
  simp only [hcur, hget, hrate]
  rw [if_neg (fun h => hreal h.symm), hf]
  simp only [hn]

/-- C17, instantiated: `acpuclk_set_rate(0, 0)` while the 768000 kHz entry is current. -/
theorem C17_rate_below_1000_selects_terminator_witness :
    (running_sys.drv_state.current_speed = some 14 ∧
      acpu_freq_tbl.get? 14 = some ⟨768000, CCTL CLK_TCXO 1, SRC_SCPLL, 0x14, 0⟩ ∧
      (768000 : Nat) ≠ 0 ∧ 0 % 2 ^ 32 / 1000 = 0) ∧
    ∃ s2, acpuclk_set_rate sample_env 0 0 running_sys = some (0, s2) ∧
      s2.drv_state.current_speed = some 21 ∧
      acpu_freq_tbl.get? 21 = some ⟨0, 0, 0, 0, 0⟩ ∧ acpu_freq_tbl.length = 22 ∧
      s2.loops_per_jiffy = running_sys.lpj 21 :=
  ⟨⟨rfl, by decide, by decide, by decide⟩,
    C17_rate_below_1000_selects_terminator sample_env 0 0 running_sys 14
      ⟨768000, CCTL CLK_TCXO 1, SRC_SCPLL, 0x14, 0⟩ rfl (by decide) (by decide) (by decide)⟩

theorem init_hw_frame (s : acpu_sys) (l : Nat) :
    same_speed s (select_clock SRC_SCPLL 0 (scpll_set_freq l (scpll_apps_enable true
      (scpll_init 0x14 (select_clock SRC_AXI 0 s))))) :=
  same_speed_trans (same_speed_trans (same_speed_trans (same_speed_trans
    (select_clock_frame _ _ _) (scpll_init_frame _ _)) (scpll_apps_enable_frame _ _))
    (scpll_set_freq_frame _ _)) (select_clock_frame _ _ _)

/-- The loop over the table as initialised: every real entry gets its scaled value, the
terminator keeps its `lpj`, and the loop variable ends on the terminator. -/
theorem scale_lpj_tbl (env : acpu_env) (l khz : Nat) (lpj : Nat → Nat) :
    (scale_lpj env l khz acpu_freq_tbl 0 lpj).2 = some 21 ∧
    (scale_lpj env l khz acpu_freq_tbl 0 lpj).1 14 = env.cpufreq_scale l khz 768000 ∧
    (scale_lpj env l khz acpu_freq_tbl 0 lpj).1 21 = lpj 21 := by
  refine ⟨rfl, ?_, ?_⟩ <;> simp [scale_lpj, acpu_freq_tbl, Function.update]

/-- The scaling loop entered at index `i` leaves the members below `i` alone. -/
theorem scale_lpj_below (env : acpu_env) (l khz : Nat) (tbl : List clkctl_acpu_speed) :
    ∀ (i : Nat) (lpj : Nat → Nat) (j : Nat), j < i →
      (scale_lpj env l khz tbl i lpj).1 j = lpj j := by
  induction tbl with
  | nil => intro i lpj j _; rfl
  | cons e rest ih =>
    intro i lpj j hj
    unfold scale_lpj
    split_ifs with h
    · rw [ih (i + 1) _ j (by omega), Function.update_noteq (by omega)]
    · rfl

theorem scale_lpj_at (env : acpu_env) (l khz : Nat) (tbl : List clkctl_acpu_speed) :
    ∀ (i : Nat) (lpj : Nat → Nat) (n : Nat) (e : clkctl_acpu_speed),
      tbl.get? n = some e →
      (∀ k e2, k ≤ n → tbl.get? k = some e2 → e2.acpu_khz ≠ 0) →
      (scale_lpj env l khz tbl i lpj).1 (i + n) = env.cpufreq_scale l khz e.acpu_khz := by
  induction tbl with
  | nil => intro i lpj n e he; simp at he
  | cons x rest ih =>
    intro i lpj n e he hall
    unfold scale_lpj
    rw [if_pos (hall 0 x (Nat.zero_le n) rfl)]
    cases n with
    | zero =>
      simp only [List.get?_cons_zero, Option.some.injEq] at he
      subst he
      show (scale_lpj env l khz rest (i + 1) _).1 i = _
      rw [scale_lpj_below env l khz rest (i + 1) _ i (by omega), Function.update_same]
    | succ n =>
      rw [List.get?_cons_succ] at he
      have e2 : i + (n + 1) = (i + 1) + n := by omega
      rw [e2]
      exact ih (i + 1) _ n e he
        (fun k e3 hk h3 => hall (k + 1) e3 (by omega) (by rw [List.get?_cons_succ]; exact h3))

theorem tbl_real_entries : ∀ k, k < 21 → ∀ e2, acpu_freq_tbl.get? k = some e2 →
    e2.acpu_khz ≠ 0 := by
  intro k hk e2 he
  have h : ∀ k : Fin 21, ((acpu_freq_tbl.get? k.1).map fun e => e.acpu_khz) ≠ some 0 := by decide
  intro h0
  apply h ⟨k, hk⟩
  show Option.map (fun e => e.acpu_khz) (acpu_freq_tbl.get? k) = some 0
  rw [he, Option.map_some', h0]

/-- The loop over the table as initialised gives every real entry its scaled value. -/
theorem scale_lpj_real (env : acpu_env) (l khz : Nat) (lpj : Nat → Nat) (n : Nat)
    (e : clkctl_acpu_speed) (hn : n < 21) (he : acpu_freq_tbl.get? n = some e) :
    (scale_lpj env l khz acpu_freq_tbl 0 lpj).1 n = env.cpufreq_scale l khz e.acpu_khz ∧
    e.acpu_khz ≠ 0 := by
  refine ⟨?_, tbl_real_entries n hn e he⟩
  have h := scale_lpj_at env l khz acpu_freq_tbl 0 lpj n e he
    (fun k e2 hk h2 => tbl_real_entries k (by omega) e2 h2)
  rwa [Nat.zero_add] at h

/-- C18, the failing input.  Whenever `acpuclk_init` completes (the boot clock source is
one `acpuclk_find_speed` knows, running at `khz`), the 768000 kHz entry (index 14) is the
current speed and its `lpj` is `cpufreq_scale(loops_per_jiffy, khz, 768000)`, but
`loops_per_jiffy` is left with the `lpj` of the terminator (index 21), on which the loop
variable `speed` stands after the scaling loop; that member is never written, so it holds
the 0 of the static initialiser.  Every real entry has got the value `cpufreq_scale`
computes for it. -/
theorem C18_init_takes_lpj_of_terminator (env : acpu_env) (s : acpu_sys) (khz : Nat)
    (hfs : acpuclk_find_speed s = some khz) :
    ∃ s2, acpuclk_init env s = some s2 ∧
      s2.drv_state.current_speed = some 14 ∧
      (acpu_freq_tbl.get? 14).map (fun e => e.acpu_khz) = some 768000 ∧
      s2.lpj 14 = env.cpufreq_scale s.loops_per_jiffy khz 768000 ∧
      s2.loops_per_jiffy = s.lpj 21 ∧ s2.lpj 21 = s.lpj 21 ∧
      (∀ n e, n < 21 → acpu_freq_tbl.get? n = some e →
        s2.lpj n = env.cpufreq_scale s.loops_per_jiffy khz e.acpu_khz) := by
  have hf : find_rate 768000 acpu_freq_tbl 0 = .found 14 := by decide
  have hn : acpu_freq_tbl.get? 14 = some ⟨768000, CCTL CLK_TCXO 1, SRC_SCPLL, 0x14, 0⟩ := by
    decide
  obtain ⟨g1, g2, g3⟩ := init_hw_frame s 0x14
  obtain ⟨k1, k2, k3⟩ := scale_lpj_tbl env s.loops_per_jiffy khz s.lpj
  have hout : acpuclk_init env s = some (set_loops_per_jiffy
      ((scale_lpj env s.loops_per_jiffy khz acpu_freq_tbl 0 s.lpj).1 21)
      (set_lpj (scale_lpj env s.loops_per_jiffy khz acpu_freq_tbl 0 s.lpj).1
        (set_current_speed 14 (select_clock SRC_SCPLL 0 (scpll_set_freq 0x14
          (scpll_apps_enable true (scpll_init 0x14 (select_clock SRC_AXI 0 s)))))))) := by
    unfold acpuclk_init
    simp only [hfs, hf, hn]
    have e1 : (set_current_speed 14 (select_clock SRC_SCPLL 0 (scpll_set_freq 0x14
        (scpll_apps_enable true (scpll_init 0x14 (select_clock SRC_AXI 0 s)))))).loops_per_jiffy
        = s.loops_per_jiffy := g2
    have e2 : (set_current_speed 14 (select_clock SRC_SCPLL 0 (scpll_set_freq 0x14
        (scpll_apps_enable true (scpll_init 0x14 (select_clock SRC_AXI 0 s)))))).lpj
        = s.lpj := g3
    rw [e1, e2, k1]
    rfl
  refine ⟨_, hout, rfl, by rw [hn]; rfl, k2, k3, k3, ?_⟩
  intro n e hlt he
  exact (scale_lpj_real env s.loops_per_jiffy khz s.lpj n e hlt he).1

/-- C18, instantiated on the sample boot state (AXI clock, 128000 kHz, `loops_per_jiffy`
640000): the current entry's `lpj` is 3840000 and `loops_per_jiffy` ends as 0. -/
theorem C18_init_takes_lpj_of_terminator_witness :
    acpuclk_find_speed boot_sys = some 128000 ∧
    ∃ s2, acpuclk_init sample_env boot_sys = some s2 ∧
      s2.drv_state.current_speed = some 14 ∧
      (acpu_freq_tbl.get? 14).map (fun e => e.acpu_khz) = some 768000 ∧
      s2.lpj 14 = 3840000 ∧ s2.loops_per_jiffy = 0 ∧ s2.lpj 21 = 0 :=
  have h := C18_init_takes_lpj_of_terminator sample_env boot_sys 128000 (by decide)
  ⟨by decide, h.choose, h.choose_spec.1, h.choose_spec.2.1, h.choose_spec.2.2.1,
    h.choose_spec.2.2.2.1, h.choose_spec.2.2.2.2.1, h.choose_spec.2.2.2.2.2.1⟩

end Acpuclock
